import Mathlib

/-!
# Game-server state (`src/game-server/state.cpp`)

A shallow embedding of the deferred event queue (`delayedEvents`, `enqueueEvent`,
the drain loop of `GameState::update`), of `serializeLooks` and of `informPlayer`,
of `Monster::update` (`src/game-server/monster.cpp`) and of
`AccountHandler::receiveMessage` (`src/accounthandler.cpp`), followed by theorems about
them.

Conventions: pointers are natural numbers (`0` is the null pointer), C `int`s are
`Int`, `unsigned short`s are naturals reduced modulo `65536`, and output through
`gameHandler->sendTo` is an explicit list of messages.
-/

namespace GameState

/-! ## Deferred events -/

/-- An `Object *`. -/
abbrev ObjectPtr := Nat

/-- A `MapComposite *`. -/
abbrev MapPtr := Nat

/-- The anonymous enum `EVENT_REMOVE = 0, EVENT_INSERT, EVENT_WARP`. -/
inductive EventType where
  | EVENT_REMOVE
  | EVENT_INSERT
  | EVENT_WARP
  deriving DecidableEq, Repr

/-- Conversion of an `int` to `unsigned short`. -/
def toUShort (v : Int) : Nat := (v % 65536).toNat

/-- The struct `DelayedEvent`: `unsigned short type, x, y; MapComposite *map`. -/
structure DelayedEvent where
  type : EventType
  x : Nat
  y : Nat
  map : MapPtr
  deriving DecidableEq, Repr

/-- The type `std::map< Object *, DelayedEvent >`: the entries in ascending key order. -/
abbrev DelayedEvents := List (ObjectPtr × DelayedEvent)

/-- The call `std::map::insert(std::make_pair(k, e))`: the entry is added at its place in
key order unless the key is already present; the boolean tells whether it was added. -/
def stdMapInsert (k : ObjectPtr) (e : DelayedEvent) : DelayedEvents → DelayedEvents × Bool
  | [] => ([(k, e)], true)
  | (k0, e0) :: rest =>
    if k < k0 then ((k, e) :: (k0, e0) :: rest, true)
    else if k = k0 then ((k0, e0) :: rest, false)
    else ((k0, e0) :: (stdMapInsert k e rest).1, (stdMapInsert k e rest).2)

/-- The assignment `p.first->second.type = EVENT_REMOVE` on the entry with key `k`. -/
def setTypeRemove (k : ObjectPtr) : DelayedEvents → DelayedEvents
  | [] => []
  | (k0, e0) :: rest =>
    if k = k0 then (k0, { e0 with type := EventType.EVENT_REMOVE }) :: rest
    else (k0, e0) :: setTypeRemove k rest

/-- The function `enqueueEvent(Object *ptr, DelayedEvent const &e)`. -/
def enqueueEvent (ptr : ObjectPtr) (e : DelayedEvent) (delayedEvents : DelayedEvents) :
    DelayedEvents :=
  let p := stdMapInsert ptr e delayedEvents
  -- Delete events take precedence over other events.
  if !p.2 && e.type == EventType.EVENT_REMOVE then setTypeRemove ptr p.1 else p.1

/-- The function `GameState::enqueueInsert(Object *ptr)`. -/
def enqueueInsert (ptr : ObjectPtr) (q : DelayedEvents) : DelayedEvents :=
  enqueueEvent ptr { type := EventType.EVENT_INSERT, x := 0, y := 0, map := 0 } q

/-- The function `GameState::enqueueRemove(Object *ptr)`. -/
def enqueueRemove (ptr : ObjectPtr) (q : DelayedEvents) : DelayedEvents :=
  enqueueEvent ptr { type := EventType.EVENT_REMOVE, x := 0, y := 0, map := 0 } q

/-- The function `GameState::enqueueWarp(Character *ptr, MapComposite *m, int x, int y)`;
the coordinates are narrowed to `unsigned short` by the initialisation of the event. -/
def enqueueWarp (ptr : ObjectPtr) (m : MapPtr) (x y : Int) (q : DelayedEvents) :
    DelayedEvents :=
  enqueueEvent ptr { type := EventType.EVENT_WARP, x := toUShort x, y := toUShort y, map := m } q

/-- One call of the public enqueue interface. -/
inductive Request where
  | insert (ptr : ObjectPtr)
  | remove (ptr : ObjectPtr)
  | warp (ptr : ObjectPtr) (m : MapPtr) (x y : Int)
  deriving DecidableEq, Repr

/-- The entity a request is about. -/
def Request.target : Request → ObjectPtr
  | .insert ptr => ptr
  | .remove ptr => ptr
  | .warp ptr _ _ _ => ptr

/-- Performs one call of the enqueue interface. -/
def Request.run : Request → DelayedEvents → DelayedEvents
  | .insert ptr, q => enqueueInsert ptr q
  | .remove ptr, q => enqueueRemove ptr q
  | .warp ptr m x y, q => enqueueWarp ptr m x y q

/-- Performs a sequence of calls of the enqueue interface, in order. -/
def enqueueAll (rs : List Request) (q : DelayedEvents) : DelayedEvents :=
  rs.foldl (fun acc r => r.run acc) q

/-- The event stored for an entity, if any. -/
def pending (o : ObjectPtr) (q : DelayedEvents) : Option DelayedEvent :=
  (q.find? (fun p => p.1 == o)).map Prod.snd

/-- The result of `Thing::getType()`, as far as this file distinguishes it. -/
inductive ObjectType where
  | OBJECT_ITEM
  | OBJECT_ACTOR
  | OBJECT_NPC
  | OBJECT_MONSTER
  | OBJECT_CHARACTER
  | OBJECT_OTHER
  deriving DecidableEq, Repr

/-- The calls the drain loop of `GameState::update` makes on an entity. -/
inductive Call where
  | remove (o : ObjectPtr)
  | disconnected (o : ObjectPtr)
  | kill (o : ObjectPtr)
  | delete (o : ObjectPtr)
  | insertSafe (o : ObjectPtr)
  | warp (o : ObjectPtr) (map : MapPtr) (x y : Nat)
  deriving DecidableEq, Repr

/-- The body of the drain loop for one entry (the `switch (e.type)`); `none` when the
assertion of the `EVENT_WARP` case fails. -/
def applyEvent (getType : ObjectPtr → ObjectType) (o : ObjectPtr) (e : DelayedEvent) :
    Option (List Call) :=
  match e.type with
  | .EVENT_REMOVE =>
    some ([Call.remove o]
      ++ (if getType o = ObjectType.OBJECT_CHARACTER then [Call.disconnected o, Call.kill o]
          else [])
      ++ [Call.delete o])
  | .EVENT_INSERT => some [Call.insertSafe o]
  | .EVENT_WARP =>
    if getType o = ObjectType.OBJECT_CHARACTER then some [Call.warp o e.map e.x e.y] else none

/-- The loop over `delayedEvents` at the end of `GameState::update`, in key order. -/
def applyEvents (getType : ObjectPtr → ObjectType) : DelayedEvents → Option (List Call)
  | [] => some []
  | (o, e) :: rest =>
    match applyEvent getType o e with
    | none => none
    | some cs =>
      match applyEvents getType rest with
      | none => none
      | some ds => some (cs ++ ds)

/-- The end of `GameState::update`: the delayed events are applied, then
`delayedEvents.clear()` empties the queue. The result is the calls made and the queue left. -/
def drain (getType : ObjectPtr → ObjectType) (q : DelayedEvents) :
    Option (List Call × DelayedEvents) :=
  (applyEvents getType q).map (fun cs => (cs, []))

/-- The entity a call of the drain is made on. -/
def Call.target : Call → ObjectPtr
  | .remove o => o
  | .disconnected o => o
  | .kill o => o
  | .delete o => o
  | .insertSafe o => o
  | .warp o _ _ _ => o

/-- Whether a call is one of the three structural operations `remove`, `insertSafe`, `warp`. -/
def Call.isStructural : Call → Bool
  | .remove _ => true
  | .insertSafe _ => true
  | .warp _ _ _ _ => true
  | _ => false

/-- Whether a call is `remove(o)`. -/
def Call.isRemoveOf (o : ObjectPtr) : Call → Bool
  | .remove o0 => o0 == o
  | _ => false

/-- Whether a call is `insertSafe(o)`. -/
def Call.isInsertOf (o : ObjectPtr) : Call → Bool
  | .insertSafe o0 => o0 == o
  | _ => false

/-- Whether a call is `warp(o, ...)`. -/
def Call.isWarpOf (o : ObjectPtr) : Call → Bool
  | .warp o0 _ _ _ => o0 == o
  | _ => false

/-- Whether a call is `delete o`. -/
def Call.isDeleteOf (o : ObjectPtr) : Call → Bool
  | .delete o0 => o0 == o
  | _ => false

/-- The static typing of `enqueueWarp`, whose first parameter is a `Character *`: the
target of a warp request is a character. -/
def Request.wellTyped (getType : ObjectPtr → ObjectType) : Request → Bool
  | .warp ptr _ _ _ => getType ptr == ObjectType.OBJECT_CHARACTER
  | _ => true

/-- The event a request hands to `enqueueEvent`. -/
def Request.event : Request → DelayedEvent
  | .insert _ => { type := EventType.EVENT_INSERT, x := 0, y := 0, map := 0 }
  | .remove _ => { type := EventType.EVENT_REMOVE, x := 0, y := 0, map := 0 }
  | .warp _ m x y => { type := EventType.EVENT_WARP, x := toUShort x, y := toUShort y, map := m }

/-! ## Invariants of the deferred event queue -/

/-- The queue invariant of `std::map`: keys strictly ascending. -/
def Sorted (q : DelayedEvents) : Prop := (q.map Prod.fst).Pairwise (fun a b => a < b)

/-- The merge rule of `enqueueEvent`, read through `pending`. -/
def mergeEvent (e : DelayedEvent) : Option DelayedEvent → DelayedEvent
  | none => e
  | some e0 =>
    if e.type = EventType.EVENT_REMOVE then { e0 with type := EventType.EVENT_REMOVE } else e0

/-- Every stored warp event is stored for a character. -/
def Typed (getType : ObjectPtr → ObjectType) (q : DelayedEvents) : Prop :=
  ∀ o e, pending o q = some e → e.type = EventType.EVENT_WARP →
    getType o = ObjectType.OBJECT_CHARACTER

/-! ## Outgoing messages -/

/-- The message tags used by `state.cpp`. -/
inductive MsgId where
  | GPMSG_BEINGS_MOVE
  | GPMSG_BEINGS_DAMAGE
  | GPMSG_BEING_ATTACK
  | GPMSG_BEING_ACTION_CHANGE
  | GPMSG_BEING_LOOKS_CHANGE
  | GPMSG_BEING_DIR_CHANGE
  | GPMSG_BEING_LEAVE
  | GPMSG_BEING_ENTER
  | GPMSG_ITEMS
  | GPMSG_ITEM_APPEAR
  | GPMSG_PLAYER_MAP_CHANGE
  | GAMSG_REDIRECT
  deriving DecidableEq, Repr

/-- One value written into a message body. -/
inductive MsgField where
  | byte (v : Nat)
  | short (v : Nat)
  | long (v : Nat)
  | coordinates (x y : Nat)
  | string (s : String)
  deriving DecidableEq, Repr

/-- Modelled from the spec: the class `MessageOut` (`net/messageout.hpp`) is not among the
sources. "Each message has a numeric type tag followed by a fixed or length-prefixed
payload": a message is its tag and the values written after it, in order. -/
structure MessageOut where
  id : MsgId
  fields : List MsgField
  deriving DecidableEq, Repr

/-- The constructor `MessageOut(id)`: a message holding only its tag. -/
def MessageOut.new (id : MsgId) : MessageOut := { id := id, fields := [] }

/-- The method `writeByte`: one byte, the value reduced modulo `256`. -/
def MessageOut.writeByte (m : MessageOut) (v : Nat) : MessageOut :=
  { m with fields := m.fields ++ [MsgField.byte (v % 256)] }

/-- The method `writeShort`: two bytes, the value reduced modulo `65536`. -/
def MessageOut.writeShort (m : MessageOut) (v : Nat) : MessageOut :=
  { m with fields := m.fields ++ [MsgField.short (v % 65536)] }

/-- The method `writeLong`: four bytes, the value reduced modulo `2 ^ 32`. -/
def MessageOut.writeLong (m : MessageOut) (v : Nat) : MessageOut :=
  { m with fields := m.fields ++ [MsgField.long (v % 4294967296)] }

/-- The method `writeCoordinates`: a pair of tile coordinates packed in three bytes. -/
def MessageOut.writeCoordinates (m : MessageOut) (x y : Nat) : MessageOut :=
  { m with fields := m.fields ++ [MsgField.coordinates x y] }

/-- The method `writeString`: a length-prefixed string. -/
def MessageOut.writeString (m : MessageOut) (s : String) : MessageOut :=
  { m with fields := m.fields ++ [MsgField.string s] }

/-- The number of bytes a written value occupies. -/
def MsgField.size : MsgField → Nat
  | .byte _ => 1
  | .short _ => 2
  | .long _ => 4
  | .coordinates _ _ => 3
  | .string s => 2 + s.utf8ByteSize

/-- The method `getLength`: two bytes of tag and the bytes of the body. -/
def MessageOut.getLength (m : MessageOut) : Nat := 2 + (m.fields.map MsgField.size).sum

/-! ## Objects -/

/-- Modelled from the spec: `point.h` is not among the sources. A position in pixels. -/
structure Point where
  x : Nat
  y : Nat
  deriving DecidableEq, Repr

/-- Modelled from the spec: `Point::inRangeOf` (`point.h`) is not among the sources. "Within
a fixed proximity radius": both coordinates differ by at most the radius. -/
def Point.inRangeOf (a p : Point) (radius : Nat) : Bool :=
  decide ((a.x - p.x) + (p.x - a.x) ≤ radius) && decide ((a.y - p.y) + (p.y - a.y) ≤ radius)

/-- Modelled from the spec: the constant `AROUND_AREA` (`defines.h`) is not among the
sources; the "fixed proximity radius" of the broadcaster, in pixels. -/
def AROUND_AREA : Nat := 320

/-- Modelled from the spec: the update flags (`defines.h`) are not among the sources; "a
per-tick bitmask of update flags", one bit each. This one is new-on-map. -/
def UPDATEFLAG_NEW_ON_MAP : Nat := 1

/-- Modelled from the spec: update flag new-destination, see `UPDATEFLAG_NEW_ON_MAP`. -/
def UPDATEFLAG_NEW_DESTINATION : Nat := 2

/-- Modelled from the spec: update flag attack, see `UPDATEFLAG_NEW_ON_MAP`. -/
def UPDATEFLAG_ATTACK : Nat := 4

/-- Modelled from the spec: update flag action-change, see `UPDATEFLAG_NEW_ON_MAP`. -/
def UPDATEFLAG_ACTIONCHANGE : Nat := 8

/-- Modelled from the spec: update flag looks-change, see `UPDATEFLAG_NEW_ON_MAP`. -/
def UPDATEFLAG_LOOKSCHANGE : Nat := 16

/-- Modelled from the spec: update flag direction-change, see `UPDATEFLAG_NEW_ON_MAP`. -/
def UPDATEFLAG_DIRCHANGE : Nat := 32

/-- Modelled from the spec: the bits of the flag byte of a Move entry (`defines.h`) are not
among the sources; "flag byte, optional quantized position + speed, optional destination".
This bit announces the position. -/
def MOVING_POSITION : Nat := 1

/-- Modelled from the spec: the bit of the flag byte that announces the destination, see
`MOVING_POSITION`. -/
def MOVING_DESTINATION : Nat := 2

/-- Modelled from the spec: the equipment slot indices (`defines.h`) are not among the
sources; "four slots in the reference shape: weapon, head, torso, legs". The weapon slot. -/
def EQUIP_FIGHT1_SLOT : Nat := 8

/-- Modelled from the spec: the head slot, see `EQUIP_FIGHT1_SLOT`. -/
def EQUIP_HEAD_SLOT : Nat := 2

/-- Modelled from the spec: the torso slot, see `EQUIP_FIGHT1_SLOT`. -/
def EQUIP_TORSO_SLOT : Nat := 0

/-- Modelled from the spec: the legs slot, see `EQUIP_FIGHT1_SLOT`. -/
def EQUIP_LEGS_SLOT : Nat := 3

/-- The test `flags & bit` of C, as a boolean. -/
def hasFlag (flags bit : Nat) : Bool := flags &&& bit != 0

/-- The part of `ItemClass` that `state.cpp` reads. -/
structure ItemClass where
  databaseID : Nat
  spriteID : Nat
  deriving DecidableEq, Repr

/-- The struct `Possessions`: item identifiers by equipment slot (`0` for an empty slot),
the inventory and the money. -/
structure Possessions where
  equipment : Nat → Nat
  inventory : List (Nat × Nat)
  money : Nat

/-- The fields of a `MovingObject` (`Being`, `Character`, `Monster`, `NPC`) that `state.cpp`
reads. The casts of `informPlayer` are unchecked, so every moving object carries the fields
read through them. -/
structure MovingObject where
  type : ObjectType
  publicID : Nat
  updateFlags : Nat
  oldPosition : Point
  position : Point
  destination : Point
  direction : Nat
  speed : Nat
  action : Nat
  attackType : Nat
  canFight : Bool
  hitsTaken : List Nat
  name : String
  hairStyle : Nat
  hairColor : Nat
  gender : Nat
  possessions : Possessions
  databaseID : Nat
  specyType : Nat
  npc : Nat

/-- A `Character` is a moving object. -/
abbrev Character := MovingObject

/-- The fields of an `Item` lying on the ground that `state.cpp` reads. -/
structure Item where
  type : ObjectType
  position : Point
  updateFlags : Nat
  itemClass : ItemClass

/-! ## serializeLooks -/

/-- The constant `nb_slots`. -/
def nb_slots : Nat := 4

/-- The table `slots`. -/
def slots : List Nat :=
  [EQUIP_FIGHT1_SLOT, EQUIP_HEAD_SLOT, EQUIP_TORSO_SLOT, EQUIP_LEGS_SLOT]

/-- The value stored in `items[i]`:
`id && (eq = ItemManager::getItem(id)) ? eq->getSpriteID() : 0`. -/
def lookSprite (getItem : Nat → Option ItemClass) (poss : Possessions) (i : Nat) : Nat :=
  let id := poss.equipment (slots.getD i 0)
  if id ≠ 0 then
    match getItem id with
    | some eq => eq.spriteID
    | none => 0
  else 0

/-- The local variables of the first loop of `serializeLooks`. -/
structure LooksState where
  items : List Nat
  mask_full : Nat
  mask_diff : Nat
  nb_full : Nat
  nb_diff : Nat
  deriving DecidableEq, Repr

/-- One iteration of the first loop of `serializeLooks`: `items[i]` is filled in, a slot
whose bit is set in `changed` is counted for the diff packet, and a filled slot is counted
for the full packet. -/
def looksStep (getItem : Nat → Option ItemClass) (poss : Possessions) (changed : Nat)
    (s : LooksState) (i : Nat) : LooksState :=
  let item := lookSprite getItem poss i
  { items := s.items ++ [item],
    -- Skip slots that have not changed, when sending an update.
    mask_diff := if changed &&& (1 <<< i) ≠ 0 then s.mask_diff ||| (1 <<< i) else s.mask_diff,
    nb_diff := if changed &&& (1 <<< i) ≠ 0 then s.nb_diff + 1 else s.nb_diff,
    -- When the whole equipment is sent, only filled slots are accounted for.
    mask_full := if item ≠ 0 then s.mask_full ||| (1 <<< i) else s.mask_full,
    nb_full := if item ≠ 0 then s.nb_full + 1 else s.nb_full }

/-- The first loop of `serializeLooks`: both kinds of packet are partially built. -/
def looksScan (getItem : Nat → Option ItemClass) (poss : Possessions) (full : Bool) :
    LooksState :=
  let changed := (1 <<< nb_slots) - 1
  -- TODO of the source: the whole equipment is assumed changed when an update is asked for.
  let changed := if !full then (1 <<< nb_slots) - 1 else changed
  (List.range nb_slots).foldl (looksStep getItem poss changed)
    { items := [], mask_full := 0, mask_diff := 0, nb_full := 0, nb_diff := 0 }

/-- The byte `mask` of `serializeLooks`. -/
def looksMask (getItem : Nat → Option ItemClass) (poss : Possessions) (full : Bool) : Nat :=
  let s := looksScan getItem poss full
  -- Choose the smaller payload.
  let full := if s.nb_full ≤ s.nb_diff then true else full
  if full then s.mask_full ||| (1 <<< 7) else s.mask_diff

/-- The function `serializeLooks(Character *ch, MessageOut &msg, bool full)`. -/
def serializeLooks (getItem : Nat → Option ItemClass) (ch : Character) (msg : MessageOut)
    (full : Bool) : MessageOut :=
  let poss := ch.possessions
  let s := looksScan getItem poss full
  let mask := looksMask getItem poss full
  let msg := msg.writeByte mask
  (List.range nb_slots).foldl
    (fun m i => if mask &&& (1 <<< i) ≠ 0 then m.writeShort (s.items.getD i 0) else m) msg

/-- The sprite identifiers of the four reported slots (weapon, head, torso, legs). -/
def currentLooks (getItem : Nat → Option ItemClass) (ch : Character) : List Nat :=
  (List.range nb_slots).map (lookSprite getItem ch.possessions)

/-- The client side of the looks encoding, for the slots `is` in ascending order: for each
set bit `i` the next 16-bit identifier is assigned to slot `i`. The result is the slots and
the values not consumed; `none` when an identifier is missing. -/
def decodeSlots (mask : Nat) : List Nat → List MsgField → List Nat → Option (List Nat × List MsgField)
  | [], rest, looks => some (looks, rest)
  | i :: is, rest, looks =>
    if mask &&& (1 <<< i) ≠ 0 then
      match rest with
      | MsgField.short v :: rest0 => decodeSlots mask is rest0 (looks.set i v)
      | _ => none
    else decodeSlots mask is rest looks

/-- The client side of the looks encoding: if bit 7 of the mask byte is set all four slots
are cleared first; then the selected slots are assigned. `none` when the body is not a mask
byte followed by exactly the identifiers the mask announces. -/
def decodeLooks (previous : List Nat) (body : List MsgField) : Option (List Nat) :=
  match body with
  | MsgField.byte mask :: rest =>
    let start := if mask &&& (1 <<< 7) ≠ 0 then List.replicate nb_slots 0 else previous
    match decodeSlots mask (List.range nb_slots) rest start with
    | some (looks, []) => some looks
    | _ => none
  | _ => none

/-- The number of 16-bit identifiers in a message body. -/
def countShorts (body : List MsgField) : Nat :=
  body.countP (fun f => match f with | MsgField.short _ => true | _ => false)

/-- The number of slots, among the four reported ones, whose sprite differs between two
equipment views. -/
def changedSlots (previous current : List Nat) : Nat :=
  ((List.range nb_slots).filter (fun i => previous.getD i 0 != current.getD i 0)).length

/-- The number of non-empty slots of an equipment view. -/
def filledSlots (current : List Nat) : Nat :=
  ((List.range nb_slots).filter (fun i => current.getD i 0 != 0)).length

/-- The mask byte of the full encoding of an equipment view: bit `i` for each non-empty
slot `i`, and bit 7. -/
def fullMask (looks : List Nat) : Nat :=
  (List.range nb_slots).foldl
    (fun m i => if looks.getD i 0 ≠ 0 then m ||| (1 <<< i) else m) 0 ||| (1 <<< 7)

/-- The full encoding of an equipment view: the mask byte, then the identifier of each
non-empty slot in ascending slot order. -/
def fullBody (looks : List Nat) : List MsgField :=
  MsgField.byte (fullMask looks) ::
    ((List.range nb_slots).filter (fun i => looks.getD i 0 != 0)).map
      (fun i => MsgField.short (looks.getD i 0 % 65536))

/-- The number of slots, among the four reported ones, selected by a mask byte. -/
def selectedSlots (mask : Nat) : Nat :=
  ((List.range nb_slots).filter (fun i => mask &&& (1 <<< i) != 0)).length

/-! ## Sample data -/

/-- An item manager that knows the items `5`, `6` and `9`, with sprites `105`, `106` and
`109`. -/
def sampleItems (id : Nat) : Option ItemClass :=
  if id = 5 then some { databaseID := 5, spriteID := 105 }
  else if id = 6 then some { databaseID := 6, spriteID := 106 }
  else if id = 9 then some { databaseID := 9, spriteID := 109 }
  else none

/-- A character at the origin that holds item `5` as weapon and item `6` on the head. -/
def sampleCharacter : Character :=
  { type := ObjectType.OBJECT_CHARACTER, publicID := 1, updateFlags := 0,
    oldPosition := { x := 0, y := 0 }, position := { x := 0, y := 0 },
    destination := { x := 0, y := 0 }, direction := 0, speed := 0, action := 0,
    attackType := 0, canFight := true, hitsTaken := [], name := "Alice", hairStyle := 1,
    hairColor := 2, gender := 0,
    possessions :=
      { equipment := fun s => if s = EQUIP_FIGHT1_SLOT then 5 else if s = EQUIP_HEAD_SLOT then 6
          else 0,
        inventory := [], money := 0 },
    databaseID := 10, specyType := 0, npc := 0 }

/-- Another character with the same looks as `sampleCharacter`: other name, money,
inventory, position, and a ring that is not among the reported slots. -/
def sampleTwin : Character :=
  { sampleCharacter with
    publicID := 2, name := "Bob", position := { x := 64, y := 32 }, databaseID := 11,
    possessions :=
      { equipment := fun s => if s = EQUIP_FIGHT1_SLOT then 5 else if s = EQUIP_HEAD_SLOT then 6
          else if s = 5 then 9 else 0,
        inventory := [(3, 1)], money := 500 } }

/-! ## informPlayer -/

/-- Modelled from the spec: the numeric values of the object types (`defines.h`) are not
among the sources; the kinds form "a fixed closed set", numbered in the order of the enum. -/
def ObjectType.toNat : ObjectType → Nat
  | .OBJECT_ITEM => 0
  | .OBJECT_ACTOR => 1
  | .OBJECT_NPC => 2
  | .OBJECT_MONSTER => 3
  | .OBJECT_CHARACTER => 4
  | .OBJECT_OTHER => 5

/-- The local state of `informPlayer` during the loop over moving objects: the messages
handed to `gameHandler->sendTo(p, ...)` so far, and the two batched messages. -/
structure InformState where
  sent : List MessageOut
  moveMsg : MessageOut
  damageMsg : MessageOut
  deriving DecidableEq, Repr

/-- The local variable `wereInRange` of the loop over moving objects. -/
def wereInRange (p : Character) (o : MovingObject) : Bool :=
  p.oldPosition.inRangeOf o.oldPosition AROUND_AREA &&
    !hasFlag (p.updateFlags ||| o.updateFlags) UPDATEFLAG_NEW_ON_MAP

/-- The local variable `willBeInRange` of the loop over moving objects. -/
def willBeInRange (p : Character) (o : MovingObject) : Bool :=
  p.position.inRangeOf o.position AROUND_AREA

/-- The attack message, sent when `(oflags & UPDATEFLAG_ATTACK) && oid != pid`. -/
def attackMessages (p : Character) (o : MovingObject) : List MessageOut :=
  if hasFlag o.updateFlags UPDATEFLAG_ATTACK && o.publicID != p.publicID then
    [(((MessageOut.new MsgId.GPMSG_BEING_ATTACK).writeShort o.publicID).writeByte
      o.direction).writeByte o.attackType]
  else []

/-- The action change message, sent when `oflags & UPDATEFLAG_ACTIONCHANGE`. -/
def actionMessages (o : MovingObject) : List MessageOut :=
  if hasFlag o.updateFlags UPDATEFLAG_ACTIONCHANGE then
    [((MessageOut.new MsgId.GPMSG_BEING_ACTION_CHANGE).writeShort o.publicID).writeByte o.action]
  else []

/-- The looks change message, sent when `oflags & UPDATEFLAG_LOOKSCHANGE`. -/
def looksMessages (getItem : Nat → Option ItemClass) (o : MovingObject) : List MessageOut :=
  if hasFlag o.updateFlags UPDATEFLAG_LOOKSCHANGE then
    [serializeLooks getItem o
      ((MessageOut.new MsgId.GPMSG_BEING_LOOKS_CHANGE).writeShort o.publicID) false]
  else []

/-- The direction change message, sent when `oflags & UPDATEFLAG_DIRCHANGE`. -/
def directionMessages (o : MovingObject) : List MessageOut :=
  if hasFlag o.updateFlags UPDATEFLAG_DIRCHANGE then
    [((MessageOut.new MsgId.GPMSG_BEING_DIR_CHANGE).writeShort o.publicID).writeByte
      o.direction]
  else []

/-- The damage part: for a fighting object, one pair `(oid, hit)` per hit taken is written
into the damage message. -/
def writeDamage (o : MovingObject) (damageMsg : MessageOut) : MessageOut :=
  if o.canFight then
    o.hitsTaken.foldl (fun m j => (m.writeShort o.publicID).writeShort j) damageMsg
  else damageMsg

/-- The block `if (wereInRange && willBeInRange)` up to the test `oold == opos`. -/
def reportChanges (getItem : Nat → Option ItemClass) (p : Character) (o : MovingObject)
    (st : InformState) : InformState :=
  { sent := st.sent ++ attackMessages p o ++ actionMessages o ++ looksMessages getItem o
      ++ directionMessages o,
    moveMsg := st.moveMsg,
    damageMsg := writeDamage o st.damageMsg }

/-- The leave message of the block `if (!willBeInRange)`. -/
def leaveMessage (o : MovingObject) : MessageOut :=
  (MessageOut.new MsgId.GPMSG_BEING_LEAVE).writeShort o.publicID

/-- The enter message of the block `if (!wereInRange)`; `none` when the `default` case of
the `switch (otype)` is reached (`assert(false)`). -/
def enterMessage (getItem : Nat → Option ItemClass) (o : MovingObject) : Option MessageOut :=
  let enterMsg := (((((MessageOut.new MsgId.GPMSG_BEING_ENTER).writeByte o.type.toNat).writeShort
    o.publicID).writeByte o.action).writeShort o.position.x).writeShort o.position.y
  match o.type with
  | .OBJECT_CHARACTER =>
    some (serializeLooks getItem o
      ((((enterMsg.writeString o.name).writeByte o.hairStyle).writeByte o.hairColor).writeByte
        o.gender) true)
  | .OBJECT_MONSTER => some ((enterMsg.writeShort o.specyType).writeString o.name)
  | .OBJECT_NPC => some ((enterMsg.writeShort o.npc).writeString o.name)
  | _ => none

/-- The flag byte of a Move entry, computed from the value `flags` has when the movement
part is reached (lines `Point odst = ...` to the end of the `if`/`else`). -/
def movingFlags (o : MovingObject) (flags : Nat) : Nat :=
  if o.position ≠ o.destination then
    let flags := flags ||| MOVING_POSITION
    if hasFlag o.updateFlags UPDATEFLAG_NEW_DESTINATION then flags ||| MOVING_DESTINATION
    else flags
  else
    -- No need to synchronize on the very last step.
    flags ||| MOVING_DESTINATION

/-- The position part of a Move entry. -/
def movePosition (o : MovingObject) (flags : Nat) : List MsgField :=
  if flags &&& MOVING_POSITION ≠ 0 then
    [MsgField.coordinates (o.position.x / 32) (o.position.y / 32),
     MsgField.byte (o.speed / 10 % 256)]
  else []

/-- The destination part of a Move entry. -/
def moveDestination (o : MovingObject) (flags : Nat) : List MsgField :=
  if flags &&& MOVING_DESTINATION ≠ 0 then
    [MsgField.short (o.destination.x % 65536), MsgField.short (o.destination.y % 65536)]
  else []

/-- The entry written into the move message for `o` ("Send move messages"). -/
def moveEntry (o : MovingObject) (flags : Nat) : List MsgField :=
  [MsgField.short (o.publicID % 65536), MsgField.byte (flags % 256)]
    ++ movePosition o flags ++ moveDestination o flags

/-- The writes of "Send move messages" on the move message. -/
def writeMove (o : MovingObject) (flags : Nat) (moveMsg : MessageOut) : MessageOut :=
  let m := (moveMsg.writeShort o.publicID).writeByte flags
  let m := if flags &&& MOVING_POSITION ≠ 0 then
      (m.writeCoordinates (o.position.x / 32) (o.position.y / 32)).writeByte (o.speed / 10)
    else m
  if flags &&& MOVING_DESTINATION ≠ 0 then
    (m.writeShort o.destination.x).writeShort o.destination.y
  else m

/-- The body of the loop of `informPlayer` over the moving objects around `p`, for the
object `o`; `none` when an assertion fails. -/
def informAbout (getItem : Nat → Option ItemClass) (p : Character) (o : MovingObject)
    (st : InformState) : Option InformState :=
  let flags := 0
  if !wereInRange p o && !willBeInRange p o then
    -- Nothing to report: o and p are far away from each other.
    some st
  else
    let st := if wereInRange p o && willBeInRange p o then reportChanges getItem p o st else st
    if wereInRange p o && willBeInRange p o && o.oldPosition == o.position then
      -- o does not move, nothing more to report.
      some st
    else if !willBeInRange p o then
      -- o is no longer visible from p. Send leave message.
      some { st with sent := st.sent ++ [leaveMessage o] }
    else if !wereInRange p o then
      -- o is now visible by p. Send enter message.
      let flags := flags ||| MOVING_POSITION
      let flags := flags ||| MOVING_DESTINATION
      match enterMessage getItem o with
      | none => none
      | some enterMsg =>
        some { sent := st.sent ++ [enterMsg],
               moveMsg := writeMove o (movingFlags o flags) st.moveMsg,
               damageMsg := st.damageMsg }
    else
      some { st with moveMsg := writeMove o (movingFlags o flags) st.moveMsg }

/-- The loop of `informPlayer` over the moving objects around `p`. -/
def informAboutAll (getItem : Nat → Option ItemClass) (p : Character) :
    List MovingObject → InformState → Option InformState
  | [], st => some st
  | o :: rest, st =>
    match informAbout getItem p o st with
    | none => none
    | some st0 => informAboutAll getItem p rest st0

/-- The local state of `informPlayer` during the loop over the items on the ground. -/
structure ItemState where
  sent : List MessageOut
  itemMsg : MessageOut
  deriving DecidableEq, Repr

/-- The body of the loop of `informPlayer` over the items around `p`; `none` when the
assertion `(*i)->getType() == OBJECT_ITEM` fails. -/
def informAboutItem (p : Character) (o : Item) (st : ItemState) : Option ItemState :=
  if o.type ≠ ObjectType.OBJECT_ITEM then none
  else
    let willBe := p.position.inRangeOf o.position AROUND_AREA
    let were := p.oldPosition.inRangeOf o.position AROUND_AREA &&
      !hasFlag (p.updateFlags ||| o.updateFlags) UPDATEFLAG_NEW_ON_MAP
    if willBe != were then
      if hasFlag o.updateFlags UPDATEFLAG_NEW_ON_MAP then
        some { st with sent := st.sent ++
          [(((MessageOut.new MsgId.GPMSG_ITEM_APPEAR).writeShort o.itemClass.databaseID).writeShort
            o.position.x).writeShort o.position.y] }
      else
        some { st with itemMsg :=
          ((st.itemMsg.writeShort (if willBe then o.itemClass.databaseID else 0)).writeShort
            o.position.x).writeShort o.position.y }
    else some st

/-- The loop of `informPlayer` over the items around `p`. -/
def informAboutItems (p : Character) : List Item → ItemState → Option ItemState
  | [], st => some st
  | o :: rest, st =>
    match informAboutItem p o st with
    | none => none
    | some st0 => informAboutItems p rest st0

/-- The function `informPlayer(MapComposite *map, Character *p)`. The two iterators of
`map->getAroundCharacterIterator(p, AROUND_AREA)` are given as the lists `moving` and
`items`; `sendStatus` gives the messages `p->sendStatus()` sends. The result is the list of
messages handed to `gameHandler->sendTo(p, ...)`, in order; `none` when an assertion fails. -/
def informPlayer (getItem : Nat → Option ItemClass) (sendStatus : Character → List MessageOut)
    (moving : List MovingObject) (items : List Item) (p : Character) :
    Option (List MessageOut) :=
  match informAboutAll getItem p moving
      { sent := [], moveMsg := MessageOut.new MsgId.GPMSG_BEINGS_MOVE,
        damageMsg := MessageOut.new MsgId.GPMSG_BEINGS_DAMAGE } with
  | none => none
  | some st =>
    -- Do not send a packet if nothing happened in p's range.
    let sent := if st.moveMsg.getLength > 2 then st.sent ++ [st.moveMsg] else st.sent
    let sent := if st.damageMsg.getLength > 2 then sent ++ [st.damageMsg] else sent
    -- Inform client about status change.
    let sent := sent ++ sendStatus p
    match informAboutItems p items
        { sent := sent, itemMsg := MessageOut.new MsgId.GPMSG_ITEMS } with
    | none => none
    | some ist =>
      some (if ist.itemMsg.getLength > 2 then ist.sent ++ [ist.itemMsg] else ist.sent)

/-- The state of `informPlayer` before the first moving object is looked at. -/
def initialInformState : InformState :=
  { sent := [], moveMsg := MessageOut.new MsgId.GPMSG_BEINGS_MOVE,
    damageMsg := MessageOut.new MsgId.GPMSG_BEINGS_DAMAGE }

/-- A character that was far away at the previous tick and now stands next to
`sampleCharacter`, at its destination. -/
def sampleEntering : MovingObject :=
  { sampleTwin with
    oldPosition := { x := 1000, y := 1000 }, position := { x := 64, y := 32 },
    destination := { x := 64, y := 32 } }

/-- A monster that was next to `sampleCharacter` at the previous tick and is far away now;
it attacked, changed action and direction, and took two hits. -/
def sampleLeaving : MovingObject :=
  { sampleTwin with
    type := ObjectType.OBJECT_MONSTER, publicID := 3, name := "Maggot", updateFlags := 44,
    hitsTaken := [7, 9], oldPosition := { x := 64, y := 32 },
    position := { x := 1000, y := 1000 }, destination := { x := 1200, y := 1000 } }

/-- A monster that stays next to `sampleCharacter` and walks: it attacked and changed
direction, has a new destination and took one hit. -/
def sampleWalking : MovingObject :=
  { sampleTwin with
    type := ObjectType.OBJECT_MONSTER, publicID := 4, name := "Maggot", updateFlags := 38,
    hitsTaken := [7], speed := 150, direction := 2, attackType := 1,
    oldPosition := { x := 64, y := 32 },
    position := { x := 96, y := 32 }, destination := { x := 200, y := 32 } }

/-- The number of messages of a list that carry a given tag. -/
def countId (id : MsgId) (msgs : List MessageOut) : Nat :=
  msgs.countP (fun m => m.id == id)

/-! ## Contributions to the batched messages -/

/-- The pairs written into the Damage message while the moving object `o` is looked at:
one pair (identifier, amount) per hit, when `o` was in range, still is, and can fight. -/
def damagePairs (p : Character) (o : MovingObject) : List MsgField :=
  if wereInRange p o && willBeInRange p o && o.canFight then
    o.hitsTaken.flatMap
      (fun j => [MsgField.short (o.publicID % 65536), MsgField.short (j % 65536)])
  else []

/-- The tags of the messages the loop over moving objects hands to `sendTo` itself. -/
def isChangeId (id : MsgId) : Bool :=
  id == MsgId.GPMSG_BEING_ATTACK || id == MsgId.GPMSG_BEING_ACTION_CHANGE ||
  id == MsgId.GPMSG_BEING_LOOKS_CHANGE || id == MsgId.GPMSG_BEING_DIR_CHANGE ||
  id == MsgId.GPMSG_BEING_LEAVE || id == MsgId.GPMSG_BEING_ENTER

/-- The batched message with the given tag, when something was written into it. -/
def batched (id : MsgId) (body : List MsgField) : List MessageOut :=
  if body ≠ [] then [{ id := id, fields := body }] else []

/-- A monster next to `sampleCharacter` that reaches its destination `(96, 32)` this tick,
coming from `(64, 32)`. -/
def sampleArriving : MovingObject :=
  { sampleWalking with
    publicID := 5, updateFlags := 0, hitsTaken := [],
    position := { x := 96, y := 32 }, destination := { x := 96, y := 32 } }

/-- An observer that walked from the origin to `(700, 0)` this tick. -/
def sampleMover : Character :=
  { sampleCharacter with position := { x := 700, y := 0 } }

/-- An item lying at `(900, 0)` since an earlier tick: out of range of the origin, in range
of `(700, 0)`. -/
def sampleItemAhead : Item :=
  { type := ObjectType.OBJECT_ITEM, position := { x := 900, y := 0 }, updateFlags := 0,
    itemClass := { databaseID := 42, spriteID := 142 } }

/-- An item lying at `(100, 0)` since an earlier tick: in range of the origin, out of range
of `(700, 0)`. -/
def sampleItemBehind : Item :=
  { type := ObjectType.OBJECT_ITEM, position := { x := 100, y := 0 }, updateFlags := 0,
    itemClass := { databaseID := 43, spriteID := 143 } }

/-- An item dropped this tick at `(100, 0)`, flagged new-on-map. -/
def sampleItemDropped : Item :=
  { type := ObjectType.OBJECT_ITEM, position := { x := 100, y := 0 },
    updateFlags := UPDATEFLAG_NEW_ON_MAP,
    itemClass := { databaseID := 44, spriteID := 144 } }

/-- The state of `informPlayer` before the first item is looked at, nothing sent so far. -/
def initialItemState : ItemState :=
  { sent := [], itemMsg := MessageOut.new MsgId.GPMSG_ITEMS }

/-! ## Regions and `GameState::insert` -/

/-- Modelled from the spec: the classes `MapComposite` (`game-server/mapcomposite.hpp`) and
`Map` (`game-server/map.hpp`) are not among the sources. A region is "a world subdivision
holding a bounded set of entities with independent active/inactive status": its
identifier, its name, whether it is active, the width and height of its map in tiles, its
capacity, and the things it holds, by pointer. -/
structure MapComposite where
  id : Nat
  name : String
  active : Bool
  width : Nat
  height : Nat
  capacity : Nat
  things : List ObjectPtr
  deriving DecidableEq, Repr

/-- The fields of a `Thing` that `GameState::insert`, `GameState::remove` and
`GameState::warp` read or write; `insertedCalls` and `removedCalls` count the calls of the
hooks `inserted()` and `removed()`, and `map` is the pointer `getMap()` returns. -/
structure Thing where
  ptr : ObjectPtr
  type : ObjectType
  visible : Bool
  position : Point
  updateFlags : Nat
  insertedCalls : Nat
  removedCalls : Nat := 0
  canMove : Bool := false
  publicID : Nat := 0
  destination : Point := { x := 0, y := 0 }
  databaseID : Nat := 0
  map : MapPtr := 0
  deriving DecidableEq, Repr

/-- The hook `Thing::inserted()`. -/
def Thing.inserted (t : Thing) : Thing := { t with insertedCalls := t.insertedCalls + 1 }

/-- The method `Object::setPosition`. -/
def Thing.setPosition (t : Thing) (pos : Point) : Thing := { t with position := pos }

/-- The method `Object::raiseUpdateFlags`. -/
def Thing.raiseUpdateFlags (t : Thing) (n : Nat) : Thing :=
  { t with updateFlags := t.updateFlags ||| n }

/-- Modelled from the spec: `MapComposite::insert` is not among the sources. Insertion
"fails (entity not placed) if the target region is at capacity", and "for entities without
a spatial presence (non-visible kinds), insertion always succeeds": a visible thing is
refused, and the region left as it is, when the region already holds `capacity` things;
otherwise the thing is added. The result is the region afterwards and the returned
boolean. -/
def MapComposite.insert (map : MapComposite) (t : Thing) : MapComposite × Bool :=
  if t.visible && decide (map.capacity ≤ map.things.length) then (map, false)
  else ({ map with things := map.things ++ [t.ptr] }, true)

/-- The lines written by `LOG_ERROR` in `GameState::insert`. -/
inductive LogEntry where
  | outsideMap (x y mapId : Nat)
  | tooManyObjects (mapId : Nat)
  deriving DecidableEq, Repr

/-- The effects of one call of `GameState::insert`: the returned boolean, the region and
the thing afterwards, the messages handed to `gameHandler->sendTo` with their addressee,
and the errors logged. -/
structure InsertOutcome where
  result : Bool
  map : MapComposite
  thing : Thing
  sent : List (ObjectPtr × MessageOut)
  log : List LogEntry
  deriving DecidableEq, Repr

/-- The function `GameState::insert(Thing *ptr)`; `map` is `ptr->getMap()` (`none` for a
null pointer) and `dbgLockObjects` the debug lock. The result is `none` when one of the two
assertions at the top fails. -/
def insert (dbgLockObjects : Bool) (map : Option MapComposite) (ptr : Thing) :
    Option InsertOutcome :=
  if dbgLockObjects then none
  else
    match map with
    | none => none
    | some map =>
      if !map.active then none
      else if !ptr.visible then
        /- Non-visible objects have neither position nor public ID, so their
           insertion cannot fail. Take care of them first. -/
        some { result := true, map := (map.insert ptr).1, thing := ptr.inserted,
               sent := [], log := [] }
      else
        -- Check that coordinates are actually valid.
        let pos := ptr.position
        let outside := decide (pos.x / 32 ≥ map.width) || decide (pos.y / 32 ≥ map.height)
        let log := if outside then [LogEntry.outsideMap pos.x pos.y map.id] else []
        -- Set an arbitrary small position.
        let pos := if outside then { x := 100, y := 100 } else pos
        let obj := if outside then ptr.setPosition pos else ptr
        if !(map.insert obj).2 then
          -- The map is overloaded. No room to add a new object.
          some { result := false, map := (map.insert obj).1, thing := obj, sent := [],
                 log := log ++ [LogEntry.tooManyObjects map.id] }
        else
          let obj := obj.inserted.raiseUpdateFlags UPDATEFLAG_NEW_ON_MAP
          if obj.type ≠ ObjectType.OBJECT_CHARACTER then
            some { result := true, map := (map.insert obj).1, thing := obj, sent := [],
                   log := log }
          else
            some { result := true, map := (map.insert obj).1, thing := obj,
                   sent := [(obj.ptr,
                     (((MessageOut.new MsgId.GPMSG_PLAYER_MAP_CHANGE).writeString
                       map.name).writeShort pos.x).writeShort pos.y)],
                   log := log }

/-- A region of 100 by 100 tiles with room for two things. -/
def sampleMap : MapComposite :=
  { id := 1, name := "Tulimshar", active := true, width := 100, height := 100, capacity := 2,
    things := [] }

/-- A region of 100 by 100 tiles with room for one thing. -/
def sampleSmallMap : MapComposite := { sampleMap with id := 2, name := "Cave", capacity := 1 }

/-- A region of 2 by 2 tiles. -/
def sampleTinyMap : MapComposite :=
  { sampleMap with id := 3, name := "Closet", width := 2, height := 2 }

/-- A character that asks to be placed at `(10000, 10000)`. -/
def sampleFarThing : Thing :=
  { ptr := 7, type := ObjectType.OBJECT_CHARACTER, visible := true,
    position := { x := 10000, y := 10000 }, updateFlags := 0, insertedCalls := 0 }

/-- A monster that asks to be placed at `(64, 32)`. -/
def sampleNearThing : Thing :=
  { ptr := 8, type := ObjectType.OBJECT_MONSTER, visible := true,
    position := { x := 64, y := 32 }, updateFlags := 0, insertedCalls := 0 }

/-- A thing without a spatial presence. -/
def sampleHiddenThing : Thing :=
  { ptr := 9, type := ObjectType.OBJECT_OTHER, visible := false,
    position := { x := 10000, y := 10000 }, updateFlags := 0, insertedCalls := 0 }

/-! ## `GameState::remove` and `GameState::warp` -/

/-- The regions of the server, by pointer; `none` for a pointer that designates no
region. -/
abbrev Maps := MapPtr → Option MapComposite

/-- The regions after the region at `k` has been replaced by `m`. -/
def setRegion (maps : Maps) (k : MapPtr) (m : MapComposite) : Maps :=
  fun j => if j = k then some m else maps j

/-- Modelled from the spec: `MapComposite::remove` is not among the sources. The thing is
detached from the region: it is no longer among the things the region holds. -/
def MapComposite.remove (map : MapComposite) (ptr : ObjectPtr) : MapComposite :=
  { map with things := map.things.filter (fun o => o != ptr) }

/-- The hook `Thing::removed()`. -/
def Thing.removed (t : Thing) : Thing := { t with removedCalls := t.removedCalls + 1 }

/-- The method `Thing::setMap`. -/
def Thing.setMap (t : Thing) (map : MapPtr) : Thing := { t with map := map }

/-- Modelled from the spec: `MovingObject::clearDestination` is not among the sources. It
"clears any pending destination": the destination becomes the current position. -/
def Thing.clearDestination (t : Thing) : Thing := { t with destination := t.position }

/-- The calls `GameState::remove` and `GameState::warp` make on their collaborators, in the
order in which they are made. -/
inductive Effect where
  | cancelTransaction (o : ObjectPtr)
  | sendTo (p : ObjectPtr) (msg : MessageOut)
  | mapRemove (map : MapPtr) (o : ObjectPtr)
  | sendCharacterData (snapshot : Thing)
  | insert (o : ObjectPtr) (result : Bool)
  | disconnected (o : ObjectPtr)
  | kill (o : ObjectPtr)
  | delete (o : ObjectPtr)
  | accountSend (msg : MessageOut)
  | prepareServerChange (o : ObjectPtr)
  deriving DecidableEq, Repr

/-- The effects of one call of `GameState::remove` or `GameState::warp`: the regions and
the thing afterwards, and the calls made on the collaborators. -/
structure LifecycleOutcome where
  maps : Maps
  thing : Thing
  effects : List Effect

/-- The leave message `GameState::remove` sends for a moving object. -/
def removeLeaveMessage (obj : Thing) : MessageOut :=
  (MessageOut.new MsgId.GPMSG_BEING_LEAVE).writeShort obj.publicID

/-- The message `GameState::remove` sends for an item: identifier `0` and the position. -/
def removeItemMessage (obj : Thing) : MessageOut :=
  (((MessageOut.new MsgId.GPMSG_ITEMS).writeShort 0).writeShort obj.position.x).writeShort
    obj.position.y

/-- The messages of `GameState::remove`, in the order of the iterator: `around` holds the
characters of `map->getAroundObjectIterator(obj, AROUND_AREA)`. -/
def removeMessages (around : List Thing) (ptr : Thing) : List Effect :=
  if ptr.canMove then
    (if ptr.type = ObjectType.OBJECT_CHARACTER then [Effect.cancelTransaction ptr.ptr] else [])
    ++ (around.filter (fun p =>
          p.ptr != ptr.ptr && ptr.position.inRangeOf p.position AROUND_AREA)).map
        (fun p => Effect.sendTo p.ptr (removeLeaveMessage ptr))
  else if ptr.type = ObjectType.OBJECT_ITEM then
    (around.filter (fun p => ptr.position.inRangeOf p.position AROUND_AREA)).map
      (fun p => Effect.sendTo p.ptr (removeItemMessage ptr))
  else []

/-- The function `GameState::remove(Thing *ptr)`; `around` holds the characters the region
reports around the thing. The result is `none` when the assertion on the debug lock fails
or when the thing has no region. -/
def remove (dbgLockObjects : Bool) (maps : Maps) (around : List Thing) (ptr : Thing) :
    Option LifecycleOutcome :=
  if dbgLockObjects then none
  else
    match maps ptr.map with
    | none => none
    | some map =>
      let ptr := ptr.removed
      some { maps := setRegion maps ptr.map (map.remove ptr.ptr),
             thing := ptr,
             effects := removeMessages around ptr ++ [Effect.mapRemove ptr.map ptr.ptr] }

/-- The end of `GameState::warp` for an active target region: `insert(ptr)` and, when it
fails, the destruction of the character. -/
def warpInsert (dbgLockObjects : Bool) (maps : Maps) (ptr : Thing) :
    Option LifecycleOutcome :=
  match insert dbgLockObjects (maps ptr.map) ptr with
  | none => none
  | some out =>
    let sends := out.sent.map (fun s => Effect.sendTo s.1 s.2)
    if !out.result then
      some { maps := setRegion maps ptr.map out.map,
             thing := out.thing,
             effects := sends ++ [Effect.insert ptr.ptr false, Effect.disconnected ptr.ptr,
               Effect.kill ptr.ptr, Effect.delete ptr.ptr] }
    else
      some { maps := setRegion maps ptr.map out.map,
             thing := out.thing,
             effects := sends ++ [Effect.insert ptr.ptr true] }

/-- The function `GameState::warp(Character *ptr, MapComposite *map, int x, int y)`;
`around` holds the characters the source region reports around the character. The result
is `none` when an assertion fails or a pointer designates no region. -/
def warp (dbgLockObjects : Bool) (maps : Maps) (around : List Thing) (ptr : Thing)
    (map : MapPtr) (x y : Nat) : Option LifecycleOutcome :=
  match remove dbgLockObjects maps around ptr with
  | none => none
  | some removal =>
    let ptr := removal.thing.setMap map
    let ptr := ptr.setPosition { x := x, y := y }
    let ptr := ptr.clearDestination
    /- Force update of persistent data on map change, so that
       characters can respawn at the start of the map after a death or
       a disconnection. -/
    let effects := removal.effects ++ [Effect.sendCharacterData ptr]
    match removal.maps map with
    | none => none
    | some target =>
      if target.active then
        match warpInsert dbgLockObjects removal.maps ptr with
        | none => none
        | some placed =>
          some { maps := placed.maps, thing := placed.thing,
                 effects := effects ++ placed.effects }
      else
        some { maps := removal.maps, thing := ptr,
               effects := effects ++
                 [Effect.accountSend
                    ((MessageOut.new MsgId.GAMSG_REDIRECT).writeLong ptr.databaseID),
                  Effect.prepareServerChange ptr.ptr] }

/-- Whether an effect is the sending of a message with the given tag to a character. -/
def Effect.isSendOf (id : MsgId) : Effect → Bool
  | .sendTo _ msg => msg.id == id
  | _ => false

/-- Whether an effect is the sending of a message to the account server. -/
def Effect.isAccountSend : Effect → Bool
  | .accountSend _ => true
  | _ => false

/-- Whether an effect is a persistence flush. -/
def Effect.isFlush : Effect → Bool
  | .sendCharacterData _ => true
  | _ => false

/-- Whether an effect is a call of `insert`. -/
def Effect.isInsert : Effect → Bool
  | .insert _ _ => true
  | _ => false

/-- Whether an effect is a message handed to `gameHandler->sendTo` for the character `p`. -/
def Effect.isSendTo (p : ObjectPtr) : Effect → Bool
  | .sendTo q _ => q == p
  | _ => false

/-- The regions of the samples: `sampleMap` at `1`, a full and an inactive region at `2`
and `3`, each holding what the samples say. -/
def sampleMaps : Maps := fun k =>
  if k = 1 then some { sampleMap with things := [20, 21, 22] }
  else if k = 2 then some { sampleSmallMap with things := [30] }
  else if k = 3 then some { sampleMap with id := 3, name := "Elsewhere", active := false }
  else none

/-- A character in region `1` at `(64, 32)`. -/
def sampleWarped : Thing :=
  { ptr := 20, type := ObjectType.OBJECT_CHARACTER, visible := true,
    position := { x := 64, y := 32 }, updateFlags := 0, insertedCalls := 1,
    canMove := true, publicID := 5, destination := { x := 200, y := 32 }, databaseID := 77,
    map := 1 }

/-- A character in region `1` next to `sampleWarped`. -/
def sampleNeighbour : Thing :=
  { sampleWarped with
    ptr := 21, publicID := 6, databaseID := 78,
    position := { x := 96, y := 32 }, destination := { x := 96, y := 32 } }

/-- A character in region `1` far from `sampleWarped`. -/
def sampleDistant : Thing :=
  { sampleWarped with
    ptr := 22, publicID := 7, databaseID := 79,
    position := { x := 2000, y := 2000 }, destination := { x := 2000, y := 2000 } }

/-! ## `GameState::update` -/

/-- The part of a region `GameState::update` works on: its pointer, whether it is active,
and the objects of `getWholeMapIterator()`, moving objects and items. -/
structure Region where
  id : MapPtr
  active : Bool
  beings : List MovingObject
  items : List Item

/-- What `updateMap(map)` does to a region through the hooks it calls (`update()`, the
script, `perform()`, `move()`, `map->update()`, none of them among the sources): the objects
of the region afterwards, and the calls of the enqueue interface made meanwhile. -/
structure RegionUpdate where
  beings : List MovingObject
  items : List Item
  requests : List Request

/-- The calls `o->clearUpdateFlags()` and, for an object that can fight,
`clearHitsTaken()`. -/
def MovingObject.clearFlags (o : MovingObject) : MovingObject :=
  { o with updateFlags := 0, hitsTaken := if o.canFight then [] else o.hitsTaken }

/-- The call `o->clearUpdateFlags()` on an item, which cannot fight. -/
def Item.clearFlags (o : Item) : Item := { o with updateFlags := 0 }

/-- The loop of `GameState::update` over `ObjectIterator i(map->getWholeMapIterator())`. -/
def Region.clearFlags (r : Region) : Region :=
  { r with beings := r.beings.map MovingObject.clearFlags,
           items := r.items.map Item.clearFlags }

/-- The steps of one execution of `GameState::update`, in order: assignments to
`dbgLockObjects`, `updateMap(map)`, `informPlayer(map, p)` with the region as it is when
the call is made, the loop clearing the flags of a region, and the calls made for the
delayed events with the value `dbgLockObjects` has when they are made. -/
inductive Step where
  | lock (value : Bool)
  | updateMap (map : MapPtr)
  | informPlayer (map : MapPtr) (p : Character) (seen : Region)
  | clearFlags (map : MapPtr)
  | lifecycle (call : Call) (dbgLockObjects : Bool)

/-- Whether a step belongs to the pass over the regions. -/
def Step.isRegionStep : Step → Bool
  | .updateMap _ => true
  | .informPlayer _ _ _ => true
  | .clearFlags _ => true
  | _ => false

/-- The loop of `GameState::update` over `CharacterIterator p(map->getWholeMapIterator())`:
one call of `informPlayer` per character of the region. -/
def informPlayers (r : Region) : List Step :=
  (r.beings.filter (fun p => p.type == ObjectType.OBJECT_CHARACTER)).map
    (fun p => Step.informPlayer r.id p r)

/-- The loop of `GameState::update` over the maps: the steps made, the regions afterwards
and the delayed events afterwards. An inactive region is skipped. -/
def updateRegions (hooks : Region → RegionUpdate) :
    List Region → DelayedEvents → List Step × List Region × DelayedEvents
  | [], q => ([], [], q)
  | r :: rest, q =>
    if !r.active then
      ((updateRegions hooks rest q).1, r :: (updateRegions hooks rest q).2.1,
        (updateRegions hooks rest q).2.2)
    else
      -- updateMap(map)
      let r1 : Region := { r with beings := (hooks r).beings, items := (hooks r).items }
      let q1 := enqueueAll (hooks r).requests q
      -- informPlayer(map, *p) for every character, then the flags are cleared
      let r2 := r1.clearFlags
      (Step.updateMap r.id :: (informPlayers r1 ++ Step.clearFlags r.id ::
          (updateRegions hooks rest q1).1),
        r2 :: (updateRegions hooks rest q1).2.1,
        (updateRegions hooks rest q1).2.2)

/-- The effects of one execution of `GameState::update`: the steps made, the regions as
they are when the delayed events begin to be applied, and the delayed events left. -/
structure UpdateOutcome where
  steps : List Step
  regions : List Region
  queue : DelayedEvents

/-- The function `GameState::update()`; `regions` are the maps of the map manager, `hooks`
the effect of `updateMap` and `q` the delayed events at the start. The result is `none`
when the assertion of the `EVENT_WARP` case fails. -/
def update (getType : ObjectPtr → ObjectType) (hooks : Region → RegionUpdate)
    (regions : List Region) (q : DelayedEvents) : Option UpdateOutcome :=
  let dbgLockObjects := true
  let lockSet := Step.lock dbgLockObjects
  -- Update game state (update AI, etc.)
  let pass := updateRegions hooks regions q
  let dbgLockObjects := false
  let lockCleared := Step.lock dbgLockObjects
  -- Take care of events that were delayed because of their side effects.
  match drain getType pass.2.2 with
  | none => none
  | some (calls, left) =>
    some { steps := lockSet :: (pass.1 ++ lockCleared ::
             calls.map (fun c => Step.lifecycle c dbgLockObjects)),
           regions := pass.2.1,
           queue := left }

/-- The steps of the pass over one region. -/
def regionSteps (hooks : Region → RegionUpdate) (r : Region) : List Step :=
  if r.active then
    Step.updateMap r.id ::
      (informPlayers { r with beings := (hooks r).beings, items := (hooks r).items }
        ++ [Step.clearFlags r.id])
  else []

/-- A region after the pass. -/
def regionAfter (hooks : Region → RegionUpdate) (r : Region) : Region :=
  if r.active then
    ({ r with beings := (hooks r).beings, items := (hooks r).items } : Region).clearFlags
  else r

/-- A region with `sampleCharacter` and the monster `sampleWalking`, and an item. -/
def sampleRegion : Region :=
  { id := 1, active := true, beings := [sampleCharacter, sampleWalking],
    items := [sampleItemDropped] }

/-- An inactive region. -/
def sampleIdleRegion : Region :=
  { id := 3, active := false, beings := [sampleLeaving], items := [] }

/-- Hooks that leave the objects as they are and ask for the removal of object `8`. -/
def sampleHooks (r : Region) : RegionUpdate :=
  { beings := r.beings, items := r.items, requests := [Request.remove 8] }

/-! ## Monster (`src/game-server/monster.cpp`) -/

/-- Modelled from the spec: update flag marked-for-removal, see `UPDATEFLAG_NEW_ON_MAP`. -/
def UPDATEFLAG_REMOVE : Nat := 64

/-- The method `Object::raiseUpdateFlags` on a moving object. -/
def MovingObject.raiseUpdateFlags (o : MovingObject) (n : Nat) : MovingObject :=
  { o with updateFlags := o.updateFlags ||| n }

/-- The parts of the base class `Being` that `monster.cpp` uses and that are not among the
sources, taken as parameters: the value of the enumerator `DEAD`, and what
`setDestination` and `Being::die` make of the base-class part of a monster. -/
structure BeingOps where
  DEAD : Nat
  setDestination : MovingObject → Point → MovingObject
  die : MovingObject → MovingObject

/-- A `Monster`: its base-class part, where `action` is the member `mAction`, and the
member `mCountDown`, which only `Monster::update` and `Monster::die` write and which is
never negative. -/
structure Monster where
  base : MovingObject
  mCountDown : Nat

/-- The calls that `Monster::update` makes on the monster itself. -/
inductive MonsterCall where
  | setDestination (p : Point)
  | raiseUpdateFlags (n : Nat)
  deriving DecidableEq, Repr

/-- The method `Monster::update`; `rand1`, `rand2` and `rand3` are the values that the
calls of `rand()` return for the abscissa, the ordinate and the countdown. The result is
the monster afterwards and the calls made on it; the debug log is left out. -/
def Monster.update (ops : BeingOps) (m : Monster) (rand1 rand2 rand3 : Nat) :
    Monster × List MonsterCall :=
  if m.mCountDown = 0 then
    if m.base.action ≠ ops.DEAD then
      let randomPos : Point := { x := rand1 % 320 + 720, y := rand2 % 320 + 840 }
      ({ base := ops.setDestination m.base randomPos, mCountDown := 10 + rand3 % 10 },
        [MonsterCall.setDestination randomPos])
    else
      ({ base := m.base.raiseUpdateFlags UPDATEFLAG_REMOVE, mCountDown := m.mCountDown },
        [MonsterCall.raiseUpdateFlags UPDATEFLAG_REMOVE])
  else
    ({ base := m.base, mCountDown := m.mCountDown - 1 }, [])

/-- The method `Monster::die`: sets remove time to 5 seconds, then `Being::die()`. -/
def Monster.die (ops : BeingOps) (m : Monster) : Monster :=
  { base := ops.die m.base, mCountDown := 50 }

/-- The monster as the call number `n` (counted from `0`) of `Monster::update` finds it:
before each call the rest of the server acts on the monster through `env`, and `rand n`
gives the three values of `rand()` for that call. -/
def Monster.before (ops : BeingOps) (env : Nat → Monster → Monster)
    (rand : Nat → Nat × Nat × Nat) (start : Monster) : Nat → Monster
  | 0 => env 0 start
  | n + 1 =>
    env (n + 1)
      (Monster.update ops (Monster.before ops env rand start n)
        (rand n).1 (rand n).2.1 (rand n).2.2).1

/-- The call number `n` (counted from `0`) of `Monster::update` after `start`: the monster
afterwards and the calls made on it. -/
def Monster.nthUpdate (ops : BeingOps) (env : Nat → Monster → Monster)
    (rand : Nat → Nat × Nat × Nat) (start : Monster) (n : Nat) : Monster × List MonsterCall :=
  Monster.update ops (Monster.before ops env rand start n) (rand n).1 (rand n).2.1 (rand n).2.2

/-- A `BeingOps` for the examples: `DEAD` is `4`, `setDestination` stores the destination
and raises the new-destination flag, `Being::die` sets the action to `DEAD`. -/
def sampleBeingOps : BeingOps :=
  { DEAD := 4,
    setDestination := fun o p =>
      ({ o with destination := p } : MovingObject).raiseUpdateFlags UPDATEFLAG_NEW_DESTINATION,
    die := fun o => { o with action := 4 } }

/-- A monster built on `sampleWalking`, alive and with no countdown running. -/
def sampleMonster : Monster := { base := sampleWalking, mCountDown := 0 }

/-- The rest of the server between two calls of `Monster::update`, for the examples: the
update flags are cleared, as `GameState::update` does at the end of a tick. -/
def sampleEnv (_ : Nat) (m : Monster) : Monster :=
  { base := m.base.clearFlags, mCountDown := m.mCountDown }

/-! ## Account handler (`src/accounthandler.cpp`) -/

/-- The enumerators of `defines.h` that `accounthandler.cpp` names: message identifiers
and return codes. Their values are not among the sources. -/
inductive Enumerator where
  | CMSG_LOGIN
  | CMSG_LOGOUT
  | CMSG_REGISTER
  | CMSG_UNREGISTER
  | CMSG_CHAR_CREATE
  | CMSG_CHAR_SELECT
  | CMSG_CHAR_DELETE
  | CMSG_CHAR_LIST
  | SMSG_LOGIN_ERROR
  | SMSG_LOGIN_CONFIRM
  | SMSG_LOGOUT_ERROR
  | SMSG_LOGOUT_CONFIRM
  | SMSG_REGISTER_RESPONSE
  | SMSG_UNREGISTER_RESPONSE
  | SMSG_CHAR_CREATE_RESPONSE
  | SMSG_CHAR_SELECT_RESPONSE
  | SMSG_CHAR_DELETE_RESPONSE
  | SMSG_CHAR_LIST_RESPONSE
  | LOGIN_ALREADY_LOGGED
  | LOGIN_INVALID_USERNAME
  | LOGIN_INVALID_PASSWORD
  | LOGIN_UNKNOWN
  | LOGOUT_UNSUCCESSFULL
  | LOGOUT_UNKNOWN
  | LOGOUT_OK
  | REGISTER_INVALID_EMAIL
  | REGISTER_EXISTS_EMAIL
  | REGISTER_EXISTS_USERNAME
  | REGISTER_INVALID_USERNAME
  | REGISTER_INVALID_PASSWORD
  | REGISTER_OK
  | UNREGISTER_INVALID_USERNAME
  | UNREGISTER_INVALID_PASSWORD
  | UNREGISTER_OK
  | CREATE_NOLOGIN
  | CREATE_TOO_MUCH_CHARACTERS
  | CREATE_EXISTS_NAME
  | CREATE_INVALID_NAME
  | CREATE_OK
  | SELECT_NOLOGIN
  | SELECT_NOT_YET_CHARACTERS
  | SELECT_INVALID
  | SELECT_OK
  | DELETE_NOLOGIN
  | DELETE_NO_MORE_CHARACTERS
  | DELETE_INVALID_NAME
  | DELETE_OK
  | CHAR_LIST_NOLOGIN
  | CHAR_LIST_OK
  deriving DecidableEq, Repr

/-- The length limits of `defines.h` that `accounthandler.cpp` names; their values are not
among the sources and are parameters. -/
structure Defines where
  MIN_EMAIL_LENGTH : Nat
  MAX_EMAIL_LENGTH : Nat
  MIN_LOGIN_LENGTH : Nat
  MAX_LOGIN_LENGTH : Nat
  MIN_PASSWORD_LENGTH : Nat
  MAX_PASSWORD_LENGTH : Nat
  MIN_CHARACTER_LENGTH : Nat
  MAX_CHARACTER_LENGTH : Nat
  MAX_OF_CHARACTERS : Nat
  deriving DecidableEq, Repr

/-- A value handed to `writeShort` or `writeByte`: an enumerator or a number. -/
inductive Value where
  | enumerator (e : Enumerator)
  | number (n : Nat)
  deriving DecidableEq, Repr

/-- One value written into `result`, with the width it is written in. -/
inductive Written where
  | byte (v : Value)
  | short (v : Value)
  | string (s : String)
  deriving DecidableEq, Repr

/-- The number of bytes a written value occupies. -/
def Written.size : Written → Nat
  | .byte _ => 1
  | .short _ => 2
  | .string s => 2 + s.utf8ByteSize

/-- The `MessageOut result` of `accounthandler.cpp`, built without a tag and sent as
`result.getPacket()`: the values written, in order. -/
structure Packet where
  written : List Written
  deriving DecidableEq, Repr

/-- The declaration `MessageOut result;`. -/
def Packet.empty : Packet := { written := [] }

/-- The call `result.writeShort(e)` with an enumerator. -/
def Packet.writeShort (p : Packet) (e : Enumerator) : Packet :=
  { written := p.written ++ [Written.short (Value.enumerator e)] }

/-- The call `result.writeByte(e)` with an enumerator. -/
def Packet.writeByte (p : Packet) (e : Enumerator) : Packet :=
  { written := p.written ++ [Written.byte (Value.enumerator e)] }

/-- The call `result.writeByte(n)` with a number, reduced modulo `256`. -/
def Packet.writeByteValue (p : Packet) (n : Nat) : Packet :=
  { written := p.written ++ [Written.byte (Value.number (n % 256))] }

/-- The call `result.writeString(s)`. -/
def Packet.writeString (p : Packet) (s : String) : Packet :=
  { written := p.written ++ [Written.string s] }

/-- The number of bytes of the packet. -/
def Packet.length (p : Packet) : Nat := (p.written.map Written.size).sum

/-- The struct `tmwserv::RawStatistics`. -/
structure tmwserv.RawStatistics where
  strength : Nat
  agility : Nat
  vitality : Nat
  intelligence : Nat
  dexterity : Nat
  luck : Nat
  deriving DecidableEq, Repr

/-- The fields of a `tmwserv::Being` that `accounthandler.cpp` sets or reads. -/
structure tmwserv.Being where
  name : String
  gender : Nat
  level : Nat
  money : Nat
  stats : tmwserv.RawStatistics
  deriving DecidableEq, Repr

/-- The constructor call `tmwserv::Being(name, sex, level, money, stats)`. -/
def tmwserv.Being.new (name : String) (sex level money : Nat)
    (stats : tmwserv.RawStatistics) : tmwserv.Being :=
  { name := name, gender := sex, level := level, money := money, stats := stats }

/-- The fields of a `tmwserv::Account` that `accounthandler.cpp` sets or reads;
`characters` is the vector that `getCharacters()` returns. -/
structure tmwserv.Account where
  name : String
  password : String
  email : String
  characters : List tmwserv.Being
  deriving DecidableEq, Repr

/-- The constructor call `Account(username, password, email)`: no character yet. -/
def tmwserv.Account.new (username password email : String) : tmwserv.Account :=
  { name := username, password := password, email := email, characters := [] }

/-- The methods `Account::addCharacter` and `Account::delCharacter`, which are not among
the sources and are parameters: the account afterwards. -/
structure AccountOps where
  addCharacter : tmwserv.Account → tmwserv.Being → tmwserv.Account
  delCharacter : tmwserv.Account → String → tmwserv.Account

/-- The class `NetComputer` (`netcomputer.h`): the account associated with the connection
and the selected character, each absent when the pointer is null. The account is held by
value: it stands for the object the pointer designates. -/
structure NetComputer where
  account : Option tmwserv.Account
  character : Option tmwserv.Being
  deriving DecidableEq, Repr

/-- The method `setAccount`: set the account associated with the connection. -/
def NetComputer.setAccount (c : NetComputer) (acc : tmwserv.Account) : NetComputer :=
  { c with account := some acc }

/-- The method `unsetCharacter`: deselect the character associated with the connection. -/
def NetComputer.unsetCharacter (c : NetComputer) : NetComputer :=
  { c with character := none }

/-- The method `unsetAccount`: unset the account associated with the connection; as the
callers note, `unsetCharacter()` is done by `unsetAccount()`. -/
def NetComputer.unsetAccount (c : NetComputer) : NetComputer :=
  { c.unsetCharacter with account := none }

/-- The method `setCharacter`: set the selected character associated with the connection. -/
def NetComputer.setCharacter (c : NetComputer) (ch : tmwserv.Being) : NetComputer :=
  { c with character := some ch }

/-- The answers of the class `Storage`, which is not among the sources, to the queries
that `receiveMessage` makes during one call. -/
structure Storage where
  getAccount : String → Option tmwserv.Account
  doesEmailAlreadyExists : String → Bool
  doesCharacterNameExists : String → Bool

/-- The calls of `receiveMessage` that change the store. -/
inductive StoreCall where
  | addAccount (acc : tmwserv.Account)
  | delAccount (username : String)
  | flush
  deriving DecidableEq, Repr

/-- The class `MessageIn`, which is not among the sources, as one call of `receiveMessage`
reads it: `id` is the enumerator that `getId()` equals (`none` when it equals none of
them), `string1`, `string2` and `string3` are the values that the first, second and third
call of `readString()` return, and `byte` is the value that `readByte()` returns. -/
structure MessageIn where
  id : Option Enumerator
  string1 : String
  string2 : String
  string3 : String
  byte : Nat
  deriving DecidableEq, Repr

/-- The method `std::string::length`: the number of bytes. -/
def stdStringLength (s : String) : Nat := s.utf8ByteSize

/-- The search of `std::string::find_first_of(c, pos)` in the rest of a string, whose first
character has the index `i`. -/
def findFrom (c : Char) : List Char → Nat → Option Nat
  | [], _ => none
  | x :: xs, i => if x = c then some i else findFrom c xs (i + 1)

/-- The method `std::string::find_first_of(c, pos)` for an ASCII character `c`; `none` is
`std::string::npos`. Positions count characters. -/
def find_first_of (s : String) (c : Char) (pos : Nat) : Option Nat :=
  findFrom c (s.toList.drop pos) pos

/-- The flag `emailValid` of the case `CMSG_REGISTER`: an `@`, a `.` from the place of the
`@` on, and no space. -/
def emailValid (email : String) : Bool :=
  match find_first_of email '@' 0 with
  | some atpos =>
    match find_first_of email '.' atpos with
    | some _ =>
      match find_first_of email (Char.ofNat 32) 0 with
      | none => true
      | some _ => false
    | none => false
  | none => false

/-- The effects of one call of `receiveMessage`: the connection afterwards, the packet
handed to `computer.send`, and the calls that change the store, in order. -/
structure Received where
  computer : NetComputer
  result : Packet
  storeCalls : List StoreCall
  deriving DecidableEq, Repr

/-- The case `CMSG_LOGIN` of `AccountHandler::receiveMessage`. -/
def AccountHandler.login (store : Storage) (computer : NetComputer) (message : MessageIn) :
    Received :=
  let result := Packet.empty
  let username := message.string1
  let password := message.string2
  if computer.account ≠ none then
    { computer := computer,
      result := (result.writeShort .SMSG_LOGIN_ERROR).writeShort .LOGIN_ALREADY_LOGGED,
      storeCalls := [] }
  else
    -- see if the account exists
    match store.getAccount username with
    | none =>
      -- account doesn't exist -- send error to client
      { computer := computer,
        result := (result.writeShort .SMSG_LOGIN_ERROR).writeByte .LOGIN_INVALID_USERNAME,
        storeCalls := [] }
    | some acc =>
      if acc.password ≠ password then
        -- bad password -- send error to client
        { computer := computer,
          result := (result.writeShort .SMSG_LOGIN_ERROR).writeByte .LOGIN_INVALID_PASSWORD,
          storeCalls := [] }
      else
        -- Associate account with connection
        let computer := computer.setAccount acc
        let result := result.writeShort .SMSG_LOGIN_CONFIRM
        -- Return information about available characters
        let chars := acc.characters
        let result := result.writeByteValue chars.length
        { computer := computer,
          result := chars.foldl (fun r ch => r.writeString ch.name) result,
          storeCalls := [] }

/-- The case `CMSG_LOGOUT` of `AccountHandler::receiveMessage`. -/
def AccountHandler.logout (computer : NetComputer) : Received :=
  let result := Packet.empty
  match computer.account with
  | none =>
    { computer := computer,
      result := (result.writeShort .SMSG_LOGOUT_ERROR).writeByte .LOGOUT_UNSUCCESSFULL,
      storeCalls := [] }
  | some acc =>
    let username := acc.name
    if username = "" then
      { computer := computer.unsetAccount,
        result := (result.writeShort .SMSG_LOGOUT_ERROR).writeByte .LOGOUT_UNKNOWN,
        storeCalls := [] }
    else
      { computer := computer.unsetAccount,
        result := (result.writeShort .SMSG_LOGOUT_CONFIRM).writeByte .LOGOUT_OK,
        storeCalls := [] }

/-- The case `CMSG_REGISTER` of `AccountHandler::receiveMessage`. -/
def AccountHandler.register (d : Defines) (store : Storage) (computer : NetComputer)
    (message : MessageIn) : Received :=
  let result := Packet.empty
  let username := message.string1
  let password := message.string2
  let email := message.string3
  -- Testing Email validity
  if stdStringLength email < d.MIN_EMAIL_LENGTH ∨ stdStringLength email > d.MAX_EMAIL_LENGTH then
    { computer := computer,
      result := (result.writeShort .SMSG_REGISTER_RESPONSE).writeByte .REGISTER_INVALID_EMAIL,
      storeCalls := [] }
  else if store.doesEmailAlreadyExists email then
    { computer := computer,
      result := (result.writeShort .SMSG_REGISTER_RESPONSE).writeByte .REGISTER_EXISTS_EMAIL,
      storeCalls := [] }
  else
    -- see if the account exists
    if (store.getAccount username).isSome then
      { computer := computer,
        result :=
          (result.writeShort .SMSG_REGISTER_RESPONSE).writeByte .REGISTER_EXISTS_USERNAME,
        storeCalls := [] }
    else if stdStringLength username < d.MIN_LOGIN_LENGTH
        ∨ stdStringLength username > d.MAX_LOGIN_LENGTH then
      { computer := computer,
        result :=
          (result.writeShort .SMSG_REGISTER_RESPONSE).writeByte .REGISTER_INVALID_USERNAME,
        storeCalls := [] }
    else if stdStringLength password < d.MIN_PASSWORD_LENGTH
        ∨ stdStringLength password > d.MAX_PASSWORD_LENGTH then
      { computer := computer,
        result :=
          (result.writeShort .SMSG_REGISTER_RESPONSE).writeByte .REGISTER_INVALID_PASSWORD,
        storeCalls := [] }
    else if !emailValid email then
      { computer := computer,
        result := (result.writeShort .SMSG_REGISTER_RESPONSE).writeByte .REGISTER_INVALID_EMAIL,
        storeCalls := [] }
    else
      let acc := tmwserv.Account.new username password email
      { computer := computer,
        result := (result.writeShort .SMSG_REGISTER_RESPONSE).writeByte .REGISTER_OK,
        storeCalls := [StoreCall.addAccount acc, StoreCall.flush] }

/-- The case `CMSG_UNREGISTER` of `AccountHandler::receiveMessage`. -/
def AccountHandler.unregister (store : Storage) (computer : NetComputer)
    (message : MessageIn) : Received :=
  let result := Packet.empty
  let username := message.string1
  let password := message.string2
  -- see if the account exists
  match store.getAccount username with
  | none =>
    { computer := computer,
      result :=
        (result.writeShort .SMSG_UNREGISTER_RESPONSE).writeByte .UNREGISTER_INVALID_USERNAME,
      storeCalls := [] }
  | some acc =>
    if acc.password ≠ password then
      { computer := computer,
        result :=
          (result.writeShort .SMSG_UNREGISTER_RESPONSE).writeByte .UNREGISTER_INVALID_PASSWORD,
        storeCalls := [] }
    else
      -- If the account to delete is the current account we're logged in.
      let computer :=
        match computer.account with
        | some current => if current.name = username then computer.unsetAccount else computer
        | none => computer
      { computer := computer,
        result := (result.writeShort .SMSG_UNREGISTER_RESPONSE).writeByte .UNREGISTER_OK,
        storeCalls := [StoreCall.delAccount username, StoreCall.flush] }

/-- The case `CMSG_CHAR_CREATE` of `AccountHandler::receiveMessage`. -/
def AccountHandler.charCreate (d : Defines) (ops : AccountOps) (store : Storage)
    (computer : NetComputer) (message : MessageIn) : Received :=
  let result := Packet.empty
  match computer.account with
  | none =>
    { computer := computer,
      result := (result.writeShort .SMSG_CHAR_CREATE_RESPONSE).writeByte .CREATE_NOLOGIN,
      storeCalls := [] }
  | some account =>
    -- A player shouldn't have more than 3 characters.
    let chars := account.characters
    if chars.length ≥ d.MAX_OF_CHARACTERS then
      { computer := computer,
        result :=
          (result.writeShort .SMSG_CHAR_CREATE_RESPONSE).writeByte .CREATE_TOO_MUCH_CHARACTERS,
        storeCalls := [] }
    else
      let name := message.string1
      -- Check if the character's name already exists
      if store.doesCharacterNameExists name then
        { computer := computer,
          result := (result.writeShort .SMSG_CHAR_CREATE_RESPONSE).writeByte .CREATE_EXISTS_NAME,
          storeCalls := [] }
      -- Check for character's name length
      else if stdStringLength name < d.MIN_CHARACTER_LENGTH
          ∨ stdStringLength name > d.MAX_CHARACTER_LENGTH then
        { computer := computer,
          result := (result.writeShort .SMSG_CHAR_CREATE_RESPONSE).writeByte .CREATE_INVALID_NAME,
          storeCalls := [] }
      else
        let sex := message.byte
        let stats : tmwserv.RawStatistics :=
          { strength := 10, agility := 10, vitality := 10, intelligence := 10,
            dexterity := 10, luck := 10 }
        let newCharacter := tmwserv.Being.new name sex 1 0 stats
        { computer := { computer with account := some (ops.addCharacter account newCharacter) },
          result := (result.writeShort .SMSG_CHAR_CREATE_RESPONSE).writeByte .CREATE_OK,
          storeCalls := [StoreCall.flush] }

/-- The case `CMSG_CHAR_SELECT` of `AccountHandler::receiveMessage`; `chars.get? charNum`
is `none` exactly when `charNum >= chars.size()`, and `chars[charNum]` otherwise. -/
def AccountHandler.charSelect (computer : NetComputer) (message : MessageIn) : Received :=
  let result := Packet.empty
  match computer.account with
  | none =>
    { computer := computer,
      result := (result.writeShort .SMSG_CHAR_SELECT_RESPONSE).writeByte .SELECT_NOLOGIN,
      storeCalls := [] }
  | some account =>
    let charNum := message.byte % 256
    let chars := account.characters
    let result := result.writeShort .SMSG_CHAR_SELECT_RESPONSE
    if chars.length = 0 then
      { computer := computer, result := result.writeByte .SELECT_NOT_YET_CHARACTERS,
        storeCalls := [] }
    else
      -- Character ID = 0 to Number of Characters - 1.
      match chars.get? charNum with
      | none =>
        -- invalid char selection
        { computer := computer, result := result.writeByte .SELECT_INVALID, storeCalls := [] }
      | some ch =>
        -- set character
        { computer := computer.setCharacter ch, result := result.writeByte .SELECT_OK,
          storeCalls := [] }

/-- The case `CMSG_CHAR_DELETE` of `AccountHandler::receiveMessage`; `chars.get? charNum`
is `none` exactly when `charNum >= chars.size()`, and `chars[charNum]` otherwise. -/
def AccountHandler.charDelete (ops : AccountOps) (computer : NetComputer)
    (message : MessageIn) : Received :=
  let result := Packet.empty
  match computer.account with
  | none =>
    { computer := computer,
      result := (result.writeShort .SMSG_CHAR_DELETE_RESPONSE).writeByte .DELETE_NOLOGIN,
      storeCalls := [] }
  | some account =>
    let charNum := message.byte % 256
    let chars := account.characters
    let result := result.writeShort .SMSG_CHAR_DELETE_RESPONSE
    if chars.length = 0 then
      { computer := computer, result := result.writeByte .DELETE_NO_MORE_CHARACTERS,
        storeCalls := [] }
    else
      -- Character ID = 0 to Number of Characters - 1.
      match chars.get? charNum with
      | none =>
        -- invalid char selection
        { computer := computer, result := result.writeByte .DELETE_INVALID_NAME,
          storeCalls := [] }
      | some ch =>
        -- if the character to delete is the current character, get off of it in memory.
        let computer :=
          match computer.character with
          | some current => if current.name = ch.name then computer.unsetCharacter else computer
          | none => computer
        let deletedCharacter := ch.name
        { computer :=
            { computer with account := some (ops.delCharacter account deletedCharacter) },
          result := result.writeByte .DELETE_OK,
          storeCalls := [StoreCall.flush] }

/-- The body of the loop of the case `CMSG_CHAR_LIST`: the name of a character, then its
gender, level, money and statistics, one byte each. -/
def AccountHandler.writeCharacter (result : Packet) (ch : tmwserv.Being) : Packet :=
  (((((((((result.writeString ch.name).writeByteValue ch.gender).writeByteValue
    ch.level).writeByteValue ch.money).writeByteValue ch.stats.strength).writeByteValue
    ch.stats.agility).writeByteValue ch.stats.vitality).writeByteValue
    ch.stats.intelligence).writeByteValue ch.stats.dexterity).writeByteValue ch.stats.luck

/-- The case `CMSG_CHAR_LIST` of `AccountHandler::receiveMessage`. -/
def AccountHandler.charList (computer : NetComputer) : Received :=
  let result := Packet.empty
  match computer.account with
  | none =>
    { computer := computer,
      result := (result.writeShort .SMSG_CHAR_LIST_RESPONSE).writeByte .CHAR_LIST_NOLOGIN,
      storeCalls := [] }
  | some account =>
    let result := (result.writeShort .SMSG_CHAR_LIST_RESPONSE).writeByte .CHAR_LIST_OK
    -- Return information about available characters
    let chars := account.characters
    let result := result.writeByteValue chars.length
    { computer := computer,
      result := chars.foldl AccountHandler.writeCharacter result,
      storeCalls := [] }

/-- The function `AccountHandler::receiveMessage`: the switch over `message.getId()`, then
`computer.send(result.getPacket())`. The lines written to `std::cout` and the reopening of
the store under `SQLITE_SUPPORT` are left out. -/
def AccountHandler.receiveMessage (d : Defines) (ops : AccountOps) (store : Storage)
    (computer : NetComputer) (message : MessageIn) : Received :=
  match message.id with
  | some .CMSG_LOGIN => AccountHandler.login store computer message
  | some .CMSG_LOGOUT => AccountHandler.logout computer
  | some .CMSG_REGISTER => AccountHandler.register d store computer message
  | some .CMSG_UNREGISTER => AccountHandler.unregister store computer message
  | some .CMSG_CHAR_CREATE => AccountHandler.charCreate d ops store computer message
  | some .CMSG_CHAR_SELECT => AccountHandler.charSelect computer message
  | some .CMSG_CHAR_DELETE => AccountHandler.charDelete ops computer message
  | some .CMSG_CHAR_LIST => AccountHandler.charList computer
  | _ =>
    { computer := computer,
      result := (Packet.empty.writeShort .SMSG_LOGIN_ERROR).writeByte .LOGIN_UNKNOWN,
      storeCalls := [] }

/-- A sequence of calls of `AccountHandler::receiveMessage` on one connection, each with
the answers of the store at that time: the connection afterwards. -/
def AccountHandler.receiveAll (d : Defines) (ops : AccountOps) :
    NetComputer → List (Storage × MessageIn) → NetComputer
  | computer, [] => computer
  | computer, (store, message) :: rest =>
    AccountHandler.receiveAll d ops
      (AccountHandler.receiveMessage d ops store computer message).computer rest

/-- Limits for the examples. -/
def sampleDefines : Defines :=
  { MIN_EMAIL_LENGTH := 7, MAX_EMAIL_LENGTH := 128, MIN_LOGIN_LENGTH := 4,
    MAX_LOGIN_LENGTH := 16, MIN_PASSWORD_LENGTH := 4, MAX_PASSWORD_LENGTH := 25,
    MIN_CHARACTER_LENGTH := 4, MAX_CHARACTER_LENGTH := 25, MAX_OF_CHARACTERS := 3 }

/-- Account methods for the examples: `addCharacter` appends the character and
`delCharacter` drops the characters of that name. -/
def sampleAccountOps : AccountOps :=
  { addCharacter := fun a b => { a with characters := a.characters ++ [b] },
    delCharacter := fun a n => { a with characters := a.characters.filter (fun b => b.name != n) } }

/-- An account with one character, for the examples. -/
def sampleAccount : tmwserv.Account :=
  { name := "alice", password := "secret", email := "alice@example.org",
    characters :=
      [tmwserv.Being.new "Hero" 0 1 0
        { strength := 10, agility := 10, vitality := 10, intelligence := 10,
          dexterity := 10, luck := 10 }] }

/-- A store that holds `sampleAccount` only. -/
def sampleStore : Storage :=
  { getAccount := fun n => if n = "alice" then some sampleAccount else none,
    doesEmailAlreadyExists := fun e => e == "alice@example.org",
    doesCharacterNameExists := fun n => n == "Hero" }

/-- A connection that is not logged in. -/
def sampleComputer : NetComputer := { account := none, character := none }

/-- A connection that is logged in as `sampleAccount`. -/
def sampleLoggedIn : NetComputer := { account := some sampleAccount, character := none }

/-- A message with the given identifier and strings. -/
def sampleMessage (id : Enumerator) (s1 s2 s3 : String) : MessageIn :=
  { id := some id, string1 := s1, string2 := s2, string3 := s3, byte := 0 }

/-! ## Lemmas on the deferred event queue -/

theorem pending_nil (o : ObjectPtr) : pending o [] = none := rfl

theorem pending_cons (o k : ObjectPtr) (e : DelayedEvent) (q : DelayedEvents) :
    pending o ((k, e) :: q) = if k = o then some e else pending o q := by
  unfold pending
  by_cases h : k = o
  · simp [List.find?, h]
  · have hb : (k == o) = false := by simpa using h
    simp [List.find?, h, hb]

theorem pending_none_of_lt (k : ObjectPtr) (q : DelayedEvents)
    (h : ∀ a ∈ q.map Prod.fst, k < a) : pending k q = none := by
  induction q with
  | nil => rfl
  | cons p rest ih =>
    obtain ⟨k0, e0⟩ := p
    rw [pending_cons]
    have h0 : k < k0 := h k0 (by simp)
    have hne : ¬ k0 = k := Nat.ne_of_gt h0
    rw [if_neg hne]
    exact ih (fun a ha => h a (by simp at ha ⊢; exact Or.inr ha))

theorem Sorted.tail {p : ObjectPtr × DelayedEvent} {q : DelayedEvents} (h : Sorted (p :: q)) :
    Sorted q := by
  unfold Sorted at h ⊢
  simp only [List.map_cons, List.pairwise_cons] at h
  exact h.2

theorem Sorted.head_lt {p : ObjectPtr × DelayedEvent} {q : DelayedEvents} (h : Sorted (p :: q)) :
    ∀ a ∈ q.map Prod.fst, p.1 < a := by
  unfold Sorted at h
  simp only [List.map_cons, List.pairwise_cons] at h
  exact h.1

theorem Sorted.pending_tail {k : ObjectPtr} {e : DelayedEvent} {q : DelayedEvents}
    (h : Sorted ((k, e) :: q)) : pending k q = none :=
  pending_none_of_lt k q h.head_lt

theorem stdMapInsert_keys (k : ObjectPtr) (e : DelayedEvent) (q : DelayedEvents) :
    ∀ a ∈ (stdMapInsert k e q).1.map Prod.fst, a = k ∨ a ∈ q.map Prod.fst := by
  induction q with
  | nil => intro a ha; simp [stdMapInsert] at ha; exact Or.inl ha
  | cons p rest ih =>
    obtain ⟨k0, e0⟩ := p
    intro a ha
    unfold stdMapInsert at ha
    by_cases h1 : k < k0
    · rw [if_pos h1] at ha
      simp at ha ⊢; tauto
    · rw [if_neg h1] at ha
      by_cases h2 : k = k0
      · rw [if_pos h2] at ha; right; exact ha
      · rw [if_neg h2] at ha
        simp only [List.map_cons, List.mem_cons] at ha ⊢
        rcases ha with ha | ha
        · exact Or.inr (Or.inl ha)
        · rcases ih a ha with h | h
          · exact Or.inl h
          · exact Or.inr (Or.inr h)

theorem stdMapInsert_sorted (k : ObjectPtr) (e : DelayedEvent) (q : DelayedEvents)
    (hq : Sorted q) : Sorted (stdMapInsert k e q).1 := by
  induction q with
  | nil => simp [stdMapInsert, Sorted]
  | cons p rest ih =>
    obtain ⟨k0, e0⟩ := p
    have hlt := hq.head_lt
    have hs := ih hq.tail
    unfold stdMapInsert
    by_cases h1 : k < k0
    · rw [if_pos h1]
      unfold Sorted at hq ⊢
      simp only [List.map_cons, List.pairwise_cons] at hq ⊢
      refine ⟨?_, hq⟩
      intro a ha
      simp only [List.mem_cons] at ha
      rcases ha with ha | ha
      · rw [ha]; exact h1
      · exact Nat.lt_trans h1 (hlt a ha)
    · rw [if_neg h1]
      by_cases h2 : k = k0
      · rw [if_pos h2]; exact hq
      · rw [if_neg h2]
        unfold Sorted at hs ⊢
        simp only [List.map_cons, List.pairwise_cons]
        refine ⟨?_, hs⟩
        intro a ha
        rcases stdMapInsert_keys k e rest a ha with h | h
        · rw [h]
          exact Nat.lt_of_le_of_ne (Nat.le_of_not_lt h1) (fun h3 => h2 h3.symm)
        · exact hlt a h

theorem stdMapInsert_pending (k : ObjectPtr) (e : DelayedEvent) (q : DelayedEvents)
    (hq : Sorted q) (o : ObjectPtr) :
    pending o (stdMapInsert k e q).1 =
      if o = k then (match pending k q with | none => some e | some e0 => some e0)
      else pending o q := by
  induction q with
  | nil =>
    simp only [stdMapInsert, pending_cons, pending_nil]
    by_cases h : o = k
    · simp [h]
    · have : ¬ k = o := fun h1 => h h1.symm
      simp [h, this]
  | cons p rest ih =>
    obtain ⟨k0, e0⟩ := p
    have hlt := hq.head_lt
    have ih := ih hq.tail
    unfold stdMapInsert
    by_cases h1 : k < k0
    · rw [if_pos h1]
      have hnone : pending k ((k0, e0) :: rest) = none := by
        apply pending_none_of_lt
        intro a ha
        simp only [List.map_cons, List.mem_cons] at ha
        rcases ha with ha | ha
        · rw [ha]; exact h1
        · exact Nat.lt_trans h1 (hlt a ha)
      by_cases h3 : o = k
      · subst h3
        rw [hnone]; simp [pending_cons]
      · rw [if_neg h3, pending_cons, if_neg (fun h => h3 h.symm)]
    · rw [if_neg h1]
      by_cases h2 : k = k0
      · rw [if_pos h2]
        by_cases h3 : o = k
        · subst h3; subst h2
          simp [pending_cons]
        · rw [if_neg h3]
      · rw [if_neg h2]
        simp only
        have h2s : ¬ k0 = k := fun h => h2 h.symm
        by_cases h3 : o = k
        · subst h3
          simp only [pending_cons, if_neg h2s, ih]
        · simp only [pending_cons, ih, if_neg h3]

theorem stdMapInsert_snd (k : ObjectPtr) (e : DelayedEvent) (q : DelayedEvents)
    (hq : Sorted q) : (stdMapInsert k e q).2 = (pending k q).isNone := by
  induction q with
  | nil => rfl
  | cons p rest ih =>
    obtain ⟨k0, e0⟩ := p
    have hlt := hq.head_lt
    have ih := ih hq.tail
    unfold stdMapInsert
    by_cases h1 : k < k0
    · rw [if_pos h1]
      have hnone : pending k ((k0, e0) :: rest) = none := by
        apply pending_none_of_lt
        intro a ha
        simp only [List.map_cons, List.mem_cons] at ha
        rcases ha with ha | ha
        · rw [ha]; exact h1
        · exact Nat.lt_trans h1 (hlt a ha)
      rw [hnone]; rfl
    · rw [if_neg h1]
      by_cases h2 : k = k0
      · rw [if_pos h2, pending_cons, if_pos h2.symm]; rfl
      · rw [if_neg h2, pending_cons, if_neg (fun h => h2 h.symm)]
        exact ih

theorem setTypeRemove_keys (k : ObjectPtr) (q : DelayedEvents) :
    (setTypeRemove k q).map Prod.fst = q.map Prod.fst := by
  induction q with
  | nil => rfl
  | cons p rest ih =>
    obtain ⟨k0, e0⟩ := p
    unfold setTypeRemove
    by_cases h : k = k0
    · rw [if_pos h]; rfl
    · rw [if_neg h]; simp [ih]

theorem setTypeRemove_pending (k : ObjectPtr) (q : DelayedEvents) (o : ObjectPtr) :
    pending o (setTypeRemove k q) =
      if o = k then (pending k q).map (fun e0 => { e0 with type := EventType.EVENT_REMOVE })
      else pending o q := by
  induction q with
  | nil => simp [setTypeRemove, pending_nil]
  | cons p rest ih =>
    obtain ⟨k0, e0⟩ := p
    unfold setTypeRemove
    by_cases h : k = k0
    · rw [if_pos h]
      by_cases h3 : o = k
      · subst h3; subst h; simp [pending_cons]
      · subst h
        have h3s : ¬ k = o := fun h' => h3 h'.symm
        simp only [if_neg h3, pending_cons, if_neg h3s]
    · rw [if_neg h]
      have hs : ¬ k0 = k := fun h' => h h'.symm
      by_cases h3 : o = k
      · subst h3
        simp only [pending_cons, if_neg hs, ih]
      · simp only [if_neg h3, pending_cons, ih]

theorem enqueueEvent_sorted (k : ObjectPtr) (e : DelayedEvent) (q : DelayedEvents)
    (hq : Sorted q) : Sorted (enqueueEvent k e q) := by
  unfold enqueueEvent
  simp only
  split
  · unfold Sorted; rw [setTypeRemove_keys]; exact stdMapInsert_sorted k e q hq
  · exact stdMapInsert_sorted k e q hq

theorem enqueueEvent_pending (k : ObjectPtr) (e : DelayedEvent) (q : DelayedEvents)
    (hq : Sorted q) (o : ObjectPtr) :
    pending o (enqueueEvent k e q) =
      if o = k then some (mergeEvent e (pending k q)) else pending o q := by
  unfold enqueueEvent
  simp only
  rw [stdMapInsert_snd k e q hq]
  cases hp : pending k q with
  | none =>
    simp only [Option.isNone_none, Bool.not_true, Bool.false_and, Bool.false_eq_true, if_false]
    rw [stdMapInsert_pending k e q hq, hp]; rfl
  | some e0 =>
    by_cases ht : e.type = EventType.EVENT_REMOVE
    · simp only [Option.isNone_some, Bool.not_false, Bool.true_and, ht, beq_self_eq_true, if_true]
      rw [setTypeRemove_pending, stdMapInsert_pending k e q hq, hp]
      by_cases h3 : o = k
      · simp [h3, mergeEvent, ht]
      · simp only [if_neg h3]
        rw [stdMapInsert_pending k e q hq, if_neg h3]
    · have hb : (e.type == EventType.EVENT_REMOVE) = false := by simpa using ht
      simp only [Option.isNone_some, Bool.not_false, Bool.true_and, hb, Bool.false_eq_true,
        if_false]
      rw [stdMapInsert_pending k e q hq, hp]
      by_cases h3 : o = k
      · simp [h3, mergeEvent, ht]
      · simp [h3]

theorem Request.run_eq (r : Request) (q : DelayedEvents) :
    r.run q = enqueueEvent r.target r.event q := by
  cases r <;> rfl

theorem mergeEvent_type (e : DelayedEvent) (old : Option DelayedEvent) :
    (mergeEvent e old).type =
      match old with
      | none => e.type
      | some e0 => if e.type = EventType.EVENT_REMOVE then EventType.EVENT_REMOVE else e0.type := by
  cases old with
  | none => rfl
  | some e0 =>
    simp only [mergeEvent]
    split <;> rfl

theorem Request.run_sorted (r : Request) (q : DelayedEvents) (hq : Sorted q) :
    Sorted (r.run q) := by
  rw [r.run_eq]; exact enqueueEvent_sorted _ _ _ hq

theorem Request.run_pending (r : Request) (q : DelayedEvents) (hq : Sorted q) (o : ObjectPtr) :
    pending o (r.run q) =
      if o = r.target then some (mergeEvent r.event (pending r.target q)) else pending o q := by
  rw [r.run_eq]; exact enqueueEvent_pending _ _ _ hq o

theorem Request.run_typed (getType : ObjectPtr → ObjectType) (r : Request) (q : DelayedEvents)
    (hq : Sorted q) (ht : Typed getType q) (hr : r.wellTyped getType = true) :
    Typed getType (r.run q) := by
  intro o e hp hw
  rw [r.run_pending q hq] at hp
  by_cases h : o = r.target
  · rw [if_pos h] at hp
    have he : e = mergeEvent r.event (pending r.target q) := (Option.some.inj hp).symm
    have hty := mergeEvent_type r.event (pending r.target q)
    rw [← he, hw] at hty
    cases hq0 : pending r.target q with
    | none =>
      rw [hq0] at hty
      cases r with
      | insert p => simp [Request.event] at hty
      | remove p => simp [Request.event] at hty
      | warp p m x y =>
        simp only [Request.wellTyped, beq_iff_eq] at hr
        rw [h]; exact hr
    | some e0 =>
      rw [hq0] at hty
      simp only at hty
      by_cases hrem : r.event.type = EventType.EVENT_REMOVE
      · rw [if_pos hrem] at hty; cases hty
      · rw [if_neg hrem] at hty
        rw [h]
        exact ht r.target e0 hq0 hty.symm
  · rw [if_neg h] at hp
    exact ht o e hp hw

theorem sorted_nil : Sorted [] := by simp [Sorted]

theorem typed_nil (getType : ObjectPtr → ObjectType) : Typed getType [] := by
  intro o e hp; simp [pending_nil] at hp

theorem enqueueAll_nil (q : DelayedEvents) : enqueueAll [] q = q := rfl

theorem enqueueAll_cons (r : Request) (rs : List Request) (q : DelayedEvents) :
    enqueueAll (r :: rs) q = enqueueAll rs (r.run q) := rfl

theorem enqueueAll_append (rs ss : List Request) (q : DelayedEvents) :
    enqueueAll (rs ++ ss) q = enqueueAll ss (enqueueAll rs q) := by
  simp [enqueueAll, List.foldl_append]

theorem enqueueAll_sorted (rs : List Request) (q : DelayedEvents) (hq : Sorted q) :
    Sorted (enqueueAll rs q) := by
  induction rs generalizing q with
  | nil => exact hq
  | cons r rs ih => exact ih _ (r.run_sorted q hq)

theorem enqueueAll_typed (getType : ObjectPtr → ObjectType) (rs : List Request)
    (q : DelayedEvents) (hq : Sorted q) (ht : Typed getType q)
    (hr : ∀ r ∈ rs, r.wellTyped getType = true) : Typed getType (enqueueAll rs q) := by
  induction rs generalizing q with
  | nil => exact ht
  | cons r rs ih =>
    exact ih _ (r.run_sorted q hq)
      (r.run_typed getType q hq ht (hr r (List.mem_cons_self _ _)))
      (fun r0 h0 => hr r0 (List.mem_cons_of_mem _ h0))

/-- A stored Remove event is not changed by any later request. -/
theorem enqueueAll_sticky (rs : List Request) (q : DelayedEvents) (hq : Sorted q)
    (o : ObjectPtr) (e : DelayedEvent) (hp : pending o q = some e)
    (he : e.type = EventType.EVENT_REMOVE) : pending o (enqueueAll rs q) = some e := by
  induction rs generalizing q with
  | nil => exact hp
  | cons r rs ih =>
    apply ih _ (r.run_sorted q hq)
    rw [r.run_pending q hq]
    by_cases h : o = r.target
    · rw [if_pos h, ← h, hp]
      simp only [mergeEvent]
      split
      · congr 1; cases e; simp_all
      · rfl
    · rw [if_neg h]; exact hp

/-- An entity has a stored event exactly when it was the target of a request. -/
theorem enqueueAll_isSome (rs : List Request) (q : DelayedEvents) (hq : Sorted q)
    (o : ObjectPtr) :
    (pending o (enqueueAll rs q)).isSome = true ↔
      ((pending o q).isSome = true ∨ o ∈ rs.map Request.target) := by
  induction rs generalizing q with
  | nil => simp [enqueueAll_nil]
  | cons r rs ih =>
    rw [enqueueAll_cons, ih _ (r.run_sorted q hq), r.run_pending q hq]
    by_cases h : o = r.target
    · simp [h]
    · simp [h]

theorem applyEvent_target (getType : ObjectPtr → ObjectType) (o : ObjectPtr) (e : DelayedEvent)
    (cs : List Call) (h : applyEvent getType o e = some cs) : ∀ c ∈ cs, c.target = o := by
  unfold applyEvent at h
  cases ht : e.type <;> rw [ht] at h <;> simp only at h
  · cases h
    intro c hc
    by_cases hg : getType o = ObjectType.OBJECT_CHARACTER
    · simp [hg] at hc
      rcases hc with rfl | rfl | rfl | rfl <;> rfl
    · simp [hg] at hc
      rcases hc with rfl | rfl <;> rfl
  · cases h
    intro c hc
    simp at hc; rw [hc]; rfl
  · by_cases hg : getType o = ObjectType.OBJECT_CHARACTER
    · rw [if_pos hg] at h; cases h
      intro c hc
      simp at hc; rw [hc]; rfl
    · rw [if_neg hg] at h; cases h

/-- The drain runs to completion on a queue built by well-typed requests, and the calls
it makes on an entity are those of the event stored for that entity. -/
theorem applyEvents_spec (getType : ObjectPtr → ObjectType) (q : DelayedEvents)
    (hq : Sorted q) (ht : Typed getType q) :
    ∃ calls, applyEvents getType q = some calls ∧
      ∀ o, calls.filter (fun c => c.target == o) =
        match pending o q with
        | none => []
        | some e => (applyEvent getType o e).getD [] := by
  induction q with
  | nil => exact ⟨[], rfl, fun o => rfl⟩
  | cons p rest ih =>
    obtain ⟨k, e⟩ := p
    have hrest : Typed getType rest := by
      intro o e0 hp hw
      apply ht o e0 _ hw
      rw [pending_cons]
      by_cases h : k = o
      · subst h; rw [hq.pending_tail] at hp; cases hp
      · rw [if_neg h]; exact hp
    obtain ⟨ds, hds, hfil⟩ := ih hq.tail hrest
    have hsome : ∃ cs, applyEvent getType k e = some cs := by
      unfold applyEvent
      cases hty : e.type
      · exact ⟨_, rfl⟩
      · exact ⟨_, rfl⟩
      · have := ht k e (by rw [pending_cons, if_pos rfl]) hty
        simp only [this, if_true]
        exact ⟨_, rfl⟩
    obtain ⟨cs, hcs⟩ := hsome
    refine ⟨cs ++ ds, ?_, ?_⟩
    · simp only [applyEvents, hcs, hds]
    · intro o
      rw [List.filter_append, hfil o, pending_cons]
      have htar := applyEvent_target getType k e cs hcs
      by_cases h : k = o
      · subst h
        rw [if_pos rfl, hq.pending_tail]
        simp only [hcs, Option.getD_some, List.append_nil]
        rw [List.filter_eq_self]
        intro c hc; simp [htar c hc]
      · rw [if_neg h]
        have : cs.filter (fun c => c.target == o) = [] := by
          rw [List.filter_eq_nil_iff]
          intro c hc
          simp [htar c hc, h]
        rw [this, List.nil_append]

theorem countP_filter_target (calls : List Call) (o : ObjectPtr) (p : Call → Bool)
    (hp : ∀ c, p c = true → c.target = o) :
    calls.countP p = (calls.filter (fun c => c.target == o)).countP p := by
  rw [List.countP_filter]
  apply List.countP_congr
  intro c _
  constructor
  · intro h; simp [h, hp c h]
  · intro h; simp at h; exact h.1

theorem isRemoveOf_target (o : ObjectPtr) (c : Call) (h : c.isRemoveOf o = true) :
    c.target = o := by
  cases c <;> simp_all [Call.isRemoveOf, Call.target]

theorem isInsertOf_target (o : ObjectPtr) (c : Call) (h : c.isInsertOf o = true) :
    c.target = o := by
  cases c <;> simp_all [Call.isInsertOf, Call.target]

theorem isWarpOf_target (o : ObjectPtr) (c : Call) (h : c.isWarpOf o = true) :
    c.target = o := by
  cases c <;> simp_all [Call.isWarpOf, Call.target]

theorem isDeleteOf_target (o : ObjectPtr) (c : Call) (h : c.isDeleteOf o = true) :
    c.target = o := by
  cases c <;> simp_all [Call.isDeleteOf, Call.target]

/-- What the drain does to an entity whose stored event is a Remove. -/
theorem drain_of_pending_remove (getType : ObjectPtr → ObjectType) (q : DelayedEvents)
    (hq : Sorted q) (ht : Typed getType q) (o : ObjectPtr) (e : DelayedEvent)
    (hp : pending o q = some e) (he : e.type = EventType.EVENT_REMOVE) :
    ∃ calls, drain getType q = some (calls, []) ∧
      calls.countP (Call.isRemoveOf o) = 1 ∧ calls.countP (Call.isDeleteOf o) = 1 ∧
      calls.countP (Call.isInsertOf o) = 0 ∧ calls.countP (Call.isWarpOf o) = 0 := by
  obtain ⟨calls, hcalls, hfil⟩ := applyEvents_spec getType q hq ht
  refine ⟨calls, by simp [drain, hcalls], ?_⟩
  have hf := hfil o
  rw [hp] at hf
  simp only [applyEvent, he, Option.getD_some] at hf
  rw [countP_filter_target calls o _ (isRemoveOf_target o),
    countP_filter_target calls o _ (isDeleteOf_target o),
    countP_filter_target calls o _ (isInsertOf_target o),
    countP_filter_target calls o _ (isWarpOf_target o), hf]
  by_cases hg : getType o = ObjectType.OBJECT_CHARACTER
  · simp [hg, Call.isRemoveOf, Call.isDeleteOf, Call.isInsertOf, Call.isWarpOf, List.countP_cons]
  · simp [hg, Call.isRemoveOf, Call.isDeleteOf, Call.isInsertOf, Call.isWarpOf, List.countP_cons]

/-! ## Theorems on the deferred event queue -/

/-- C1: if an Insert or a Warp event is pending for `o` (after any requests `pre` of the
tick) and `enqueueRemove o` is then called, then, whatever requests `post` follow in the
same tick, the drain at the end of `GameState::update` runs to completion, empties the
queue, calls `remove(o)` exactly once and calls neither `insertSafe(o)` nor `warp(o, ...)`. -/
theorem remove_overrides_pending_event (getType : ObjectPtr → ObjectType)
    (pre post : List Request) (o : ObjectPtr) (e : DelayedEvent)
    (htyped : ∀ r ∈ pre ++ post, r.wellTyped getType = true)
    (hpend : pending o (enqueueAll pre []) = some e)
    (hkind : e.type = EventType.EVENT_INSERT ∨ e.type = EventType.EVENT_WARP) :
    ∃ calls,
      drain getType (enqueueAll post (enqueueRemove o (enqueueAll pre []))) = some (calls, []) ∧
      calls.countP (Call.isRemoveOf o) = 1 ∧
      calls.countP (Call.isInsertOf o) = 0 ∧
      calls.countP (Call.isWarpOf o) = 0 := by
  have _ := hkind
  have hs0 : Sorted (enqueueAll pre []) := enqueueAll_sorted pre [] sorted_nil
  have ht0 : Typed getType (enqueueAll pre []) :=
    enqueueAll_typed getType pre [] sorted_nil (typed_nil getType)
      (fun r hr => htyped r (List.mem_append_left _ hr))
  have hs1 : Sorted (enqueueRemove o (enqueueAll pre [])) :=
    (Request.remove o).run_sorted _ hs0
  have ht1 : Typed getType (enqueueRemove o (enqueueAll pre [])) :=
    (Request.remove o).run_typed getType _ hs0 ht0 rfl
  have hp1 : pending o (enqueueRemove o (enqueueAll pre [])) =
      some { e with type := EventType.EVENT_REMOVE } := by
    have := (Request.remove o).run_pending _ hs0 o
    simp only [Request.run, Request.target, if_true, hpend] at this
    rw [this]; rfl
  have hs2 := enqueueAll_sorted post _ hs1
  have ht2 := enqueueAll_typed getType post _ hs1 ht1
    (fun r hr => htyped r (List.mem_append_right _ hr))
  have hp2 := enqueueAll_sticky post _ hs1 o _ hp1 rfl
  obtain ⟨calls, h1, h2, _, h4, h5⟩ := drain_of_pending_remove getType _ hs2 ht2 o _ hp2 rfl
  exact ⟨calls, h1, h2, h4, h5⟩

/-- Witness for C1: a Warp is pending for the character `7`, Remove is enqueued, and an
Insert for `7` and a Warp for `9` are requested afterwards. -/
theorem remove_overrides_pending_event_witness :
    ∃ calls,
      drain (fun _ => ObjectType.OBJECT_CHARACTER)
        (enqueueAll [Request.insert 7, Request.warp 9 2 5 5]
          (enqueueRemove 7 (enqueueAll [Request.insert 3, Request.warp 7 1 10 20] [])))
        = some (calls, []) ∧
      calls.countP (Call.isRemoveOf 7) = 1 ∧
      calls.countP (Call.isInsertOf 7) = 0 ∧
      calls.countP (Call.isWarpOf 7) = 0 :=
  remove_overrides_pending_event (fun _ => ObjectType.OBJECT_CHARACTER)
    [Request.insert 3, Request.warp 7 1 10 20] [Request.insert 7, Request.warp 9 2 5 5] 7
    { type := EventType.EVENT_WARP, x := 10, y := 20, map := 1 }
    (by decide) (by decide) (Or.inr rfl)

/-- C2: Remove is sticky. If a Remove event is stored for `o` (after any requests `pre` of
the tick), then `enqueueInsert o` and `enqueueWarp o ...` leave the stored event exactly as
it was, and whatever requests `post` follow in the same tick, the drain calls `remove(o)`
once and `delete o` once and calls neither `insertSafe(o)` nor `warp(o, ...)`. -/
theorem remove_is_sticky (getType : ObjectPtr → ObjectType)
    (pre post : List Request) (o : ObjectPtr) (e : DelayedEvent)
    (htyped : ∀ r ∈ pre ++ post, r.wellTyped getType = true)
    (hpend : pending o (enqueueAll pre []) = some e)
    (hrem : e.type = EventType.EVENT_REMOVE) :
    pending o (enqueueInsert o (enqueueAll pre [])) = some e ∧
    (∀ m x y, pending o (enqueueWarp o m x y (enqueueAll pre [])) = some e) ∧
    pending o (enqueueAll post (enqueueAll pre [])) = some e ∧
    ∃ calls,
      drain getType (enqueueAll post (enqueueAll pre [])) = some (calls, []) ∧
      calls.countP (Call.isRemoveOf o) = 1 ∧
      calls.countP (Call.isDeleteOf o) = 1 ∧
      calls.countP (Call.isInsertOf o) = 0 ∧
      calls.countP (Call.isWarpOf o) = 0 := by
  have hs0 : Sorted (enqueueAll pre []) := enqueueAll_sorted pre [] sorted_nil
  have ht0 : Typed getType (enqueueAll pre []) :=
    enqueueAll_typed getType pre [] sorted_nil (typed_nil getType)
      (fun r hr => htyped r (List.mem_append_left _ hr))
  have hs2 := enqueueAll_sorted post _ hs0
  have ht2 := enqueueAll_typed getType post _ hs0 ht0
    (fun r hr => htyped r (List.mem_append_right _ hr))
  have hp2 := enqueueAll_sticky post _ hs0 o _ hpend hrem
  refine ⟨?_, ?_, hp2, drain_of_pending_remove getType _ hs2 ht2 o _ hp2 hrem⟩
  · exact enqueueAll_sticky [Request.insert o] _ hs0 o e hpend hrem
  · intro m x y
    exact enqueueAll_sticky [Request.warp o m x y] _ hs0 o e hpend hrem

/-- Witness for C2: a Remove is stored for the character `7`; an Insert and a Warp for `7`
follow. -/
theorem remove_is_sticky_witness :
    pending 7 (enqueueInsert 7 (enqueueAll [Request.warp 7 1 10 20, Request.remove 7] []))
      = some { type := EventType.EVENT_REMOVE, x := 10, y := 20, map := 1 } ∧
    (∀ m x y,
      pending 7 (enqueueWarp 7 m x y (enqueueAll [Request.warp 7 1 10 20, Request.remove 7] []))
        = some { type := EventType.EVENT_REMOVE, x := 10, y := 20, map := 1 }) ∧
    pending 7 (enqueueAll [Request.insert 7, Request.warp 7 4 1 1]
        (enqueueAll [Request.warp 7 1 10 20, Request.remove 7] []))
      = some { type := EventType.EVENT_REMOVE, x := 10, y := 20, map := 1 } ∧
    ∃ calls,
      drain (fun _ => ObjectType.OBJECT_CHARACTER)
        (enqueueAll [Request.insert 7, Request.warp 7 4 1 1]
          (enqueueAll [Request.warp 7 1 10 20, Request.remove 7] [])) = some (calls, []) ∧
      calls.countP (Call.isRemoveOf 7) = 1 ∧
      calls.countP (Call.isDeleteOf 7) = 1 ∧
      calls.countP (Call.isInsertOf 7) = 0 ∧
      calls.countP (Call.isWarpOf 7) = 0 :=
  remove_is_sticky (fun _ => ObjectType.OBJECT_CHARACTER)
    [Request.warp 7 1 10 20, Request.remove 7] [Request.insert 7, Request.warp 7 4 1 1] 7
    { type := EventType.EVENT_REMOVE, x := 10, y := 20, map := 1 }
    (by decide) (by decide) rfl

theorem sorted_nodup (q : DelayedEvents) (hq : Sorted q) : (q.map Prod.fst).Nodup := by
  unfold Sorted at hq
  exact hq.imp (fun h => Nat.ne_of_lt h)

theorem applyEvent_structural (getType : ObjectPtr → ObjectType) (o : ObjectPtr)
    (e : DelayedEvent) (cs : List Call) (h : applyEvent getType o e = some cs) :
    cs.countP Call.isStructural = 1 := by
  unfold applyEvent at h
  cases ht : e.type <;> rw [ht] at h <;> simp only at h
  · cases h
    by_cases hg : getType o = ObjectType.OBJECT_CHARACTER
    · simp [hg, Call.isStructural, List.countP_cons]
    · simp [hg, Call.isStructural, List.countP_cons]
  · cases h; simp [Call.isStructural, List.countP_cons]
  · by_cases hg : getType o = ObjectType.OBJECT_CHARACTER
    · rw [if_pos hg] at h; cases h; simp [Call.isStructural, List.countP_cons]
    · rw [if_neg hg] at h; cases h

/-- C3: for every sequence `rs` of `enqueueInsert` / `enqueueRemove` / `enqueueWarp` calls
made during a tick (warps being requested for characters, as the signature of `enqueueWarp`
demands): after every initial part of the sequence the queue holds at most one event per
entity; the drain of `GameState::update` runs to completion and makes exactly one of the
calls `remove`, `insertSafe`, `warp` on each entity that was the target of a request and
none on any other entity; and the queue is empty afterwards. -/
theorem one_event_per_entity (getType : ObjectPtr → ObjectType) (rs : List Request)
    (htyped : ∀ r ∈ rs, r.wellTyped getType = true) :
    (∀ n, ((enqueueAll (rs.take n) []).map Prod.fst).Nodup) ∧
    ∃ calls,
      drain getType (enqueueAll rs []) = some (calls, []) ∧
      ∀ o, (calls.filter Call.isStructural).countP (fun c => c.target == o) =
        if o ∈ rs.map Request.target then 1 else 0 := by
  refine ⟨fun n => sorted_nodup _ (enqueueAll_sorted _ [] sorted_nil), ?_⟩
  have hs := enqueueAll_sorted rs [] sorted_nil
  have ht := enqueueAll_typed getType rs [] sorted_nil (typed_nil getType) htyped
  obtain ⟨calls, hcalls, hfil⟩ := applyEvents_spec getType _ hs ht
  refine ⟨calls, by simp [drain, hcalls], ?_⟩
  intro o
  have hcomm : (calls.filter Call.isStructural).countP (fun c => c.target == o) =
      (calls.filter (fun c => c.target == o)).countP Call.isStructural := by
    rw [List.countP_filter, List.countP_filter]
    apply List.countP_congr
    intro c _
    simp [and_comm]
  rw [hcomm, hfil o]
  have hmem := enqueueAll_isSome rs [] sorted_nil o
  cases hp : pending o (enqueueAll rs []) with
  | none =>
    rw [hp] at hmem
    simp only [Option.isSome_none, Bool.false_eq_true, pending_nil, false_or, false_iff] at hmem
    simp [hmem]
  | some e =>
    rw [hp] at hmem
    simp only [Option.isSome_some, pending_nil, Option.isSome_none, Bool.false_eq_true, false_or,
      true_iff] at hmem
    rw [if_pos hmem]
    simp only
    cases ha : applyEvent getType o e with
    | none =>
      exfalso
      unfold applyEvent at ha
      cases hty : e.type <;> rw [hty] at ha <;> simp only at ha
      · cases ha
      · cases ha
      · rw [if_pos (ht o e hp hty)] at ha; cases ha
    | some cs => exact applyEvent_structural getType o e cs ha

/-- Witness for C3: five requests on three entities, one of them a monster. -/
theorem one_event_per_entity_witness :
    (∀ n, ((enqueueAll
        ([Request.insert 5, Request.warp 2 1 10 20, Request.remove 5, Request.warp 2 3 0 0,
          Request.remove 8].take n) []).map Prod.fst).Nodup) ∧
    ∃ calls,
      drain (fun o => if o = 8 then ObjectType.OBJECT_MONSTER else ObjectType.OBJECT_CHARACTER)
        (enqueueAll [Request.insert 5, Request.warp 2 1 10 20, Request.remove 5,
          Request.warp 2 3 0 0, Request.remove 8] []) = some (calls, []) ∧
      ∀ o, (calls.filter Call.isStructural).countP (fun c => c.target == o) =
        if o ∈ [Request.insert 5, Request.warp 2 1 10 20, Request.remove 5,
          Request.warp 2 3 0 0, Request.remove 8].map Request.target then 1 else 0 :=
  one_event_per_entity
    (fun o => if o = 8 then ObjectType.OBJECT_MONSTER else ObjectType.OBJECT_CHARACTER)
    [Request.insert 5, Request.warp 2 1 10 20, Request.remove 5, Request.warp 2 3 0 0,
      Request.remove 8]
    (by decide)

/-! ## Lemmas on `serializeLooks` -/

theorem range_nb_slots : List.range nb_slots = [0, 1, 2, 3] := by decide

theorem currentLooks_eq (getItem : Nat → Option ItemClass) (ch : Character) :
    currentLooks getItem ch =
      [lookSprite getItem ch.possessions 0, lookSprite getItem ch.possessions 1,
       lookSprite getItem ch.possessions 2, lookSprite getItem ch.possessions 3] := rfl

theorem looksScan_eq (getItem : Nat → Option ItemClass) (poss : Possessions) (full : Bool)
    (a b c d : Nat) (ha : lookSprite getItem poss 0 = a) (hb : lookSprite getItem poss 1 = b)
    (hc : lookSprite getItem poss 2 = c) (hd : lookSprite getItem poss 3 = d) :
    looksScan getItem poss full =
      { items := [a, b, c, d],
        mask_full := (fullMask [a, b, c, d]) % 128,
        mask_diff := 15,
        nb_full := filledSlots [a, b, c, d],
        nb_diff := 4 } := by
  unfold looksScan
  rw [range_nb_slots]
  simp only [List.foldl_cons, List.foldl_nil, looksStep, ha, hb, hc, hd]
  unfold fullMask filledSlots
  rw [range_nb_slots]
  by_cases ha : a = 0 <;> by_cases hb : b = 0 <;> by_cases hc : c = 0 <;>
    by_cases hd : d = 0 <;>
    simp [ha, hb, hc, hd, nb_slots, List.filter_cons]

theorem fullMask_lt (looks : List Nat) : fullMask looks < 256 := by
  unfold fullMask
  rw [range_nb_slots]
  simp only [List.foldl_cons, List.foldl_nil]
  split_ifs <;> decide

theorem filledSlots_le (looks : List Nat) : filledSlots looks ≤ 4 := by
  unfold filledSlots
  exact le_trans (List.length_filter_le _ _) (by simp [nb_slots])

theorem serializeLooks_aux (getItem : Nat → Option ItemClass) (ch : Character)
    (msg : MessageOut) (full : Bool) (a b c d : Nat)
    (ha : lookSprite getItem ch.possessions 0 = a) (hb : lookSprite getItem ch.possessions 1 = b)
    (hc : lookSprite getItem ch.possessions 2 = c)
    (hd : lookSprite getItem ch.possessions 3 = d) :
    serializeLooks getItem ch msg full =
      { msg with fields := msg.fields ++ fullBody [a, b, c, d] } := by
  unfold serializeLooks looksMask
  simp only [looksScan_eq getItem ch.possessions full a b c d ha hb hc hd, filledSlots_le,
    if_true, range_nb_slots]
  unfold fullBody fullMask
  rw [range_nb_slots]
  by_cases ha : a = 0 <;> by_cases hb : b = 0 <;> by_cases hc : c = 0 <;>
    by_cases hd : d = 0 <;>
    simp +decide [ha, hb, hc, hd, List.filter_cons, MessageOut.writeByte, MessageOut.writeShort]

/-- The output of `serializeLooks` in closed form: whatever mode is asked for, the full
encoding of the current looks is appended to the message. -/
theorem serializeLooks_eq (getItem : Nat → Option ItemClass) (ch : Character)
    (msg : MessageOut) (full : Bool) :
    serializeLooks getItem ch msg full =
      { msg with fields := msg.fields ++ fullBody (currentLooks getItem ch) } := by
  rw [currentLooks_eq]
  exact serializeLooks_aux getItem ch msg full _ _ _ _ rfl rfl rfl rfl

theorem lookSprite_lt (getItem : Nat → Option ItemClass) (poss : Possessions) (i : Nat)
    (hshort : ∀ id cls, getItem id = some cls → cls.spriteID < 65536) :
    lookSprite getItem poss i < 65536 := by
  unfold lookSprite
  simp only
  split_ifs with h
  · cases hg : getItem (poss.equipment (slots.getD i 0)) with
    | none => simp
    | some cls => exact hshort _ cls hg
  · decide

theorem fullBody_round_trip (previous : List Nat) (a b c d : Nat)
    (ha : a < 65536) (hb : b < 65536) (hc : c < 65536) (hd : d < 65536) :
    decodeLooks previous (fullBody [a, b, c, d]) = some [a, b, c, d] := by
  unfold decodeLooks fullBody fullMask
  rw [range_nb_slots]
  have ha1 := Nat.mod_eq_of_lt ha
  have hb1 := Nat.mod_eq_of_lt hb
  have hc1 := Nat.mod_eq_of_lt hc
  have hd1 := Nat.mod_eq_of_lt hd
  by_cases ha : a = 0 <;> by_cases hb : b = 0 <;> by_cases hc : c = 0 <;>
    by_cases hd : d = 0 <;>
    simp +decide [ha, hb, hc, hd, ha1, hb1, hc1, hd1, List.filter_cons, decodeSlots, nb_slots]

theorem fullMask_eq (a b c d : Nat) :
    fullMask [a, b, c, d] =
      128 + (if a = 0 then 0 else 1) + (if b = 0 then 0 else 2) + (if c = 0 then 0 else 4)
        + (if d = 0 then 0 else 8) := by
  unfold fullMask
  rw [range_nb_slots]
  by_cases ha : a = 0 <;> by_cases hb : b = 0 <;> by_cases hc : c = 0 <;>
    by_cases hd : d = 0 <;>
    simp +decide [ha, hb, hc, hd]

theorem countShorts_shorts (m : Nat) (l : List Nat) (g : Nat → Nat) :
    countShorts (MsgField.byte m :: l.map (fun i => MsgField.short (g i))) = l.length := by
  unfold countShorts
  rw [List.countP_cons_of_neg _ _ (by simp), List.countP_map]
  have h : ((fun f => match f with | MsgField.short _ => true | _ => false) ∘
      (fun i => MsgField.short (g i))) = fun _ => true := by
    funext i; rfl
  rw [h]
  simp

theorem fullBody_length (looks : List Nat) :
    (fullBody looks).length = 1 + filledSlots looks ∧
    countShorts (fullBody looks) = filledSlots looks := by
  unfold fullBody filledSlots
  refine ⟨?_, countShorts_shorts _ _ _⟩
  simp only [List.length_cons, List.length_map]
  omega

theorem selectedSlots_fullMask (a b c d : Nat) :
    selectedSlots (fullMask [a, b, c, d]) = filledSlots [a, b, c, d] := by
  rw [fullMask_eq]
  unfold selectedSlots filledSlots
  rw [range_nb_slots]
  by_cases ha : a = 0 <;> by_cases hb : b = 0 <;> by_cases hc : c = 0 <;>
    by_cases hd : d = 0 <;>
    simp +decide [ha, hb, hc, hd, List.filter_cons]

theorem fullMask_bit (a b c d : Nat) (i : Nat) (hi : i < nb_slots) :
    fullMask [a, b, c, d] &&& (1 <<< i) ≠ 0 ↔ [a, b, c, d].getD i 0 ≠ 0 := by
  rw [fullMask_eq]
  unfold nb_slots at hi
  by_cases ha : a = 0 <;> by_cases hb : b = 0 <;> by_cases hc : c = 0 <;>
    by_cases hd : d = 0 <;>
    interval_cases i <;>
    simp +decide [ha, hb, hc, hd]

theorem fullMask_bit7 (a b c d : Nat) : fullMask [a, b, c, d] &&& (1 <<< 7) ≠ 0 := by
  rw [fullMask_eq]
  by_cases ha : a = 0 <;> by_cases hb : b = 0 <;> by_cases hc : c = 0 <;>
    by_cases hd : d = 0 <;>
    simp +decide [ha, hb, hc, hd]

/-! ## Theorems on `serializeLooks` -/

/-- C4: round trip of `serializeLooks`. Sprite identifiers being 16-bit values, for every
character, message, requested mode and previous client-side view, `serializeLooks` appends
a mask byte and a list of identifiers such that: decoding them the way a client does
(`decodeLooks`: clear the four slots if bit 7 is set, then assign the next identifier to each
slot whose bit is set, in ascending order) yields exactly the current sprite identifiers of
the four slots; the number of identifiers written is the number of set low bits of the mask;
and bit `i` of the mask is set exactly when slot `i` is non-empty. -/
theorem serializeLooks_round_trip (getItem : Nat → Option ItemClass) (ch : Character)
    (msg : MessageOut) (full : Bool) (previous : List Nat)
    (hshort : ∀ id cls, getItem id = some cls → cls.spriteID < 65536) :
    ∃ mask ids,
      (serializeLooks getItem ch msg full).fields = msg.fields ++ MsgField.byte mask :: ids ∧
      decodeLooks previous (MsgField.byte mask :: ids) = some (currentLooks getItem ch) ∧
      ids.length = selectedSlots mask ∧
      countShorts (MsgField.byte mask :: ids) = selectedSlots mask ∧
      ∀ i, i < nb_slots →
        (mask &&& (1 <<< i) ≠ 0 ↔ (currentLooks getItem ch).getD i 0 ≠ 0) := by
  have hlt := fun i => lookSprite_lt getItem ch.possessions i hshort
  have hlen := fullBody_length (currentLooks getItem ch)
  have hdec := fullBody_round_trip previous _ _ _ _ (hlt 0) (hlt 1) (hlt 2) (hlt 3)
  have hsel := selectedSlots_fullMask (lookSprite getItem ch.possessions 0)
    (lookSprite getItem ch.possessions 1) (lookSprite getItem ch.possessions 2)
    (lookSprite getItem ch.possessions 3)
  rw [← currentLooks_eq] at hdec hsel
  refine ⟨fullMask (currentLooks getItem ch), _, ?_, hdec, ?_, ?_, ?_⟩
  · rw [serializeLooks_eq]; rfl
  · have h1 := hlen.1
    unfold fullBody at h1
    rw [hsel]
    simp only [List.length_cons] at h1
    omega
  · rw [hsel]; exact hlen.2
  · intro i hi
    rw [currentLooks_eq]
    exact fullMask_bit _ _ _ _ i hi

/-- Witness for C4: the sample character, whose weapon and head slots are filled. -/
theorem serializeLooks_round_trip_witness :
    ∃ mask ids,
      (serializeLooks sampleItems sampleCharacter
        (MessageOut.new MsgId.GPMSG_BEING_LOOKS_CHANGE) false).fields =
        (MessageOut.new MsgId.GPMSG_BEING_LOOKS_CHANGE).fields ++ MsgField.byte mask :: ids ∧
      decodeLooks [1, 2, 3, 4] (MsgField.byte mask :: ids) =
        some (currentLooks sampleItems sampleCharacter) ∧
      ids.length = selectedSlots mask ∧
      countShorts (MsgField.byte mask :: ids) = selectedSlots mask ∧
      ∀ i, i < nb_slots →
        (mask &&& (1 <<< i) ≠ 0 ↔ (currentLooks sampleItems sampleCharacter).getD i 0 ≠ 0) :=
  serializeLooks_round_trip sampleItems sampleCharacter
    (MessageOut.new MsgId.GPMSG_BEING_LOOKS_CHANGE) false [1, 2, 3, 4]
    (by
      intro id cls h
      unfold sampleItems at h
      split_ifs at h <;> cases h <;> decide)

/-- C5, evaluated at a failing input: the sample character carries sprites `105` (weapon)
and `106` (head); against a previous report `105`, `107` one slot changed, so the smaller
payload is the diff with one identifier. Asked for an update (`full = false`),
`serializeLooks` writes the mask `131` (bit 7 set) and two identifiers. -/
theorem serializeLooks_update_is_not_minimal :
    currentLooks sampleItems sampleCharacter = [105, 106, 0, 0] ∧
    filledSlots (currentLooks sampleItems sampleCharacter) = 2 ∧
    changedSlots [105, 107, 0, 0] (currentLooks sampleItems sampleCharacter) = 1 ∧
    (serializeLooks sampleItems sampleCharacter
      (MessageOut.new MsgId.GPMSG_BEING_LOOKS_CHANGE) false).fields =
      [MsgField.byte 131, MsgField.short 105, MsgField.short 106] ∧
    countShorts (serializeLooks sampleItems sampleCharacter
      (MessageOut.new MsgId.GPMSG_BEING_LOOKS_CHANGE) false).fields = 2 := by
  decide

/-- C6: `serializeLooks` depends only on the sprite identifiers of the four reported slots.
For any two characters whose sprite identifiers agree in those slots, the same message and
the same requested mode, the results are identical, whatever else differs between them. -/
theorem serializeLooks_deterministic (getItem : Nat → Option ItemClass) (ch1 ch2 : Character)
    (msg : MessageOut) (full : Bool)
    (hsame : ∀ i, i < nb_slots →
      lookSprite getItem ch1.possessions i = lookSprite getItem ch2.possessions i) :
    serializeLooks getItem ch1 msg full = serializeLooks getItem ch2 msg full := by
  rw [serializeLooks_eq, serializeLooks_eq, currentLooks_eq, currentLooks_eq,
    hsame 0 (by decide), hsame 1 (by decide), hsame 2 (by decide), hsame 3 (by decide)]

/-- Witness for C6: two characters with the same looks and different names, positions,
inventories, money and rings. -/
theorem serializeLooks_deterministic_witness :
    serializeLooks sampleItems sampleCharacter (MessageOut.new MsgId.GPMSG_BEING_LOOKS_CHANGE)
        false =
      serializeLooks sampleItems sampleTwin (MessageOut.new MsgId.GPMSG_BEING_LOOKS_CHANGE)
        false :=
  serializeLooks_deterministic sampleItems sampleCharacter sampleTwin
    (MessageOut.new MsgId.GPMSG_BEING_LOOKS_CHANGE) false (by decide)

/-! ## Lemmas on `informPlayer` -/

theorem hasFlag_new_on_map (x : Nat) : hasFlag x UPDATEFLAG_NEW_ON_MAP = x.testBit 0 := by
  unfold hasFlag UPDATEFLAG_NEW_ON_MAP
  rw [Nat.and_one_is_mod, Nat.testBit_zero]
  rcases Nat.mod_two_eq_zero_or_one x with h | h <;> simp [h]

theorem hasFlag_or_new_on_map (a b : Nat) :
    hasFlag (a ||| b) UPDATEFLAG_NEW_ON_MAP =
      (hasFlag a UPDATEFLAG_NEW_ON_MAP || hasFlag b UPDATEFLAG_NEW_ON_MAP) := by
  rw [hasFlag_new_on_map, hasFlag_new_on_map, hasFlag_new_on_map, Nat.testBit_or]

theorem wereInRange_eq_false_iff (p : Character) (o : MovingObject) :
    wereInRange p o = false ↔
      (p.oldPosition.inRangeOf o.oldPosition AROUND_AREA = false ∨
        hasFlag p.updateFlags UPDATEFLAG_NEW_ON_MAP = true ∨
        hasFlag o.updateFlags UPDATEFLAG_NEW_ON_MAP = true) := by
  unfold wereInRange
  rw [hasFlag_or_new_on_map]
  cases p.oldPosition.inRangeOf o.oldPosition AROUND_AREA <;>
    cases hasFlag p.updateFlags UPDATEFLAG_NEW_ON_MAP <;>
    cases hasFlag o.updateFlags UPDATEFLAG_NEW_ON_MAP <;> simp

theorem writeMove_eq (o : MovingObject) (flags : Nat) (m : MessageOut) :
    writeMove o flags m = { m with fields := m.fields ++ moveEntry o flags } := by
  unfold writeMove moveEntry movePosition moveDestination
  by_cases h1 : flags &&& MOVING_POSITION = 0 <;> by_cases h2 : flags &&& MOVING_DESTINATION = 0 <;>
    simp [h1, h2, MessageOut.writeShort, MessageOut.writeByte, MessageOut.writeCoordinates]

theorem movingFlags_enter (o : MovingObject) :
    movingFlags o (0 ||| MOVING_POSITION ||| MOVING_DESTINATION) = 3 := by
  unfold movingFlags
  split_ifs <;> decide

theorem movingFlags_zero (o : MovingObject) :
    movingFlags o 0 =
      if o.position ≠ o.destination then
        (if hasFlag o.updateFlags UPDATEFLAG_NEW_DESTINATION then 3 else 1)
      else 2 := by
  unfold movingFlags
  split_ifs <;> decide

theorem informAbout_both (getItem : Nat → Option ItemClass) (p : Character) (o : MovingObject)
    (st : InformState) (hwere : wereInRange p o = true) (hwill : willBeInRange p o = true) :
    informAbout getItem p o st =
      some { sent := st.sent ++ attackMessages p o ++ actionMessages o
               ++ looksMessages getItem o ++ directionMessages o,
             moveMsg := if o.oldPosition = o.position then st.moveMsg
               else writeMove o (movingFlags o 0) st.moveMsg,
             damageMsg := writeDamage o st.damageMsg } := by
  unfold informAbout
  by_cases h : o.oldPosition = o.position
  · simp [hwere, hwill, h, reportChanges]
  · simp [hwere, hwill, h, reportChanges]

theorem informAbout_leave (getItem : Nat → Option ItemClass) (p : Character) (o : MovingObject)
    (st : InformState) (hwere : wereInRange p o = true) (hwill : willBeInRange p o = false) :
    informAbout getItem p o st =
      some { sent := st.sent ++ [leaveMessage o], moveMsg := st.moveMsg,
             damageMsg := st.damageMsg } := by
  unfold informAbout
  simp [hwere, hwill]

theorem informAbout_enter (getItem : Nat → Option ItemClass) (p : Character) (o : MovingObject)
    (st : InformState) (hwere : wereInRange p o = false) (hwill : willBeInRange p o = true) :
    informAbout getItem p o st =
      (enterMessage getItem o).map (fun enterMsg =>
        { sent := st.sent ++ [enterMsg],
          moveMsg := { st.moveMsg with fields := st.moveMsg.fields ++ moveEntry o 3 },
          damageMsg := st.damageMsg }) := by
  unfold informAbout
  simp only [hwere, hwill, Bool.not_false, Bool.not_true, Bool.and_false, Bool.false_and,
    Bool.false_eq_true, if_false, if_true, Bool.true_and]
  rw [movingFlags_enter, writeMove_eq]
  cases enterMessage getItem o <;> rfl

theorem serializeLooks_id (getItem : Nat → Option ItemClass) (ch : Character)
    (msg : MessageOut) (full : Bool) : (serializeLooks getItem ch msg full).id = msg.id := by
  rw [serializeLooks_eq]

theorem serializeLooks_head (getItem : Nat → Option ItemClass) (ch : Character)
    (msg : MessageOut) (full : Bool) (f : MsgField) (rest : List MsgField)
    (h : msg.fields = f :: rest) :
    (serializeLooks getItem ch msg full).fields.head? = some f := by
  rw [serializeLooks_eq]
  simp [h]

theorem enterMessage_some (getItem : Nat → Option ItemClass) (o : MovingObject)
    (hkind : o.type = ObjectType.OBJECT_CHARACTER ∨ o.type = ObjectType.OBJECT_MONSTER ∨
      o.type = ObjectType.OBJECT_NPC) :
    ∃ enterMsg, enterMessage getItem o = some enterMsg ∧
      enterMsg.id = MsgId.GPMSG_BEING_ENTER ∧
      enterMsg.fields.take 2 =
        [MsgField.byte (o.type.toNat % 256), MsgField.short (o.publicID % 65536)] := by
  unfold enterMessage
  rcases hkind with h | h | h
  · rw [h]
    refine ⟨_, rfl, ?_, ?_⟩
    · rw [serializeLooks_id]; rfl
    · rw [serializeLooks_eq]
      simp [MessageOut.writeByte, MessageOut.writeShort, MessageOut.writeString, MessageOut.new]
  · rw [h]
    refine ⟨_, rfl, rfl, ?_⟩
    simp [MessageOut.writeByte, MessageOut.writeShort, MessageOut.writeString, MessageOut.new]
  · rw [h]
    refine ⟨_, rfl, rfl, ?_⟩
    simp [MessageOut.writeByte, MessageOut.writeShort, MessageOut.writeString, MessageOut.new]

/-! ## Theorems on `informPlayer` -/

/-- C7, as stated, fails: `sampleEntering` was out of range of `sampleCharacter` and is in
range now; the loop body of `informPlayer` sends the Enter message and also writes an entry
for it (identifier `2`, flag byte `3`, position, speed, destination) into the Move
message. -/
theorem enter_also_writes_move_entry :
    wereInRange sampleCharacter sampleEntering = false ∧
    willBeInRange sampleCharacter sampleEntering = true ∧
    informAbout sampleItems sampleCharacter sampleEntering initialInformState =
      some
        { sent :=
            [{ id := MsgId.GPMSG_BEING_ENTER,
               fields :=
                 [MsgField.byte 4, MsgField.short 2, MsgField.byte 0, MsgField.short 64,
                  MsgField.short 32, MsgField.string "Bob", MsgField.byte 1, MsgField.byte 2,
                  MsgField.byte 0, MsgField.byte 131, MsgField.short 105,
                  MsgField.short 106] }],
          moveMsg :=
            { id := MsgId.GPMSG_BEINGS_MOVE,
              fields :=
                [MsgField.short 2, MsgField.byte 3, MsgField.coordinates 2 1, MsgField.byte 0,
                 MsgField.short 64, MsgField.short 32] },
          damageMsg := { id := MsgId.GPMSG_BEINGS_DAMAGE, fields := [] } } := by
  refine ⟨by decide, by decide, ?_⟩
  rw [informAbout_enter _ _ _ _ (by decide) (by decide)]
  rfl

/-- C7, amended: for every observer `p` and every character, monster or NPC `o` that was
not in range of `p` (old positions out of range, or `p` or `o` flagged new-on-map) and is in
range of `p`'s current position, the loop body of `informPlayer` sends `p` exactly one
message, an Enter message starting with `o`'s type and identifier, sends no Leave message,
leaves the Damage message untouched, and appends exactly one entry for `o` to the Move
message: identifier, flag byte `3`, position, speed and destination. -/
theorem enter_sends_enter_and_move_entry (getItem : Nat → Option ItemClass) (p : Character)
    (o : MovingObject) (st : InformState)
    (hwere : p.oldPosition.inRangeOf o.oldPosition AROUND_AREA = false ∨
      hasFlag p.updateFlags UPDATEFLAG_NEW_ON_MAP = true ∨
      hasFlag o.updateFlags UPDATEFLAG_NEW_ON_MAP = true)
    (hwill : p.position.inRangeOf o.position AROUND_AREA = true)
    (hkind : o.type = ObjectType.OBJECT_CHARACTER ∨ o.type = ObjectType.OBJECT_MONSTER ∨
      o.type = ObjectType.OBJECT_NPC) :
    ∃ enterMsg,
      informAbout getItem p o st =
        some { sent := st.sent ++ [enterMsg],
               moveMsg := { st.moveMsg with fields := st.moveMsg.fields ++
                 [MsgField.short (o.publicID % 65536), MsgField.byte 3,
                  MsgField.coordinates (o.position.x / 32) (o.position.y / 32),
                  MsgField.byte (o.speed / 10 % 256),
                  MsgField.short (o.destination.x % 65536),
                  MsgField.short (o.destination.y % 65536)] },
               damageMsg := st.damageMsg } ∧
      enterMsg.id = MsgId.GPMSG_BEING_ENTER ∧
      enterMsg.fields.take 2 =
        [MsgField.byte (o.type.toNat % 256), MsgField.short (o.publicID % 65536)] := by
  obtain ⟨enterMsg, he, hid, hfields⟩ := enterMessage_some getItem o hkind
  refine ⟨enterMsg, ?_, hid, hfields⟩
  rw [informAbout_enter getItem p o st ((wereInRange_eq_false_iff p o).mpr hwere) hwill, he]
  rfl

/-- Witness for the amended C7: `sampleEntering` comes into range of `sampleCharacter`. -/
theorem enter_sends_enter_and_move_entry_witness :
    ∃ enterMsg,
      informAbout sampleItems sampleCharacter sampleEntering initialInformState =
        some { sent := initialInformState.sent ++ [enterMsg],
               moveMsg := { initialInformState.moveMsg with
                 fields := initialInformState.moveMsg.fields ++
                 [MsgField.short (sampleEntering.publicID % 65536), MsgField.byte 3,
                  MsgField.coordinates (sampleEntering.position.x / 32)
                    (sampleEntering.position.y / 32),
                  MsgField.byte (sampleEntering.speed / 10 % 256),
                  MsgField.short (sampleEntering.destination.x % 65536),
                  MsgField.short (sampleEntering.destination.y % 65536)] },
               damageMsg := initialInformState.damageMsg } ∧
      enterMsg.id = MsgId.GPMSG_BEING_ENTER ∧
      enterMsg.fields.take 2 =
        [MsgField.byte (sampleEntering.type.toNat % 256),
         MsgField.short (sampleEntering.publicID % 65536)] :=
  enter_sends_enter_and_move_entry sampleItems sampleCharacter sampleEntering
    initialInformState (Or.inl (by decide)) (by decide) (Or.inl rfl)

/-- C8: for every observer `p` and every moving object `o` that was in range of `p`
(`wereInRange`) and is no longer in range of `p`'s current position, the loop body of
`informPlayer` sends `p` exactly one message, the Leave message whose body is `o`'s
identifier alone, and does nothing else: no Attack, ActionChange, LooksChange or
DirectionChange message, nothing written into the Damage message, nothing written into the
Move message, whatever update flags and hits `o` has. -/
theorem leave_sends_only_leave (getItem : Nat → Option ItemClass) (p : Character)
    (o : MovingObject) (st : InformState)
    (hwere : wereInRange p o = true) (hwill : willBeInRange p o = false) :
    informAbout getItem p o st =
      some { sent := st.sent ++
               [{ id := MsgId.GPMSG_BEING_LEAVE,
                  fields := [MsgField.short (o.publicID % 65536)] }],
             moveMsg := st.moveMsg,
             damageMsg := st.damageMsg } := by
  rw [informAbout_leave getItem p o st hwere hwill]
  rfl

/-- Witness for C8: `sampleLeaving`, a monster with attack, action and direction flags and
two hits, walks out of range of `sampleCharacter`. -/
theorem leave_sends_only_leave_witness :
    informAbout sampleItems sampleCharacter sampleLeaving initialInformState =
      some { sent := initialInformState.sent ++
               [{ id := MsgId.GPMSG_BEING_LEAVE,
                  fields := [MsgField.short (sampleLeaving.publicID % 65536)] }],
             moveMsg := initialInformState.moveMsg,
             damageMsg := initialInformState.damageMsg } :=
  leave_sends_only_leave sampleItems sampleCharacter sampleLeaving initialInformState
    (by decide) (by decide)

/-- C9: for every observer `p` and every moving object `o` that was in range and still is,
the messages the loop body of `informPlayer` sends about `o` are: one Attack message exactly
when `o`'s attack flag is set and `o`'s public id differs from `p`'s, one ActionChange,
LooksChange, DirectionChange message exactly when the corresponding flag is set; no other
message is sent, and each message sent starts with `o`'s identifier. -/
theorem in_range_sends_flagged_changes (getItem : Nat → Option ItemClass) (p : Character)
    (o : MovingObject) (st : InformState)
    (hwere : wereInRange p o = true) (hwill : willBeInRange p o = true) :
    ∃ st0 new,
      informAbout getItem p o st = some st0 ∧ st0.sent = st.sent ++ new ∧
      countId MsgId.GPMSG_BEING_ATTACK new =
        (if hasFlag o.updateFlags UPDATEFLAG_ATTACK = true ∧ o.publicID ≠ p.publicID
          then 1 else 0) ∧
      countId MsgId.GPMSG_BEING_ACTION_CHANGE new =
        (if hasFlag o.updateFlags UPDATEFLAG_ACTIONCHANGE = true then 1 else 0) ∧
      countId MsgId.GPMSG_BEING_LOOKS_CHANGE new =
        (if hasFlag o.updateFlags UPDATEFLAG_LOOKSCHANGE = true then 1 else 0) ∧
      countId MsgId.GPMSG_BEING_DIR_CHANGE new =
        (if hasFlag o.updateFlags UPDATEFLAG_DIRCHANGE = true then 1 else 0) ∧
      new.length = countId MsgId.GPMSG_BEING_ATTACK new
        + countId MsgId.GPMSG_BEING_ACTION_CHANGE new
        + countId MsgId.GPMSG_BEING_LOOKS_CHANGE new
        + countId MsgId.GPMSG_BEING_DIR_CHANGE new ∧
      ∀ m ∈ new, m.fields.head? = some (MsgField.short (o.publicID % 65536)) := by
  refine ⟨_, attackMessages p o ++ actionMessages o ++ looksMessages getItem o
    ++ directionMessages o, informAbout_both getItem p o st hwere hwill, ?_, ?_⟩
  · simp only [List.append_assoc]
  · have hl : ∀ msg : MessageOut, (serializeLooks getItem o msg false).id = msg.id :=
      fun msg => serializeLooks_id getItem o msg false
    have hh : ∀ v : Nat, (serializeLooks getItem o
        { id := MsgId.GPMSG_BEING_LOOKS_CHANGE, fields := [MsgField.short v] }
        false).fields.head? = some (MsgField.short v) :=
      fun v => serializeLooks_head getItem o _ false _ [] rfl
    unfold countId attackMessages actionMessages looksMessages directionMessages
    by_cases h1 : hasFlag o.updateFlags UPDATEFLAG_ATTACK = true <;>
      by_cases h0 : o.publicID = p.publicID <;>
      by_cases h2 : hasFlag o.updateFlags UPDATEFLAG_ACTIONCHANGE = true <;>
      by_cases h3 : hasFlag o.updateFlags UPDATEFLAG_LOOKSCHANGE = true <;>
      by_cases h4 : hasFlag o.updateFlags UPDATEFLAG_DIRCHANGE = true <;>
      simp [h0, h1, h2, h3, h4, hl, hh, List.countP_cons, MessageOut.writeByte,
        MessageOut.writeShort, MessageOut.new]

/-- Witness for C9: `sampleWalking` stays next to `sampleCharacter`. -/
theorem in_range_sends_flagged_changes_witness :
    ∃ st0 new,
      informAbout sampleItems sampleCharacter sampleWalking initialInformState = some st0 ∧
      st0.sent = initialInformState.sent ++ new ∧
      countId MsgId.GPMSG_BEING_ATTACK new =
        (if hasFlag sampleWalking.updateFlags UPDATEFLAG_ATTACK = true ∧
            sampleWalking.publicID ≠ sampleCharacter.publicID
          then 1 else 0) ∧
      countId MsgId.GPMSG_BEING_ACTION_CHANGE new =
        (if hasFlag sampleWalking.updateFlags UPDATEFLAG_ACTIONCHANGE = true then 1 else 0) ∧
      countId MsgId.GPMSG_BEING_LOOKS_CHANGE new =
        (if hasFlag sampleWalking.updateFlags UPDATEFLAG_LOOKSCHANGE = true then 1 else 0) ∧
      countId MsgId.GPMSG_BEING_DIR_CHANGE new =
        (if hasFlag sampleWalking.updateFlags UPDATEFLAG_DIRCHANGE = true then 1 else 0) ∧
      new.length = countId MsgId.GPMSG_BEING_ATTACK new
        + countId MsgId.GPMSG_BEING_ACTION_CHANGE new
        + countId MsgId.GPMSG_BEING_LOOKS_CHANGE new
        + countId MsgId.GPMSG_BEING_DIR_CHANGE new ∧
      ∀ m ∈ new, m.fields.head? = some (MsgField.short (sampleWalking.publicID % 65536)) :=
  in_range_sends_flagged_changes sampleItems sampleCharacter sampleWalking initialInformState
    (by decide) (by decide)

/-- C10: for every observer `p` and every moving object `o` that was in range and still is,
the loop body of `informPlayer` appends an entry for `o` to the Move message if and only if
`o`'s previous-tick position differs from its current position, and then appends exactly one
entry: `o`'s identifier, the flag byte, and the position and destination parts the flag byte
announces. -/
theorem in_range_move_entry_iff_moved (getItem : Nat → Option ItemClass) (p : Character)
    (o : MovingObject) (st : InformState)
    (hwere : wereInRange p o = true) (hwill : willBeInRange p o = true) :
    ∃ st0,
      informAbout getItem p o st = some st0 ∧ st0.moveMsg.id = st.moveMsg.id ∧
      (o.oldPosition = o.position → st0.moveMsg.fields = st.moveMsg.fields) ∧
      (o.oldPosition ≠ o.position →
        st0.moveMsg.fields = st.moveMsg.fields ++
          (MsgField.short (o.publicID % 65536) :: MsgField.byte (movingFlags o 0 % 256) ::
            (movePosition o (movingFlags o 0) ++ moveDestination o (movingFlags o 0)))) := by
  refine ⟨_, informAbout_both getItem p o st hwere hwill, ?_, ?_, ?_⟩
  · simp only
    split_ifs
    · rfl
    · rw [writeMove_eq]
  · intro h
    simp only [h, if_true]
  · intro h
    simp only [h, if_false]
    rw [writeMove_eq]
    simp [moveEntry]

/-- Witness for C10: `sampleWalking` moved from `(64, 32)` to `(96, 32)` next to
`sampleCharacter`. -/
theorem in_range_move_entry_iff_moved_witness :
    ∃ st0,
      informAbout sampleItems sampleCharacter sampleWalking initialInformState = some st0 ∧
      st0.moveMsg.id = initialInformState.moveMsg.id ∧
      (sampleWalking.oldPosition = sampleWalking.position →
        st0.moveMsg.fields = initialInformState.moveMsg.fields) ∧
      (sampleWalking.oldPosition ≠ sampleWalking.position →
        st0.moveMsg.fields = initialInformState.moveMsg.fields ++
          (MsgField.short (sampleWalking.publicID % 65536) ::
            MsgField.byte (movingFlags sampleWalking 0 % 256) ::
            (movePosition sampleWalking (movingFlags sampleWalking 0) ++
              moveDestination sampleWalking (movingFlags sampleWalking 0)))) :=
  in_range_move_entry_iff_moved sampleItems sampleCharacter sampleWalking initialInformState
    (by decide) (by decide)

/-! ## Theorems on the movement and item reports of `informPlayer` -/

/-- C11, as stated, fails: `sampleArriving` stays in range of `sampleCharacter` and moved
onto its destination `(96, 32)`; the entry written for it into the Move message has flag
byte `2` (destination bit set, position bit clear) and carries the destination. -/
theorem last_step_resends_destination :
    wereInRange sampleCharacter sampleArriving = true ∧
    willBeInRange sampleCharacter sampleArriving = true ∧
    sampleArriving.oldPosition ≠ sampleArriving.position ∧
    sampleArriving.position = sampleArriving.destination ∧
    informAbout sampleItems sampleCharacter sampleArriving initialInformState =
      some { sent := [],
             moveMsg :=
               { id := MsgId.GPMSG_BEINGS_MOVE,
                 fields := [MsgField.short 5, MsgField.byte 2, MsgField.short 96,
                   MsgField.short 32] },
             damageMsg := { id := MsgId.GPMSG_BEINGS_DAMAGE, fields := [] } } := by
  refine ⟨by decide, by decide, by decide, by decide, ?_⟩
  rw [informAbout_both _ _ _ _ (by decide) (by decide)]
  rfl

/-- C11, amended: for every observer `p` and every moving object `o` that was in range and
still is, and that moved this tick onto its destination, the entry appended to the Move
message is `o`'s identifier, the flag byte `2` (destination bit set, position bit clear)
and the destination coordinates; the position and the speed are not written. -/
theorem last_step_sends_destination_only (getItem : Nat → Option ItemClass) (p : Character)
    (o : MovingObject) (st : InformState)
    (hwere : wereInRange p o = true) (hwill : willBeInRange p o = true)
    (hmoved : o.oldPosition ≠ o.position) (hlast : o.position = o.destination) :
    ∃ st0,
      informAbout getItem p o st = some st0 ∧
      st0.moveMsg.id = st.moveMsg.id ∧
      st0.moveMsg.fields = st.moveMsg.fields ++
        [MsgField.short (o.publicID % 65536), MsgField.byte 2,
         MsgField.short (o.destination.x % 65536), MsgField.short (o.destination.y % 65536)] ∧
      MOVING_DESTINATION &&& 2 ≠ 0 ∧ MOVING_POSITION &&& 2 = 0 := by
  refine ⟨_, informAbout_both getItem p o st hwere hwill, ?_, ?_, by decide, by decide⟩
  · simp only [if_neg hmoved]
    rw [writeMove_eq]
  · simp only [if_neg hmoved]
    rw [writeMove_eq, movingFlags_zero]
    simp only [hlast, ne_eq, not_true_eq_false, if_false]
    rfl

/-- Witness for the amended C11: `sampleArriving` next to `sampleCharacter`. -/
theorem last_step_sends_destination_only_witness :
    ∃ st0,
      informAbout sampleItems sampleCharacter sampleArriving initialInformState = some st0 ∧
      st0.moveMsg.id = initialInformState.moveMsg.id ∧
      st0.moveMsg.fields = initialInformState.moveMsg.fields ++
        [MsgField.short (sampleArriving.publicID % 65536), MsgField.byte 2,
         MsgField.short (sampleArriving.destination.x % 65536),
         MsgField.short (sampleArriving.destination.y % 65536)] ∧
      MOVING_DESTINATION &&& 2 ≠ 0 ∧ MOVING_POSITION &&& 2 = 0 :=
  last_step_sends_destination_only sampleItems sampleCharacter sampleArriving
    initialInformState (by decide) (by decide) (by decide) (by decide)

theorem item_were_false_of_new (p : Character) (o : Item)
    (h : hasFlag o.updateFlags UPDATEFLAG_NEW_ON_MAP = true) :
    (p.oldPosition.inRangeOf o.position AROUND_AREA &&
      !hasFlag (p.updateFlags ||| o.updateFlags) UPDATEFLAG_NEW_ON_MAP) = false := by
  rw [hasFlag_or_new_on_map, h]
  simp

theorem informAboutItem_not_new (p : Character) (o : Item) (st : ItemState)
    (htype : o.type = ObjectType.OBJECT_ITEM)
    (hold : hasFlag o.updateFlags UPDATEFLAG_NEW_ON_MAP = false) :
    informAboutItem p o st =
      some { sent := st.sent,
             itemMsg := { st.itemMsg with fields := st.itemMsg.fields ++
               (if p.position.inRangeOf o.position AROUND_AREA ≠
                   (p.oldPosition.inRangeOf o.position AROUND_AREA &&
                     !hasFlag (p.updateFlags ||| o.updateFlags) UPDATEFLAG_NEW_ON_MAP)
                then
                  [MsgField.short
                     (if p.position.inRangeOf o.position AROUND_AREA = true
                       then o.itemClass.databaseID % 65536 else 0),
                   MsgField.short (o.position.x % 65536),
                   MsgField.short (o.position.y % 65536)]
                else []) } } := by
  unfold informAboutItem
  simp only [htype, ne_eq, not_true_eq_false, if_false, hold, Bool.false_eq_true]
  generalize p.position.inRangeOf o.position AROUND_AREA = willBe
  generalize (p.oldPosition.inRangeOf o.position AROUND_AREA &&
    !hasFlag (p.updateFlags ||| o.updateFlags) UPDATEFLAG_NEW_ON_MAP) = were
  cases willBe <;> cases were <;> simp [MessageOut.writeShort]

theorem informAboutItem_new (p : Character) (o : Item) (st : ItemState)
    (htype : o.type = ObjectType.OBJECT_ITEM)
    (hnew : hasFlag o.updateFlags UPDATEFLAG_NEW_ON_MAP = true) :
    informAboutItem p o st =
      some { sent := st.sent ++
               (if p.position.inRangeOf o.position AROUND_AREA = true then
                 [{ id := MsgId.GPMSG_ITEM_APPEAR,
                    fields := [MsgField.short (o.itemClass.databaseID % 65536),
                      MsgField.short (o.position.x % 65536),
                      MsgField.short (o.position.y % 65536)] }]
                else []),
             itemMsg := st.itemMsg } := by
  unfold informAboutItem
  simp only [htype, ne_eq, not_true_eq_false, if_false, hnew,
    item_were_false_of_new p o hnew]
  cases p.position.inRangeOf o.position AROUND_AREA
  · simp
  · simp [MessageOut.writeShort, MessageOut.new]

/-- C14: for every observer `p` and every ground item `o` that is not flagged new-on-map,
the loop body of `informPlayer` sends nothing and appends to the batched Items message one
triple (id, x, y) if the item's visibility changed (`willBeInRange` differs from
`wereInRange`) and nothing otherwise; the id is the item's database id (as a 16-bit value)
when the item is now in range and `0` when it is no longer in range. -/
theorem item_triple_iff_visibility_changed (p : Character) (o : Item) (st : ItemState)
    (htype : o.type = ObjectType.OBJECT_ITEM)
    (hold : hasFlag o.updateFlags UPDATEFLAG_NEW_ON_MAP = false) :
    informAboutItem p o st =
      some { sent := st.sent,
             itemMsg := { st.itemMsg with fields := st.itemMsg.fields ++
               (if p.position.inRangeOf o.position AROUND_AREA ≠
                   (p.oldPosition.inRangeOf o.position AROUND_AREA &&
                     !hasFlag (p.updateFlags ||| o.updateFlags) UPDATEFLAG_NEW_ON_MAP)
                then
                  [MsgField.short
                     (if p.position.inRangeOf o.position AROUND_AREA = true
                       then o.itemClass.databaseID % 65536 else 0),
                   MsgField.short (o.position.x % 65536),
                   MsgField.short (o.position.y % 65536)]
                else []) } } := by
  exact informAboutItem_not_new p o st htype hold

/-- Witness for C14: `sampleItemAhead` comes into sight of `sampleMover`. -/
theorem item_triple_iff_visibility_changed_witness :
    informAboutItem sampleMover sampleItemAhead initialItemState =
      some { sent := initialItemState.sent,
             itemMsg := { initialItemState.itemMsg with
               fields := initialItemState.itemMsg.fields ++
               (if sampleMover.position.inRangeOf sampleItemAhead.position AROUND_AREA ≠
                   (sampleMover.oldPosition.inRangeOf sampleItemAhead.position AROUND_AREA &&
                     !hasFlag (sampleMover.updateFlags ||| sampleItemAhead.updateFlags)
                       UPDATEFLAG_NEW_ON_MAP)
                then
                  [MsgField.short
                     (if sampleMover.position.inRangeOf sampleItemAhead.position AROUND_AREA
                         = true
                       then sampleItemAhead.itemClass.databaseID % 65536 else 0),
                   MsgField.short (sampleItemAhead.position.x % 65536),
                   MsgField.short (sampleItemAhead.position.y % 65536)]
                else []) } } :=
  item_triple_iff_visibility_changed sampleMover sampleItemAhead initialItemState rfl
    (by decide)

/-- C15: for every observer `p` and every ground item `o` flagged new-on-map within range
of `p`'s current position, the loop body of `informPlayer` sends exactly one message, the
ItemAppear message (database id, x, y), and writes nothing into the batched Items message;
and for an item that is not flagged new-on-map the loop body sends no message at all. -/
theorem new_item_sends_item_appear (p : Character) (o : Item) (st : ItemState)
    (htype : o.type = ObjectType.OBJECT_ITEM) :
    (hasFlag o.updateFlags UPDATEFLAG_NEW_ON_MAP = true →
      p.position.inRangeOf o.position AROUND_AREA = true →
      informAboutItem p o st =
        some { sent := st.sent ++
                 [{ id := MsgId.GPMSG_ITEM_APPEAR,
                    fields := [MsgField.short (o.itemClass.databaseID % 65536),
                      MsgField.short (o.position.x % 65536),
                      MsgField.short (o.position.y % 65536)] }],
               itemMsg := st.itemMsg }) ∧
    (hasFlag o.updateFlags UPDATEFLAG_NEW_ON_MAP = false →
      ∃ st0, informAboutItem p o st = some st0 ∧ st0.sent = st.sent) := by
  constructor
  · intro hnew hwill
    rw [informAboutItem_new p o st htype hnew, if_pos hwill]
  · intro hold
    exact ⟨_, informAboutItem_not_new p o st htype hold, rfl⟩

/-- Witness for C15: `sampleItemDropped` appears next to `sampleCharacter`. -/
theorem new_item_sends_item_appear_witness :
    (hasFlag sampleItemDropped.updateFlags UPDATEFLAG_NEW_ON_MAP = true →
      sampleCharacter.position.inRangeOf sampleItemDropped.position AROUND_AREA = true →
      informAboutItem sampleCharacter sampleItemDropped initialItemState =
        some { sent := initialItemState.sent ++
                 [{ id := MsgId.GPMSG_ITEM_APPEAR,
                    fields := [MsgField.short (sampleItemDropped.itemClass.databaseID % 65536),
                      MsgField.short (sampleItemDropped.position.x % 65536),
                      MsgField.short (sampleItemDropped.position.y % 65536)] }],
               itemMsg := initialItemState.itemMsg }) ∧
    (hasFlag sampleItemDropped.updateFlags UPDATEFLAG_NEW_ON_MAP = false →
      ∃ st0, informAboutItem sampleCharacter sampleItemDropped initialItemState = some st0 ∧
        st0.sent = initialItemState.sent) :=
  new_item_sends_item_appear sampleCharacter sampleItemDropped initialItemState rfl

/-! ## Lemmas on the loops of `informPlayer` -/

theorem getLength_gt_two (m : MessageOut) : m.getLength > 2 ↔ m.fields ≠ [] := by
  unfold MessageOut.getLength
  cases hf : m.fields with
  | nil => simp
  | cons f fs =>
    have hpos : 0 < f.size := by cases f <;> simp [MsgField.size]
    simp only [List.map_cons, List.sum_cons, ne_eq, reduceCtorEq, not_false_eq_true, iff_true]
    omega

theorem writeDamage_eq (o : MovingObject) (m : MessageOut) :
    writeDamage o m =
      { m with fields := m.fields ++
        (if o.canFight then
          o.hitsTaken.flatMap
            (fun j => [MsgField.short (o.publicID % 65536), MsgField.short (j % 65536)])
         else []) } := by
  unfold writeDamage
  cases o.canFight
  · simp
  · simp only [if_true]
    generalize o.hitsTaken = hits
    induction hits generalizing m with
    | nil => simp
    | cons j js ih =>
      rw [List.foldl_cons, ih]
      simp [MessageOut.writeShort, List.flatMap_cons]

theorem changeMessages_ok (getItem : Nat → Option ItemClass) (p : Character)
    (o : MovingObject) :
    ∀ m ∈ attackMessages p o ++ actionMessages o ++ looksMessages getItem o
        ++ directionMessages o,
      m.fields ≠ [] ∧ isChangeId m.id = true := by
  intro m hm
  simp only [List.mem_append] at hm
  rcases hm with ((hm | hm) | hm) | hm
  · unfold attackMessages at hm
    split_ifs at hm
    · simp only [List.mem_singleton] at hm
      subst hm
      exact ⟨by simp [MessageOut.writeByte], rfl⟩
    · simp at hm
  · unfold actionMessages at hm
    split_ifs at hm
    · simp only [List.mem_singleton] at hm
      subst hm
      exact ⟨by simp [MessageOut.writeByte], rfl⟩
    · simp at hm
  · unfold looksMessages at hm
    split_ifs at hm
    · simp only [List.mem_singleton] at hm
      subst hm
      refine ⟨?_, ?_⟩
      · rw [serializeLooks_eq]; simp [fullBody]
      · rw [serializeLooks_id]; rfl
    · simp at hm
  · unfold directionMessages at hm
    split_ifs at hm
    · simp only [List.mem_singleton] at hm
      subst hm
      exact ⟨by simp [MessageOut.writeByte], rfl⟩
    · simp at hm

theorem enterMessage_ok (getItem : Nat → Option ItemClass) (o : MovingObject)
    (m : MessageOut) (h : enterMessage getItem o = some m) :
    m.fields ≠ [] ∧ isChangeId m.id = true := by
  unfold enterMessage at h
  cases ht : o.type <;> rw [ht] at h <;> simp only at h
  · cases h
  · cases h
  · cases h
    exact ⟨by simp [MessageOut.writeString], rfl⟩
  · cases h
    exact ⟨by simp [MessageOut.writeString], rfl⟩
  · cases h
    refine ⟨?_, ?_⟩
    · rw [serializeLooks_eq]; simp [fullBody]
    · rw [serializeLooks_id]; rfl
  · cases h

theorem informAbout_neither (getItem : Nat → Option ItemClass) (p : Character)
    (o : MovingObject) (st : InformState)
    (hwere : wereInRange p o = false) (hwill : willBeInRange p o = false) :
    informAbout getItem p o st = some st := by
  unfold informAbout
  simp [hwere, hwill]

/-- What one run of the loop body over moving objects can do to the state. -/
theorem informAbout_step (getItem : Nat → Option ItemClass) (p : Character)
    (o : MovingObject) (st st0 : InformState) (h : informAbout getItem p o st = some st0) :
    (∃ new, st0.sent = st.sent ++ new ∧
      ∀ m ∈ new, m.fields ≠ [] ∧ isChangeId m.id = true) ∧
    st0.moveMsg.id = st.moveMsg.id ∧
    (∃ e, st0.moveMsg.fields = st.moveMsg.fields ++ e) ∧
    st0.damageMsg.id = st.damageMsg.id ∧
    st0.damageMsg.fields = st.damageMsg.fields ++ damagePairs p o := by
  cases hwere : wereInRange p o <;> cases hwill : willBeInRange p o
  · rw [informAbout_neither getItem p o st hwere hwill] at h
    cases h
    refine ⟨⟨[], by simp, by simp⟩, rfl, ⟨[], by simp⟩, rfl, ?_⟩
    simp [damagePairs, hwere, hwill]
  · rw [informAbout_enter getItem p o st hwere hwill] at h
    cases he : enterMessage getItem o with
    | none => rw [he] at h; cases h
    | some em =>
      rw [he] at h
      cases h
      refine ⟨⟨[em], rfl, ?_⟩, rfl, ⟨_, rfl⟩, rfl, ?_⟩
      · intro m hm
        simp only [List.mem_singleton] at hm
        subst hm
        exact enterMessage_ok getItem o m he
      · simp [damagePairs, hwere, hwill]
  · rw [informAbout_leave getItem p o st hwere hwill] at h
    cases h
    refine ⟨⟨[leaveMessage o], rfl, ?_⟩, rfl, ⟨[], by simp⟩, rfl, ?_⟩
    · intro m hm
      simp only [List.mem_singleton] at hm
      subst hm
      exact ⟨by simp [leaveMessage, MessageOut.writeShort], rfl⟩
    · simp [damagePairs, hwere, hwill]
  · rw [informAbout_both getItem p o st hwere hwill] at h
    cases h
    refine ⟨⟨attackMessages p o ++ actionMessages o ++ looksMessages getItem o
      ++ directionMessages o, by simp, changeMessages_ok getItem p o⟩, ?_, ?_, ?_, ?_⟩
    · simp only
      split_ifs
      · rfl
      · rw [writeMove_eq]
    · simp only
      split_ifs
      · exact ⟨[], by simp⟩
      · rw [writeMove_eq]; exact ⟨_, rfl⟩
    · rw [writeDamage_eq]
    · rw [writeDamage_eq]
      simp [damagePairs, hwere, hwill]

theorem informAbout_isSome (getItem : Nat → Option ItemClass) (p : Character)
    (o : MovingObject) (st : InformState)
    (hkind : o.type = ObjectType.OBJECT_CHARACTER ∨ o.type = ObjectType.OBJECT_MONSTER ∨
      o.type = ObjectType.OBJECT_NPC) :
    ∃ st0, informAbout getItem p o st = some st0 := by
  cases hwere : wereInRange p o <;> cases hwill : willBeInRange p o
  · exact ⟨_, informAbout_neither getItem p o st hwere hwill⟩
  · obtain ⟨em, he, _⟩ := enterMessage_some getItem o hkind
    rw [informAbout_enter getItem p o st hwere hwill, he]
    exact ⟨_, rfl⟩
  · exact ⟨_, informAbout_leave getItem p o st hwere hwill⟩
  · exact ⟨_, informAbout_both getItem p o st hwere hwill⟩

/-- The loop over moving objects runs to completion when every object is a character, a
monster or an NPC; it only appends non-empty change messages to what is sent, entries to
the Move message, and the damage pairs of each object, in order, to the Damage message. -/
theorem informAboutAll_spec (getItem : Nat → Option ItemClass) (p : Character)
    (os : List MovingObject) (st : InformState)
    (hkind : ∀ o ∈ os, o.type = ObjectType.OBJECT_CHARACTER ∨
      o.type = ObjectType.OBJECT_MONSTER ∨ o.type = ObjectType.OBJECT_NPC) :
    ∃ new entries,
      informAboutAll getItem p os st =
        some { sent := st.sent ++ new,
               moveMsg := { st.moveMsg with fields := st.moveMsg.fields ++ entries },
               damageMsg := { st.damageMsg with
                 fields := st.damageMsg.fields ++ os.flatMap (damagePairs p) } } ∧
      ∀ m ∈ new, m.fields ≠ [] ∧ isChangeId m.id = true := by
  induction os generalizing st with
  | nil => exact ⟨[], [], by simp [informAboutAll], by simp⟩
  | cons o os ih =>
    obtain ⟨st0, h0⟩ := informAbout_isSome getItem p o st (hkind o (List.mem_cons_self _ _))
    obtain ⟨⟨new0, hs0, hn0⟩, hmid, ⟨e0, he0⟩, hdid, hd0⟩ :=
      informAbout_step getItem p o st st0 h0
    obtain ⟨new1, e1, h1, hn1⟩ := ih st0 (fun o0 ho0 => hkind o0 (List.mem_cons_of_mem _ ho0))
    refine ⟨new0 ++ new1, e0 ++ e1, ?_, ?_⟩
    · simp only [informAboutAll, h0, h1, hs0, hmid, he0, hdid, hd0, List.flatMap_cons,
        List.append_assoc]
    · intro m hm
      rcases List.mem_append.mp hm with hm | hm
      · exact hn0 m hm
      · exact hn1 m hm

theorem informAboutItem_spec (p : Character) (o : Item) (st : ItemState)
    (htype : o.type = ObjectType.OBJECT_ITEM) :
    ∃ new triples,
      informAboutItem p o st =
        some { sent := st.sent ++ new,
               itemMsg := { st.itemMsg with fields := st.itemMsg.fields ++ triples } } ∧
      ∀ m ∈ new, m.fields ≠ [] ∧ m.id = MsgId.GPMSG_ITEM_APPEAR := by
  cases hnew : hasFlag o.updateFlags UPDATEFLAG_NEW_ON_MAP
  · have h := informAboutItem_not_new p o st htype hnew
    exact ⟨[], _, by rw [h, List.append_nil], by simp⟩
  · have h := informAboutItem_new p o st htype hnew
    refine ⟨(if p.position.inRangeOf o.position AROUND_AREA = true then
        [{ id := MsgId.GPMSG_ITEM_APPEAR,
           fields := [MsgField.short (o.itemClass.databaseID % 65536),
             MsgField.short (o.position.x % 65536),
             MsgField.short (o.position.y % 65536)] }]
      else []), [], by rw [h, List.append_nil], ?_⟩
    · intro m hm
      split_ifs at hm
      · simp only [List.mem_singleton] at hm
        subst hm
        exact ⟨by simp, rfl⟩
      · simp at hm

/-- The loop over the items runs to completion when every object of the iterator is an
item; it only appends non-empty ItemAppear messages to what is sent and triples to the
Items message. -/
theorem informAboutItems_spec (p : Character) (items : List Item) (st : ItemState)
    (htype : ∀ o ∈ items, o.type = ObjectType.OBJECT_ITEM) :
    ∃ new triples,
      informAboutItems p items st =
        some { sent := st.sent ++ new,
               itemMsg := { st.itemMsg with fields := st.itemMsg.fields ++ triples } } ∧
      ∀ m ∈ new, m.fields ≠ [] ∧ m.id = MsgId.GPMSG_ITEM_APPEAR := by
  induction items generalizing st with
  | nil => exact ⟨[], [], by simp [informAboutItems], by simp⟩
  | cons o os ih =>
    obtain ⟨new0, t0, h0, hn0⟩ := informAboutItem_spec p o st (htype o (List.mem_cons_self _ _))
    obtain ⟨new1, t1, h1, hn1⟩ :=
      ih { sent := st.sent ++ new0,
           itemMsg := { st.itemMsg with fields := st.itemMsg.fields ++ t0 } }
        (fun o0 ho0 => htype o0 (List.mem_cons_of_mem _ ho0))
    refine ⟨new0 ++ new1, t0 ++ t1, ?_, ?_⟩
    · simp only [informAboutItems, h0, h1, List.append_assoc]
    · intro m hm
      rcases List.mem_append.mp hm with hm | hm
      · exact hn0 m hm
      · exact hn1 m hm

theorem batched_eq (m : MessageOut) (rest : List MessageOut) :
    (if m.getLength > 2 then rest ++ [m] else rest) = rest ++ batched m.id m.fields := by
  unfold batched
  by_cases h : m.fields = []
  · have : ¬ m.getLength > 2 := fun hg => (getLength_gt_two m).mp hg h
    simp [h, this]
  · have : m.getLength > 2 := (getLength_gt_two m).mpr h
    simp [h, this]

theorem batched_nonempty (id : MsgId) (body : List MsgField) :
    ∀ m ∈ batched id body, m.fields ≠ [] ∧ m.id = id := by
  intro m hm
  unfold batched at hm
  split_ifs at hm with h
  · simp only [List.mem_singleton] at hm
    subst hm
    exact ⟨h, rfl⟩
  · simp at hm

/-- The output of `informPlayer` in closed form, when the iterators hold characters,
monsters and NPCs on one side and items on the other. -/
theorem informPlayer_eq (getItem : Nat → Option ItemClass)
    (sendStatus : Character → List MessageOut) (moving : List MovingObject)
    (items : List Item) (p : Character)
    (hkind : ∀ o ∈ moving, o.type = ObjectType.OBJECT_CHARACTER ∨
      o.type = ObjectType.OBJECT_MONSTER ∨ o.type = ObjectType.OBJECT_NPC)
    (htype : ∀ o ∈ items, o.type = ObjectType.OBJECT_ITEM) :
    ∃ changes entries appears triples,
      informAboutAll getItem p moving initialInformState =
        some { sent := changes,
               moveMsg := { id := MsgId.GPMSG_BEINGS_MOVE, fields := entries },
               damageMsg := { id := MsgId.GPMSG_BEINGS_DAMAGE,
                              fields := moving.flatMap (damagePairs p) } } ∧
      informAboutItems p items
          { sent := changes ++ batched MsgId.GPMSG_BEINGS_MOVE entries
              ++ batched MsgId.GPMSG_BEINGS_DAMAGE (moving.flatMap (damagePairs p))
              ++ sendStatus p,
            itemMsg := MessageOut.new MsgId.GPMSG_ITEMS } =
        some { sent := changes ++ batched MsgId.GPMSG_BEINGS_MOVE entries
                 ++ batched MsgId.GPMSG_BEINGS_DAMAGE (moving.flatMap (damagePairs p))
                 ++ sendStatus p ++ appears,
               itemMsg := { id := MsgId.GPMSG_ITEMS, fields := triples } } ∧
      informPlayer getItem sendStatus moving items p =
        some (changes ++ batched MsgId.GPMSG_BEINGS_MOVE entries
          ++ batched MsgId.GPMSG_BEINGS_DAMAGE (moving.flatMap (damagePairs p))
          ++ sendStatus p ++ appears ++ batched MsgId.GPMSG_ITEMS triples) ∧
      (∀ m ∈ changes, m.fields ≠ [] ∧ isChangeId m.id = true) ∧
      (∀ m ∈ appears, m.fields ≠ [] ∧ m.id = MsgId.GPMSG_ITEM_APPEAR) := by
  obtain ⟨changes, entries, h1, hc⟩ :=
    informAboutAll_spec getItem p moving initialInformState hkind
  simp only [initialInformState, MessageOut.new, List.nil_append] at h1
  obtain ⟨appears, triples, h2, ha⟩ :=
    informAboutItems_spec p items
      { sent := changes ++ batched MsgId.GPMSG_BEINGS_MOVE entries
          ++ batched MsgId.GPMSG_BEINGS_DAMAGE (moving.flatMap (damagePairs p))
          ++ sendStatus p,
        itemMsg := MessageOut.new MsgId.GPMSG_ITEMS } htype
  simp only [MessageOut.new, List.nil_append] at h2
  refine ⟨changes, entries, appears, triples, ?_, ?_, ?_, hc, ha⟩
  · simp only [initialInformState, MessageOut.new]; exact h1
  · simp only [MessageOut.new]; exact h2
  · unfold informPlayer
    simp only [MessageOut.new] at h1 h2 ⊢
    rw [h1]
    simp only [batched_eq]
    rw [h2]

/-! ## Theorems on the batched messages of `informPlayer` -/

/-- C12: `informPlayer` sends no header-only message. When the iterators hold characters,
monsters and NPCs on one side and items on the other, `informPlayer` runs to completion and
its output is: the change messages (Attack, ActionChange, LooksChange, DirectionChange,
Leave, Enter), all with a non-empty body; the Move message if and only if something was
written into it; the Damage message if and only if something was written into it; what
`p->sendStatus()` sends; the ItemAppear messages, all with a non-empty body; and the Items
message if and only if something was written into it. What was written into the Move and
the Damage message is what the loop over the moving objects leaves in them, and the
ItemAppear messages and what was written into the Items message are what the loop over the
items, started after `p->sendStatus()`, sends and leaves in the Items message. -/
theorem no_header_only_message (getItem : Nat → Option ItemClass)
    (sendStatus : Character → List MessageOut) (moving : List MovingObject)
    (items : List Item) (p : Character)
    (hkind : ∀ o ∈ moving, o.type = ObjectType.OBJECT_CHARACTER ∨
      o.type = ObjectType.OBJECT_MONSTER ∨ o.type = ObjectType.OBJECT_NPC)
    (htype : ∀ o ∈ items, o.type = ObjectType.OBJECT_ITEM) :
    ∃ changes entries pairs appears triples,
      informAboutAll getItem p moving initialInformState =
        some { sent := changes,
               moveMsg := { id := MsgId.GPMSG_BEINGS_MOVE, fields := entries },
               damageMsg := { id := MsgId.GPMSG_BEINGS_DAMAGE, fields := pairs } } ∧
      informAboutItems p items
          { sent := changes
              ++ (if entries ≠ [] then [{ id := MsgId.GPMSG_BEINGS_MOVE, fields := entries }]
                  else [])
              ++ (if pairs ≠ [] then [{ id := MsgId.GPMSG_BEINGS_DAMAGE, fields := pairs }]
                  else [])
              ++ sendStatus p,
            itemMsg := MessageOut.new MsgId.GPMSG_ITEMS } =
        some { sent := changes
                 ++ (if entries ≠ [] then
                       [{ id := MsgId.GPMSG_BEINGS_MOVE, fields := entries }]
                     else [])
                 ++ (if pairs ≠ [] then
                       [{ id := MsgId.GPMSG_BEINGS_DAMAGE, fields := pairs }]
                     else [])
                 ++ sendStatus p ++ appears,
               itemMsg := { id := MsgId.GPMSG_ITEMS, fields := triples } } ∧
      informPlayer getItem sendStatus moving items p =
        some (changes
          ++ (if entries ≠ [] then [{ id := MsgId.GPMSG_BEINGS_MOVE, fields := entries }]
              else [])
          ++ (if pairs ≠ [] then [{ id := MsgId.GPMSG_BEINGS_DAMAGE, fields := pairs }]
              else [])
          ++ sendStatus p ++ appears
          ++ (if triples ≠ [] then [{ id := MsgId.GPMSG_ITEMS, fields := triples }]
              else [])) ∧
      (∀ m ∈ changes, m.fields ≠ [] ∧ isChangeId m.id = true) ∧
      (∀ m ∈ appears, m.fields ≠ [] ∧ m.id = MsgId.GPMSG_ITEM_APPEAR) := by
  obtain ⟨changes, entries, appears, triples, h1, h2, h3, hc, ha⟩ :=
    informPlayer_eq getItem sendStatus moving items p hkind htype
  exact ⟨changes, entries, _, appears, triples, h1, h2, h3, hc, ha⟩

/-- C13: damage is batched. When the iterators hold characters, monsters and NPCs on one
side and items on the other, the output of `informPlayer` holds, apart from what
`p->sendStatus()` sends, at most one Damage message: none when no pair was written, and
otherwise the one whose body is, in iteration order, the pairs `damagePairs p o` of the
moving objects `o` around `p`: one pair (identifier, amount) per hit of each object that was
in range, still is and can fight, whether it moved or not, and nothing for the others. -/
theorem damage_is_batched (getItem : Nat → Option ItemClass)
    (sendStatus : Character → List MessageOut) (moving : List MovingObject)
    (items : List Item) (p : Character)
    (hkind : ∀ o ∈ moving, o.type = ObjectType.OBJECT_CHARACTER ∨
      o.type = ObjectType.OBJECT_MONSTER ∨ o.type = ObjectType.OBJECT_NPC)
    (htype : ∀ o ∈ items, o.type = ObjectType.OBJECT_ITEM) :
    ∃ before after,
      informPlayer getItem sendStatus moving items p =
        some (before
          ++ (if moving.flatMap (damagePairs p) ≠ [] then
                [{ id := MsgId.GPMSG_BEINGS_DAMAGE, fields := moving.flatMap (damagePairs p) }]
              else [])
          ++ sendStatus p ++ after) ∧
      countId MsgId.GPMSG_BEINGS_DAMAGE before = 0 ∧
      countId MsgId.GPMSG_BEINGS_DAMAGE after = 0 := by
  obtain ⟨changes, entries, appears, triples, _, _, h3, hc, ha⟩ :=
    informPlayer_eq getItem sendStatus moving items p hkind htype
  refine ⟨changes ++ batched MsgId.GPMSG_BEINGS_MOVE entries,
    appears ++ batched MsgId.GPMSG_ITEMS triples, ?_, ?_, ?_⟩
  · rw [h3]
    simp only [batched, List.append_assoc]
  · unfold countId
    rw [List.countP_eq_zero]
    intro m hm
    rcases List.mem_append.mp hm with hm | hm
    · have := (hc m hm).2
      intro hd
      rw [beq_iff_eq] at hd
      rw [hd] at this
      cases this
    · have := (batched_nonempty _ _ m hm).2
      rw [this]
      decide
  · unfold countId
    rw [List.countP_eq_zero]
    intro m hm
    rcases List.mem_append.mp hm with hm | hm
    · rw [(ha m hm).2]; decide
    · rw [(batched_nonempty _ _ m hm).2]; decide

/-- Witness for C12: four moving objects and two items around `sampleCharacter`. -/
theorem no_header_only_message_witness :
    ∃ changes entries pairs appears triples,
      informAboutAll sampleItems sampleCharacter
          [sampleCharacter, sampleWalking, sampleLeaving, sampleEntering]
          initialInformState =
        some { sent := changes,
               moveMsg := { id := MsgId.GPMSG_BEINGS_MOVE, fields := entries },
               damageMsg := { id := MsgId.GPMSG_BEINGS_DAMAGE, fields := pairs } } ∧
      informAboutItems sampleCharacter [sampleItemDropped, sampleItemAhead]
          { sent := changes
              ++ (if entries ≠ [] then [{ id := MsgId.GPMSG_BEINGS_MOVE, fields := entries }]
                  else [])
              ++ (if pairs ≠ [] then [{ id := MsgId.GPMSG_BEINGS_DAMAGE, fields := pairs }]
                  else [])
              ++ (fun _ => []) sampleCharacter,
            itemMsg := MessageOut.new MsgId.GPMSG_ITEMS } =
        some { sent := changes
                 ++ (if entries ≠ [] then
                       [{ id := MsgId.GPMSG_BEINGS_MOVE, fields := entries }]
                     else [])
                 ++ (if pairs ≠ [] then
                       [{ id := MsgId.GPMSG_BEINGS_DAMAGE, fields := pairs }]
                     else [])
                 ++ (fun _ => []) sampleCharacter ++ appears,
               itemMsg := { id := MsgId.GPMSG_ITEMS, fields := triples } } ∧
      informPlayer sampleItems (fun _ => [])
          [sampleCharacter, sampleWalking, sampleLeaving, sampleEntering]
          [sampleItemDropped, sampleItemAhead] sampleCharacter =
        some (changes
          ++ (if entries ≠ [] then [{ id := MsgId.GPMSG_BEINGS_MOVE, fields := entries }]
              else [])
          ++ (if pairs ≠ [] then [{ id := MsgId.GPMSG_BEINGS_DAMAGE, fields := pairs }]
              else [])
          ++ (fun _ => []) sampleCharacter ++ appears
          ++ (if triples ≠ [] then [{ id := MsgId.GPMSG_ITEMS, fields := triples }]
              else [])) ∧
      (∀ m ∈ changes, m.fields ≠ [] ∧ isChangeId m.id = true) ∧
      (∀ m ∈ appears, m.fields ≠ [] ∧ m.id = MsgId.GPMSG_ITEM_APPEAR) :=
  no_header_only_message sampleItems (fun _ => [])
    [sampleCharacter, sampleWalking, sampleLeaving, sampleEntering]
    [sampleItemDropped, sampleItemAhead] sampleCharacter (by decide) (by decide)

/-- Witness for C13: `sampleWalking` took one hit next to `sampleCharacter`; `sampleLeaving`
took two hits and left. -/
theorem damage_is_batched_witness :
    ∃ before after,
      informPlayer sampleItems (fun _ => [])
          [sampleCharacter, sampleWalking, sampleLeaving, sampleEntering]
          [sampleItemDropped, sampleItemAhead] sampleCharacter =
        some (before
          ++ (if [sampleCharacter, sampleWalking, sampleLeaving, sampleEntering].flatMap
                  (damagePairs sampleCharacter) ≠ [] then
                [{ id := MsgId.GPMSG_BEINGS_DAMAGE,
                   fields := [sampleCharacter, sampleWalking, sampleLeaving,
                     sampleEntering].flatMap (damagePairs sampleCharacter) }]
              else [])
          ++ (fun _ => []) sampleCharacter ++ after) ∧
      countId MsgId.GPMSG_BEINGS_DAMAGE before = 0 ∧
      countId MsgId.GPMSG_BEINGS_DAMAGE after = 0 :=
  damage_is_batched sampleItems (fun _ => [])
    [sampleCharacter, sampleWalking, sampleLeaving, sampleEntering]
    [sampleItemDropped, sampleItemAhead] sampleCharacter (by decide) (by decide)

/-! ## Lemmas on `GameState::insert` -/

theorem hasFlag_raise_new_on_map (flags : Nat) :
    hasFlag (flags ||| UPDATEFLAG_NEW_ON_MAP) UPDATEFLAG_NEW_ON_MAP = true := by
  rw [hasFlag_or_new_on_map]
  simp [hasFlag, UPDATEFLAG_NEW_ON_MAP]

theorem MapComposite.insert_full (map : MapComposite) (t : Thing)
    (hvis : t.visible = true) (hfull : map.capacity ≤ map.things.length) :
    map.insert t = (map, false) := by
  unfold MapComposite.insert
  simp [hvis, hfull]

theorem MapComposite.insert_free (map : MapComposite) (t : Thing)
    (hfree : map.things.length < map.capacity) :
    map.insert t = ({ map with things := map.things ++ [t.ptr] }, true) := by
  unfold MapComposite.insert
  have : ¬ map.capacity ≤ map.things.length := Nat.not_le.mpr hfree
  simp [this]

theorem MapComposite.insert_hidden (map : MapComposite) (t : Thing)
    (hvis : t.visible = false) :
    map.insert t = ({ map with things := map.things ++ [t.ptr] }, true) := by
  unfold MapComposite.insert
  simp [hvis]

/-- The outcome of `GameState::insert` for a visible thing and a region at capacity. -/
theorem insert_full_eq (map : MapComposite) (ptr : Thing)
    (hactive : map.active = true) (hvis : ptr.visible = true)
    (hfull : map.capacity ≤ map.things.length) :
    insert false (some map) ptr =
      some { result := false, map := map,
             thing := if ptr.position.x / 32 ≥ map.width ∨ ptr.position.y / 32 ≥ map.height
               then ptr.setPosition { x := 100, y := 100 } else ptr,
             sent := [],
             log := (if ptr.position.x / 32 ≥ map.width ∨ ptr.position.y / 32 ≥ map.height
               then [LogEntry.outsideMap ptr.position.x ptr.position.y map.id] else [])
               ++ [LogEntry.tooManyObjects map.id] } := by
  unfold insert
  by_cases hout : ptr.position.x / 32 ≥ map.width ∨ ptr.position.y / 32 ≥ map.height
  · have hb : (decide (ptr.position.x / 32 ≥ map.width) ||
        decide (ptr.position.y / 32 ≥ map.height)) = true := by simpa using hout
    simp only [hb, if_pos hout]
    simp [hactive, hvis,
      MapComposite.insert_full map (ptr.setPosition { x := 100, y := 100 }) hvis hfull]
  · have hb : (decide (ptr.position.x / 32 ≥ map.width) ||
        decide (ptr.position.y / 32 ≥ map.height)) = false := by
      simpa using hout
    simp only [hb, if_neg hout]
    simp [hactive, hvis, MapComposite.insert_full map ptr hvis hfull]

/-- The outcome of `GameState::insert` for a visible thing and a region with room. -/
theorem insert_free_eq (map : MapComposite) (ptr : Thing)
    (hactive : map.active = true) (hvis : ptr.visible = true)
    (hfree : map.things.length < map.capacity) :
    insert false (some map) ptr =
      some { result := true,
             map := { map with things := map.things ++ [ptr.ptr] },
             thing :=
               { ptr with
                 position :=
                   if ptr.position.x / 32 ≥ map.width ∨ ptr.position.y / 32 ≥ map.height
                     then { x := 100, y := 100 } else ptr.position,
                 updateFlags := ptr.updateFlags ||| UPDATEFLAG_NEW_ON_MAP,
                 insertedCalls := ptr.insertedCalls + 1 },
             sent :=
               if ptr.type = ObjectType.OBJECT_CHARACTER then
                 [(ptr.ptr,
                   { id := MsgId.GPMSG_PLAYER_MAP_CHANGE,
                     fields :=
                       [MsgField.string map.name,
                        MsgField.short
                          ((if ptr.position.x / 32 ≥ map.width ∨
                                ptr.position.y / 32 ≥ map.height
                             then 100 else ptr.position.x) % 65536),
                        MsgField.short
                          ((if ptr.position.x / 32 ≥ map.width ∨
                                ptr.position.y / 32 ≥ map.height
                             then 100 else ptr.position.y) % 65536)] })]
               else [],
             log :=
               if ptr.position.x / 32 ≥ map.width ∨ ptr.position.y / 32 ≥ map.height
                 then [LogEntry.outsideMap ptr.position.x ptr.position.y map.id] else [] } := by
  unfold insert
  by_cases hout : ptr.position.x / 32 ≥ map.width ∨ ptr.position.y / 32 ≥ map.height
  · have hb : (decide (ptr.position.x / 32 ≥ map.width) ||
        decide (ptr.position.y / 32 ≥ map.height)) = true := by simpa using hout
    simp only [hb, if_pos hout]
    by_cases hc : ptr.type = ObjectType.OBJECT_CHARACTER
    · simp [hactive, hvis, hc, MapComposite.insert_free map _ hfree, Thing.setPosition,
        Thing.inserted, Thing.raiseUpdateFlags, MessageOut.new, MessageOut.writeString,
        MessageOut.writeShort]
    · simp [hactive, hvis, hc, MapComposite.insert_free map _ hfree, Thing.setPosition,
        Thing.inserted, Thing.raiseUpdateFlags]
  · have hb : (decide (ptr.position.x / 32 ≥ map.width) ||
        decide (ptr.position.y / 32 ≥ map.height)) = false := by
      simpa using hout
    simp only [hb, if_neg hout]
    by_cases hc : ptr.type = ObjectType.OBJECT_CHARACTER
    · simp [hactive, hvis, hc, MapComposite.insert_free map _ hfree,
        Thing.inserted, Thing.raiseUpdateFlags, MessageOut.new, MessageOut.writeString,
        MessageOut.writeShort]
    · simp [hactive, hvis, hc, MapComposite.insert_free map _ hfree,
        Thing.inserted, Thing.raiseUpdateFlags]

/-- The outcome of `GameState::insert` for a thing that is not visible. -/
theorem insert_hidden_eq (map : MapComposite) (ptr : Thing)
    (hactive : map.active = true) (hvis : ptr.visible = false) :
    insert false (some map) ptr =
      some { result := true,
             map := { map with things := map.things ++ [ptr.ptr] },
             thing := { ptr with insertedCalls := ptr.insertedCalls + 1 },
             sent := [], log := [] } := by
  unfold insert
  simp [hactive, hvis, MapComposite.insert_hidden map ptr hvis, Thing.inserted]

/-! ## Theorems on `GameState::insert` -/

/-- C16: capacity. For every visible thing and every active region at capacity,
`GameState::insert` returns `false`, leaves the region as it is (the thing is not placed),
does not call `inserted()`, does not raise any update flag and sends no message. In
particular, in an empty region of capacity 1, inserting a visible thing `a` succeeds and
places it, and inserting a visible thing `b` afterwards fails, leaves the region as it is,
and `b` is not in the region. -/
theorem insert_fails_at_capacity (map : MapComposite) (ptr : Thing)
    (hactive : map.active = true) (hvis : ptr.visible = true)
    (hfull : map.capacity ≤ map.things.length) :
    (∃ out, insert false (some map) ptr = some out ∧ out.result = false ∧ out.map = map ∧
      out.thing.updateFlags = ptr.updateFlags ∧
      out.thing.insertedCalls = ptr.insertedCalls ∧ out.sent = []) ∧
    (∀ (region : MapComposite) (a b : Thing), region.active = true → region.capacity = 1 →
      region.things = [] → a.visible = true → b.visible = true → b.ptr ≠ a.ptr →
      ∃ outA outB,
        insert false (some region) a = some outA ∧ outA.result = true ∧
        outA.map.things = [a.ptr] ∧
        insert false (some outA.map) b = some outB ∧ outB.result = false ∧
        outB.map = outA.map ∧ b.ptr ∉ outB.map.things ∧ outB.sent = []) := by
  constructor
  · refine ⟨_, insert_full_eq map ptr hactive hvis hfull, rfl, rfl, ?_, ?_, rfl⟩
    · simp only
      split_ifs <;> rfl
    · simp only
      split_ifs <;> rfl
  · intro region a b hact hcap hempty hva hvb hne
    have hfree : region.things.length < region.capacity := by simp [hempty, hcap]
    have hA := insert_free_eq region a hact hva hfree
    have hfull2 : ({ region with things := region.things ++ [a.ptr] } : MapComposite).capacity
        ≤ ({ region with things := region.things ++ [a.ptr] } : MapComposite).things.length := by
      simp [hempty, hcap]
    have hB := insert_full_eq { region with things := region.things ++ [a.ptr] } b hact hvb
      hfull2
    refine ⟨_, _, hA, rfl, by simp [hempty], hB, rfl, rfl, ?_, rfl⟩
    simp [hempty, hne]

/-- Witness for C16: `sampleFarThing` does not fit into a region of capacity 1 that already
holds a thing. -/
theorem insert_fails_at_capacity_witness :
    (∃ out, insert false (some { sampleSmallMap with things := [3] }) sampleFarThing = some out ∧
      out.result = false ∧ out.map = { sampleSmallMap with things := [3] } ∧
      out.thing.updateFlags = sampleFarThing.updateFlags ∧
      out.thing.insertedCalls = sampleFarThing.insertedCalls ∧ out.sent = []) ∧
    (∀ (region : MapComposite) (a b : Thing), region.active = true → region.capacity = 1 →
      region.things = [] → a.visible = true → b.visible = true → b.ptr ≠ a.ptr →
      ∃ outA outB,
        insert false (some region) a = some outA ∧ outA.result = true ∧
        outA.map.things = [a.ptr] ∧
        insert false (some outA.map) b = some outB ∧ outB.result = false ∧
        outB.map = outA.map ∧ b.ptr ∉ outB.map.things ∧ outB.sent = []) :=
  insert_fails_at_capacity { sampleSmallMap with things := [3] } sampleFarThing rfl rfl
    (by decide)

/-- C17: out-of-bounds clamp. For every visible thing and every active region with room,
`GameState::insert` returns `true` and places the thing; a thing whose position has
`x / 32 >= width` or `y / 32 >= height` is left at `(100, 100)`, and a thing whose position
is inside the bounds keeps its position. -/
theorem insert_clamps_out_of_bounds (map : MapComposite) (ptr : Thing)
    (hactive : map.active = true) (hvis : ptr.visible = true)
    (hfree : map.things.length < map.capacity) :
    ∃ out, insert false (some map) ptr = some out ∧ out.result = true ∧
      ptr.ptr ∈ out.map.things ∧
      (ptr.position.x / 32 ≥ map.width ∨ ptr.position.y / 32 ≥ map.height →
        out.thing.position = { x := 100, y := 100 }) ∧
      (ptr.position.x / 32 < map.width ∧ ptr.position.y / 32 < map.height →
        out.thing.position = ptr.position) := by
  refine ⟨_, insert_free_eq map ptr hactive hvis hfree, rfl, by simp, ?_, ?_⟩
  · intro h
    simp only [if_pos h]
  · intro h
    have hn : ¬ (ptr.position.x / 32 ≥ map.width ∨ ptr.position.y / 32 ≥ map.height) := by
      omega
    simp only [if_neg hn]

/-- Witness for C17: position `(10000, 10000)` in a region of 100 by 100 tiles. -/
theorem insert_clamps_out_of_bounds_witness :
    ∃ out, insert false (some sampleMap) sampleFarThing = some out ∧ out.result = true ∧
      sampleFarThing.ptr ∈ out.map.things ∧
      (sampleFarThing.position.x / 32 ≥ sampleMap.width ∨
          sampleFarThing.position.y / 32 ≥ sampleMap.height →
        out.thing.position = { x := 100, y := 100 }) ∧
      (sampleFarThing.position.x / 32 < sampleMap.width ∧
          sampleFarThing.position.y / 32 < sampleMap.height →
        out.thing.position = sampleFarThing.position) :=
  insert_clamps_out_of_bounds sampleMap sampleFarThing rfl rfl (by decide)

/-- C18, as stated, fails: in the region `sampleTinyMap` of 2 by 2 tiles the insertion of
`sampleFarThing` succeeds and leaves it at `(100, 100)`, whose tile coordinates `(3, 3)`
are outside the region. -/
theorem insert_clamp_target_outside_tiny_map :
    ∃ out, insert false (some sampleTinyMap) sampleFarThing = some out ∧ out.result = true ∧
      out.thing.position = { x := 100, y := 100 } ∧
      ¬ (out.thing.position.x / 32 < sampleTinyMap.width ∧
         out.thing.position.y / 32 < sampleTinyMap.height) :=
  ⟨_, rfl, rfl, rfl, by decide⟩

/-- C18, amended: for every active region more than 3 tiles wide and more than 3 tiles
high and every visible thing, after a successful `GameState::insert` the thing's position
is valid for the region: `x / 32 < width` and `y / 32 < height`. -/
theorem insert_leaves_valid_position (map : MapComposite) (ptr : Thing) (out : InsertOutcome)
    (hactive : map.active = true) (hvis : ptr.visible = true)
    (hwidth : 3 < map.width) (hheight : 3 < map.height)
    (hout : insert false (some map) ptr = some out) (hok : out.result = true) :
    out.thing.position.x / 32 < map.width ∧ out.thing.position.y / 32 < map.height := by
  by_cases hfree : map.things.length < map.capacity
  · rw [insert_free_eq map ptr hactive hvis hfree] at hout
    cases hout
    simp only
    by_cases h : ptr.position.x / 32 ≥ map.width ∨ ptr.position.y / 32 ≥ map.height
    · simp only [if_pos h]
      omega
    · simp only [if_neg h]
      omega
  · rw [insert_full_eq map ptr hactive hvis (Nat.le_of_not_lt hfree)] at hout
    cases hout
    cases hok

/-- Witness for the amended C18: `sampleFarThing` inserted into `sampleMap`. -/
theorem insert_leaves_valid_position_witness :
    ({ x := 100, y := 100 } : Point).x / 32 < sampleMap.width ∧
    ({ x := 100, y := 100 } : Point).y / 32 < sampleMap.height :=
  insert_leaves_valid_position sampleMap sampleFarThing
    { result := true,
      map := { sampleMap with things := [7] },
      thing := { sampleFarThing with
        position := { x := 100, y := 100 }, updateFlags := 1, insertedCalls := 1 },
      sent := [(7, { id := MsgId.GPMSG_PLAYER_MAP_CHANGE,
                     fields := [MsgField.string "Tulimshar", MsgField.short 100,
                       MsgField.short 100] })],
      log := [LogEntry.outsideMap 10000 10000 1] }
    rfl rfl (by decide) (by decide) (by decide) rfl

/-- C19: for every thing that is not visible and every active region, whatever its
capacity and content, `GameState::insert` returns `true`, calls `inserted()` once, leaves
the position and the update flags of the thing as they are (no validation, no clamping, no
new-on-map flag), sends no message and logs nothing. -/
theorem insert_hidden_always_succeeds (map : MapComposite) (ptr : Thing)
    (hactive : map.active = true) (hvis : ptr.visible = false) :
    ∃ out, insert false (some map) ptr = some out ∧ out.result = true ∧
      out.thing.position = ptr.position ∧ out.thing.updateFlags = ptr.updateFlags ∧
      out.thing.insertedCalls = ptr.insertedCalls + 1 ∧ out.sent = [] ∧ out.log = [] :=
  ⟨_, insert_hidden_eq map ptr hactive hvis, rfl, rfl, rfl, rfl, rfl, rfl⟩

/-- Witness for C19: `sampleHiddenThing`, positioned outside the map, and a region of
capacity 1 that already holds a thing. -/
theorem insert_hidden_always_succeeds_witness :
    ∃ out, insert false (some { sampleSmallMap with things := [3] }) sampleHiddenThing
        = some out ∧ out.result = true ∧
      out.thing.position = sampleHiddenThing.position ∧
      out.thing.updateFlags = sampleHiddenThing.updateFlags ∧
      out.thing.insertedCalls = sampleHiddenThing.insertedCalls + 1 ∧
      out.sent = [] ∧ out.log = [] :=
  insert_hidden_always_succeeds { sampleSmallMap with things := [3] } sampleHiddenThing
    rfl rfl

/-- C20: for every visible thing and every active region, whenever `GameState::insert`
returns `true` the new-on-map flag of the thing is raised; if the thing is a character,
exactly one message is sent, a PlayerMapChange message addressed to that character that
carries the region's name and the position at which the thing was finally placed (after
clamping), whatever the number of earlier insertions; for every other type no message is
sent. Such an insertion succeeds whenever the region has room. -/
theorem insert_success_notifies_character (map : MapComposite) (ptr : Thing)
    (hactive : map.active = true) (hvis : ptr.visible = true) :
    (∀ out, insert false (some map) ptr = some out → out.result = true →
      hasFlag out.thing.updateFlags UPDATEFLAG_NEW_ON_MAP = true ∧
      (ptr.type = ObjectType.OBJECT_CHARACTER →
        out.sent =
          [(ptr.ptr,
            { id := MsgId.GPMSG_PLAYER_MAP_CHANGE,
              fields := [MsgField.string map.name,
                MsgField.short (out.thing.position.x % 65536),
                MsgField.short (out.thing.position.y % 65536)] })]) ∧
      (ptr.type ≠ ObjectType.OBJECT_CHARACTER → out.sent = [])) ∧
    (map.things.length < map.capacity →
      ∃ out, insert false (some map) ptr = some out ∧ out.result = true) := by
  constructor
  · intro out hout hok
    by_cases hfree : map.things.length < map.capacity
    · rw [insert_free_eq map ptr hactive hvis hfree] at hout
      cases hout
      refine ⟨hasFlag_raise_new_on_map _, ?_, ?_⟩
      · intro hc
        simp only [if_pos hc]
        by_cases h : ptr.position.x / 32 ≥ map.width ∨ ptr.position.y / 32 ≥ map.height
        · simp only [if_pos h]
        · simp only [if_neg h]
      · intro hc
        simp only [if_neg hc]
    · rw [insert_full_eq map ptr hactive hvis (Nat.le_of_not_lt hfree)] at hout
      cases hout
      cases hok
  · intro hfree
    exact ⟨_, insert_free_eq map ptr hactive hvis hfree, rfl⟩

/-- Witness for C20: the character `sampleFarThing` and the region `sampleMap`. -/
theorem insert_success_notifies_character_witness :
    (∀ out, insert false (some sampleMap) sampleFarThing = some out → out.result = true →
      hasFlag out.thing.updateFlags UPDATEFLAG_NEW_ON_MAP = true ∧
      (sampleFarThing.type = ObjectType.OBJECT_CHARACTER →
        out.sent =
          [(sampleFarThing.ptr,
            { id := MsgId.GPMSG_PLAYER_MAP_CHANGE,
              fields := [MsgField.string sampleMap.name,
                MsgField.short (out.thing.position.x % 65536),
                MsgField.short (out.thing.position.y % 65536)] })]) ∧
      (sampleFarThing.type ≠ ObjectType.OBJECT_CHARACTER → out.sent = [])) ∧
    (sampleMap.things.length < sampleMap.capacity →
      ∃ out, insert false (some sampleMap) sampleFarThing = some out ∧ out.result = true) :=
  insert_success_notifies_character sampleMap sampleFarThing rfl rfl

/-! ## Further theorems on `GameState::insert`, `informPlayer`, `serializeLooks`
and the deferred event queue -/

/-- C21, as stated, fails: `sampleFarThing` asks for `(10000, 10000)` in a region that is
at capacity; `GameState::insert` returns `false` and sends nothing, and the thing is left at
`(100, 100)`, not at its position before the call. -/
theorem insert_failure_moves_thing :
    ∃ out, insert false (some { sampleSmallMap with things := [3] }) sampleFarThing = some out ∧
      out.result = false ∧ out.sent = [] ∧
      out.thing.position = { x := 100, y := 100 } ∧
      sampleFarThing.position = { x := 10000, y := 10000 } ∧
      out.thing ≠ sampleFarThing :=
  ⟨_, rfl, rfl, rfl, rfl, rfl, by decide⟩

/-- C21, amended: whenever `GameState::insert` returns `false`, no message has been sent,
the region is as it was, and the thing is as it was before the call except for its
position, which is `(100, 100)` when the position before the call was outside the bounds
of the region, and unchanged otherwise. -/
theorem insert_failure_only_clamps (dbgLockObjects : Bool) (region : Option MapComposite)
    (ptr : Thing) (out : InsertOutcome)
    (hout : insert dbgLockObjects region ptr = some out) (hfail : out.result = false) :
    ∃ map, region = some map ∧ out.map = map ∧ out.sent = [] ∧
      out.thing =
        { ptr with
          position :=
            if ptr.position.x / 32 ≥ map.width ∨ ptr.position.y / 32 ≥ map.height
              then { x := 100, y := 100 } else ptr.position } := by
  cases dbgLockObjects
  · cases region with
    | none => simp [insert] at hout
    | some map =>
      cases hactive : map.active
      · simp [insert, hactive] at hout
      · by_cases hvis : ptr.visible = true
        swap
        · rw [insert_hidden_eq map ptr hactive (Bool.eq_false_iff.mpr hvis)] at hout
          cases hout
          cases hfail
        · by_cases hfree : map.things.length < map.capacity
          · rw [insert_free_eq map ptr hactive hvis hfree] at hout
            cases hout
            cases hfail
          · rw [insert_full_eq map ptr hactive hvis (Nat.le_of_not_lt hfree)] at hout
            cases hout
            refine ⟨map, rfl, rfl, rfl, ?_⟩
            simp only
            split_ifs <;> rfl
  · simp [insert] at hout

/-- Witness for the amended C21: `sampleFarThing` and a region at capacity. -/
theorem insert_failure_only_clamps_witness :
    ∃ map, some ({ sampleSmallMap with things := [3] } : MapComposite) = some map ∧
      ({ sampleSmallMap with things := [3] } : MapComposite) = map ∧
      ([] : List (ObjectPtr × MessageOut)) = [] ∧
      ({ sampleFarThing with position := { x := 100, y := 100 } } : Thing) =
        { sampleFarThing with
          position :=
            if sampleFarThing.position.x / 32 ≥ map.width ∨
                sampleFarThing.position.y / 32 ≥ map.height
              then { x := 100, y := 100 } else sampleFarThing.position } :=
  insert_failure_only_clamps false (some { sampleSmallMap with things := [3] }) sampleFarThing
    { result := false, map := { sampleSmallMap with things := [3] },
      thing := { sampleFarThing with position := { x := 100, y := 100 } },
      sent := [],
      log := [LogEntry.outsideMap 10000 10000 2, LogEntry.tooManyObjects 2] }
    rfl rfl

/-- C27: continuous movement. For every observer `p` and every moving object `o` that was
in range and still is, that moved this tick and has not reached its destination, the entry
appended to the Move message is: `o`'s identifier; the flag byte, `3` (position and
destination bits) when `o`'s new-destination flag is set and `1` (position bit alone)
otherwise; the position quantized as `x / 32`, `y / 32` followed by `speed / 10`; and the
destination `(x, y)` exactly when the new-destination flag is set. -/
theorem moving_entry_position_and_fresh_destination (getItem : Nat → Option ItemClass)
    (p : Character) (o : MovingObject) (st : InformState)
    (hwere : wereInRange p o = true) (hwill : willBeInRange p o = true)
    (hmoved : o.oldPosition ≠ o.position) (hgoing : o.position ≠ o.destination) :
    ∃ st0,
      informAbout getItem p o st = some st0 ∧
      st0.moveMsg.id = st.moveMsg.id ∧
      st0.moveMsg.fields = st.moveMsg.fields ++
        ([MsgField.short (o.publicID % 65536),
          MsgField.byte (if hasFlag o.updateFlags UPDATEFLAG_NEW_DESTINATION = true
            then MOVING_POSITION ||| MOVING_DESTINATION else MOVING_POSITION),
          MsgField.coordinates (o.position.x / 32) (o.position.y / 32),
          MsgField.byte (o.speed / 10 % 256)]
         ++ (if hasFlag o.updateFlags UPDATEFLAG_NEW_DESTINATION = true
            then [MsgField.short (o.destination.x % 65536),
                  MsgField.short (o.destination.y % 65536)]
            else [])) := by
  refine ⟨_, informAbout_both getItem p o st hwere hwill, ?_, ?_⟩
  · simp only [if_neg hmoved]
    rw [writeMove_eq]
  · simp only [if_neg hmoved]
    rw [writeMove_eq, movingFlags_zero]
    simp only [ne_eq, hgoing, not_false_eq_true, if_true]
    cases hasFlag o.updateFlags UPDATEFLAG_NEW_DESTINATION <;>
      simp +decide [moveEntry, movePosition, moveDestination]

/-- Witness for C27: `sampleWalking` walks next to `sampleCharacter` towards a new
destination. -/
theorem moving_entry_position_and_fresh_destination_witness :
    ∃ st0,
      informAbout sampleItems sampleCharacter sampleWalking initialInformState = some st0 ∧
      st0.moveMsg.id = initialInformState.moveMsg.id ∧
      st0.moveMsg.fields = initialInformState.moveMsg.fields ++
        ([MsgField.short (sampleWalking.publicID % 65536),
          MsgField.byte (if hasFlag sampleWalking.updateFlags UPDATEFLAG_NEW_DESTINATION = true
            then MOVING_POSITION ||| MOVING_DESTINATION else MOVING_POSITION),
          MsgField.coordinates (sampleWalking.position.x / 32) (sampleWalking.position.y / 32),
          MsgField.byte (sampleWalking.speed / 10 % 256)]
         ++ (if hasFlag sampleWalking.updateFlags UPDATEFLAG_NEW_DESTINATION = true
            then [MsgField.short (sampleWalking.destination.x % 65536),
                  MsgField.short (sampleWalking.destination.y % 65536)]
            else [])) :=
  moving_entry_position_and_fresh_destination sampleItems sampleCharacter sampleWalking
    initialInformState (by decide) (by decide) (by decide) (by decide)

theorem fullBody_bytes (looks : List Nat) :
    ((fullBody looks).map MsgField.size).sum = 1 + 2 * filledSlots looks := by
  unfold fullBody filledSlots
  simp only [List.map_cons, List.sum_cons, List.map_map, MsgField.size]
  have h : ∀ l : List Nat,
      (l.map (MsgField.size ∘ fun i => MsgField.short (looks.getD i 0 % 65536))).sum
        = 2 * l.length := by
    intro l
    induction l with
    | nil => rfl
    | cons a l ih =>
      simp only [List.map_cons, List.sum_cons, List.length_cons, ih, Function.comp,
        MsgField.size]
      omega
  rw [h]

/-- C29: the requested mode does not influence `serializeLooks`. For every character and
message, the result with `full = false` equals the result with `full = true`; what is
appended is a mask byte with bit 7 set followed by identifiers, and takes exactly
`1 + 2 * n` bytes, `n` being the number of non-empty slots among the four, hence at most 9
bytes. -/
theorem serializeLooks_ignores_mode (getItem : Nat → Option ItemClass) (ch : Character)
    (msg : MessageOut) :
    serializeLooks getItem ch msg false = serializeLooks getItem ch msg true ∧
    ∀ full, ∃ mask ids,
      (serializeLooks getItem ch msg full).fields = msg.fields ++ MsgField.byte mask :: ids ∧
      mask &&& (1 <<< 7) ≠ 0 ∧
      ((MsgField.byte mask :: ids).map MsgField.size).sum
        = 1 + 2 * filledSlots (currentLooks getItem ch) ∧
      ((MsgField.byte mask :: ids).map MsgField.size).sum ≤ 9 := by
  constructor
  · rw [serializeLooks_eq, serializeLooks_eq]
  · intro full
    have hb := fullBody_bytes (currentLooks getItem ch)
    have hle := filledSlots_le (currentLooks getItem ch)
    refine ⟨fullMask (currentLooks getItem ch), _, ?_, ?_, hb, ?_⟩
    · rw [serializeLooks_eq]; rfl
    · rw [currentLooks_eq]; exact fullMask_bit7 _ _ _ _
    · have hb2 : ((fullBody (currentLooks getItem ch)).map MsgField.size).sum
          = 1 + 2 * filledSlots (currentLooks getItem ch) := hb
      unfold fullBody at hb2
      omega

theorem stdMapInsert_present (k : ObjectPtr) (e e0 : DelayedEvent) (q : DelayedEvents)
    (hq : Sorted q) (hp : pending k q = some e0) : stdMapInsert k e q = (q, false) := by
  induction q with
  | nil => simp [pending_nil] at hp
  | cons p rest ih =>
    obtain ⟨k0, e1⟩ := p
    have hlt := hq.head_lt
    unfold stdMapInsert
    by_cases h1 : k < k0
    · exfalso
      have hnone : pending k ((k0, e1) :: rest) = none := by
        apply pending_none_of_lt
        intro a ha
        simp only [List.map_cons, List.mem_cons] at ha
        rcases ha with ha | ha
        · rw [ha]; exact h1
        · exact Nat.lt_trans h1 (hlt a ha)
      rw [hnone] at hp
      cases hp
    · rw [if_neg h1]
      by_cases h2 : k = k0
      · rw [if_pos h2]
      · rw [if_neg h2]
        rw [pending_cons, if_neg (fun h => h2 h.symm)] at hp
        rw [ih hq.tail hp]

theorem enqueueEvent_present (k : ObjectPtr) (e e0 : DelayedEvent) (q : DelayedEvents)
    (hq : Sorted q) (hp : pending k q = some e0)
    (hne : e.type ≠ EventType.EVENT_REMOVE) : enqueueEvent k e q = q := by
  unfold enqueueEvent
  have hb : (e.type == EventType.EVENT_REMOVE) = false := by simpa using hne
  simp only [stdMapInsert_present k e e0 q hq hp, hb, Bool.and_false, Bool.false_eq_true,
    if_false]

/-- C30: first request wins among non-Remove events. If an Insert or Warp event `e` is
stored for `o` (after any requests `pre` of the tick), then `enqueueInsert o` and
`enqueueWarp o ...` with any region and coordinates leave the whole queue, and so the
event stored for `o`, unchanged; and `enqueueRemove o` changes only the type of the stored
event: its coordinates and region stay. -/
theorem first_request_wins (pre : List Request) (o : ObjectPtr) (e : DelayedEvent)
    (hpend : pending o (enqueueAll pre []) = some e)
    (hkind : e.type = EventType.EVENT_INSERT ∨ e.type = EventType.EVENT_WARP) :
    enqueueInsert o (enqueueAll pre []) = enqueueAll pre [] ∧
    (∀ m x y, enqueueWarp o m x y (enqueueAll pre []) = enqueueAll pre []) ∧
    pending o (enqueueRemove o (enqueueAll pre [])) =
      some { type := EventType.EVENT_REMOVE, x := e.x, y := e.y, map := e.map } := by
  have _ := hkind
  have hs : Sorted (enqueueAll pre []) := enqueueAll_sorted pre [] sorted_nil
  refine ⟨?_, ?_, ?_⟩
  · exact enqueueEvent_present o _ e _ hs hpend (by decide)
  · intro m x y
    exact enqueueEvent_present o _ e _ hs hpend (fun h => by cases h)
  · have h := (Request.remove o).run_pending _ hs o
    simp only [Request.run, Request.target, if_true, hpend] at h
    rw [h]
    rfl

/-- Witness for C30: a Warp to region `1` at `(10, 20)` is stored for `7`. -/
theorem first_request_wins_witness :
    enqueueInsert 7 (enqueueAll [Request.insert 3, Request.warp 7 1 10 20] [])
      = enqueueAll [Request.insert 3, Request.warp 7 1 10 20] [] ∧
    (∀ m x y, enqueueWarp 7 m x y (enqueueAll [Request.insert 3, Request.warp 7 1 10 20] [])
      = enqueueAll [Request.insert 3, Request.warp 7 1 10 20] []) ∧
    pending 7 (enqueueRemove 7 (enqueueAll [Request.insert 3, Request.warp 7 1 10 20] [])) =
      some { type := EventType.EVENT_REMOVE,
             x := ({ type := EventType.EVENT_WARP, x := 10, y := 20, map := 1 } : DelayedEvent).x,
             y := ({ type := EventType.EVENT_WARP, x := 10, y := 20, map := 1 } : DelayedEvent).y,
             map :=
               ({ type := EventType.EVENT_WARP, x := 10, y := 20, map := 1 } : DelayedEvent).map } :=
  first_request_wins [Request.insert 3, Request.warp 7 1 10 20] 7
    { type := EventType.EVENT_WARP, x := 10, y := 20, map := 1 } (by decide) (Or.inr rfl)

/-! ## Lemmas on `GameState::remove` and `GameState::warp` -/

theorem setRegion_same (maps : Maps) (k : MapPtr) (m : MapComposite) :
    setRegion maps k m k = some m := by
  simp [setRegion]

theorem setRegion_other (maps : Maps) (k j : MapPtr) (m : MapComposite) (h : j ≠ k) :
    setRegion maps k m j = maps j := by
  simp [setRegion, h]

theorem MapComposite.not_mem_remove (map : MapComposite) (ptr : ObjectPtr) :
    ptr ∉ (map.remove ptr).things := by
  simp [MapComposite.remove]

/-- The outcome of `GameState::remove` for a thing that has a region, the debug lock
being clear. -/
theorem remove_eq (maps : Maps) (around : List Thing) (e : Thing) (src : MapComposite)
    (hsrc : maps e.map = some src) :
    remove false maps around e =
      some { maps := setRegion maps e.map (src.remove e.ptr),
             thing := e.removed,
             effects := removeMessages around e.removed ++ [Effect.mapRemove e.map e.ptr] } := by
  unfold remove
  simp only [Bool.false_eq_true, if_false, hsrc]
  rfl

/-- After the removal the thing is in no region, provided it was in no other region than
its own before. -/
theorem not_mem_after_remove (maps : Maps) (e : Thing) (src : MapComposite)
    (hone : ∀ k m, k ≠ e.map → maps k = some m → e.ptr ∉ m.things) :
    ∀ k m, setRegion maps e.map (src.remove e.ptr) k = some m → e.ptr ∉ m.things := by
  intro k m hk
  by_cases h : k = e.map
  · rw [h, setRegion_same] at hk
    cases hk
    exact MapComposite.not_mem_remove src e.ptr
  · rw [setRegion_other maps e.map k _ h] at hk
    exact hone k m h hk

/-- The target region as the removal leaves it: it exists and is as active as before. -/
theorem target_after_remove (maps : Maps) (e : Thing) (src tgt : MapComposite)
    (target : MapPtr) (hsrc : maps e.map = some src) (htgt : maps target = some tgt) :
    ∃ tgt1, setRegion maps e.map (src.remove e.ptr) target = some tgt1 ∧
      tgt1.active = tgt.active ∧ tgt1.capacity = tgt.capacity ∧
      (target ≠ e.map → tgt1 = tgt) := by
  by_cases h : target = e.map
  · subst h
    rw [hsrc] at htgt
    cases htgt
    exact ⟨_, setRegion_same _ _ _, rfl, rfl, fun hne => absurd rfl hne⟩
  · exact ⟨tgt, by rw [setRegion_other _ _ _ _ h]; exact htgt, rfl, rfl, fun _ => rfl⟩

theorem removeMessages_kinds (around : List Thing) (t : Thing) :
    ∀ f ∈ removeMessages around t,
      (∃ o, f = Effect.cancelTransaction o) ∨
      (∃ p msg, f = Effect.sendTo p msg ∧
        (msg.id = MsgId.GPMSG_BEING_LEAVE ∨ msg.id = MsgId.GPMSG_ITEMS)) := by
  intro f hf
  unfold removeMessages at hf
  split_ifs at hf with h1 h2 h3
  · simp only [List.mem_append, List.mem_singleton, List.mem_map] at hf
    rcases hf with hf | ⟨p, _, hp⟩
    · exact Or.inl ⟨_, hf⟩
    · exact Or.inr ⟨_, _, hp.symm, Or.inl rfl⟩
  · simp only [List.nil_append, List.mem_map] at hf
    obtain ⟨p, _, hp⟩ := hf
    exact Or.inr ⟨_, _, hp.symm, Or.inl rfl⟩
  · simp only [List.mem_map] at hf
    obtain ⟨p, _, hp⟩ := hf
    exact Or.inr ⟨_, _, hp.symm, Or.inr rfl⟩
  · simp at hf

/-- A property that holds of no effect of the removal part holds of none of its effects. -/
theorem removeMessages_countP (around : List Thing) (t : Thing) (f : Effect → Bool)
    (hc : ∀ o, f (Effect.cancelTransaction o) = false)
    (hs : ∀ p msg, (msg.id = MsgId.GPMSG_BEING_LEAVE ∨ msg.id = MsgId.GPMSG_ITEMS) →
      f (Effect.sendTo p msg) = false) :
    (removeMessages around t).countP f = 0 := by
  rw [List.countP_eq_zero]
  intro a ha
  rcases removeMessages_kinds around t a ha with ⟨o, rfl⟩ | ⟨p, msg, rfl, hid⟩
  · simp [hc]
  · simp [hs p msg hid]

/-- What `insert` can do for an active region, the debug lock being clear: it returns;
when it returns `false` the region is as before and nothing was sent; when it returns
`true` the thing is in the region and only map-change messages were sent. -/
theorem insert_active_spec (map : MapComposite) (t : Thing) (hactive : map.active = true) :
    ∃ out, insert false (some map) t = some out ∧
      (out.result = false → out.map = map ∧ out.sent = []) ∧
      (out.result = true → t.ptr ∈ out.map.things) ∧
      (out.result = false → t.visible = true ∧ map.capacity ≤ map.things.length) ∧
      (t.visible = true → map.capacity ≤ map.things.length → out.result = false) ∧
      ∀ s ∈ out.sent, s.2.id = MsgId.GPMSG_PLAYER_MAP_CHANGE := by
  by_cases hvis : t.visible = true
  · by_cases hfree : map.things.length < map.capacity
    · refine ⟨_, insert_free_eq map t hactive hvis hfree, ?_, ?_, ?_, ?_, ?_⟩
      · intro h; cases h
      · intro _; simp
      · intro h; cases h
      · intro _ hfull; exact absurd hfree (Nat.not_lt.mpr hfull)
      · intro s hs
        simp only at hs
        by_cases hc : t.type = ObjectType.OBJECT_CHARACTER
        · rw [if_pos hc, List.mem_singleton] at hs
          rw [hs]
        · rw [if_neg hc] at hs
          cases hs
    · refine ⟨_, insert_full_eq map t hactive hvis (Nat.le_of_not_lt hfree), ?_, ?_, ?_, ?_, ?_⟩
      · intro _; exact ⟨rfl, rfl⟩
      · intro h; cases h
      · intro _; exact ⟨hvis, Nat.le_of_not_lt hfree⟩
      · intro _ _; rfl
      · intro s hs; simp at hs
  · have hv : t.visible = false := Bool.eq_false_iff.mpr hvis
    refine ⟨_, insert_hidden_eq map t hactive hv, ?_, ?_, ?_, ?_, ?_⟩
    · intro h; cases h
    · intro _; simp
    · intro h; cases h
    · intro h; exact absurd h hvis
    · intro s hs; simp at hs

/-- The thing `GameState::warp` flushes and hands on: removed from its region, attached to
the target, placed at `(x, y)`, its destination cleared. -/
theorem warp_moved_eq (e : Thing) (target : MapPtr) (x y : Nat) :
    ((e.removed.setMap target).setPosition { x := x, y := y }).clearDestination =
      { e with removedCalls := e.removedCalls + 1, map := target,
               position := { x := x, y := y }, destination := { x := x, y := y } } := rfl

/-- The outcome of `GameState::warp` when the target region is not active. -/
theorem warp_inactive_eq (maps : Maps) (around : List Thing) (e : Thing) (target : MapPtr)
    (x y : Nat) (src tgt1 : MapComposite) (hsrc : maps e.map = some src)
    (htgt1 : setRegion maps e.map (src.remove e.ptr) target = some tgt1)
    (hinactive : tgt1.active = false) :
    warp false maps around e target x y =
      some { maps := setRegion maps e.map (src.remove e.ptr),
             thing := ((e.removed.setMap target).setPosition { x := x, y := y }).clearDestination,
             effects := removeMessages around e.removed ++ [Effect.mapRemove e.map e.ptr]
               ++ [Effect.sendCharacterData
                 (((e.removed.setMap target).setPosition { x := x, y := y }).clearDestination)]
               ++ [Effect.accountSend
                     { id := MsgId.GAMSG_REDIRECT,
                       fields := [MsgField.long (e.databaseID % 4294967296)] },
                   Effect.prepareServerChange e.ptr] } := by
  unfold warp
  rw [remove_eq maps around e src hsrc]
  simp only [htgt1, hinactive, Bool.false_eq_true, if_false]
  rfl

/-- The outcome of `GameState::warp` when the target region is active: the local insert
is made, and its failure destroys the character. -/
theorem warp_active_eq (maps : Maps) (around : List Thing) (e : Thing) (target : MapPtr)
    (x y : Nat) (src tgt1 : MapComposite) (placed : InsertOutcome)
    (hsrc : maps e.map = some src)
    (htgt1 : setRegion maps e.map (src.remove e.ptr) target = some tgt1)
    (hactive : tgt1.active = true)
    (hins : insert false (some tgt1)
      (((e.removed.setMap target).setPosition { x := x, y := y }).clearDestination)
      = some placed) :
    warp false maps around e target x y =
      some { maps := setRegion (setRegion maps e.map (src.remove e.ptr)) target placed.map,
             thing := placed.thing,
             effects := removeMessages around e.removed ++ [Effect.mapRemove e.map e.ptr]
               ++ [Effect.sendCharacterData
                 (((e.removed.setMap target).setPosition { x := x, y := y }).clearDestination)]
               ++ (placed.sent.map (fun s => Effect.sendTo s.1 s.2)
                 ++ (if placed.result = false then
                       [Effect.insert e.ptr false, Effect.disconnected e.ptr,
                        Effect.kill e.ptr, Effect.delete e.ptr]
                     else [Effect.insert e.ptr true])) } := by
  unfold warp
  rw [remove_eq maps around e src hsrc]
  simp only [htgt1, hactive, if_true]
  unfold warpInsert
  have hm : (((e.removed.setMap target).setPosition { x := x, y := y }).clearDestination).map
      = target := rfl
  simp only [hm, htgt1, hins]
  cases hr : placed.result
  · simp only [Bool.not_false, if_true]
    rfl
  · simp only [Bool.not_true, Bool.false_eq_true, if_false]
    rfl

theorem countP_ptr_le_one (l : List Thing) (q : ObjectPtr) (hnodup : (l.map Thing.ptr).Nodup)
    (c : Thing → Bool) : l.countP (fun p => p.ptr == q && c p) ≤ 1 := by
  induction l with
  | nil => simp
  | cons a l ih =>
    simp only [List.map_cons, List.nodup_cons] at hnodup
    rw [List.countP_cons]
    by_cases h : a.ptr = q
    · have hz : l.countP (fun p => p.ptr == q && c p) = 0 := by
        rw [List.countP_eq_zero]
        intro b hb
        have hne : b.ptr ≠ q := by
          intro hbq
          apply hnodup.1
          rw [h, ← hbq]
          exact List.mem_map_of_mem _ hb
        simp [hne]
      rw [hz]
      split_ifs <;> omega
    · have hb : (a.ptr == q) = false := by simpa using h
      have := ih hnodup.2
      simp only [hb, Bool.false_and, Bool.false_eq_true, if_false, Nat.add_zero]
      exact this

theorem countP_sends (l : List Thing) (c : Thing → Bool) (msg : MessageOut) (q : ObjectPtr) :
    ((l.filter c).map (fun p => Effect.sendTo p.ptr msg)).countP (Effect.isSendTo q) =
      l.countP (fun p => p.ptr == q && c p) := by
  rw [List.countP_map, List.countP_filter]
  apply List.countP_congr
  intro p _
  simp [Effect.isSendTo, Function.comp]

/-- The number of messages a character receives from the removal of a moving object. -/
theorem removeMessages_moving_count (around : List Thing) (t : Thing) (q : ObjectPtr)
    (hmove : t.canMove = true) :
    (removeMessages around t).countP (Effect.isSendTo q) =
      around.countP (fun p => p.ptr == q &&
        (p.ptr != t.ptr && t.position.inRangeOf p.position AROUND_AREA)) := by
  unfold removeMessages
  rw [if_pos hmove, List.countP_append, countP_sends]
  by_cases hc : t.type = ObjectType.OBJECT_CHARACTER
  · rw [if_pos hc]
    simp [Effect.isSendTo, List.countP_cons]
  · rw [if_neg hc]
    simp

/-! ## Theorems on `GameState::remove` and `GameState::warp` -/

/-- C22: for every moving thing `e` passed to `GameState::remove` (the region reporting
each character around `e` once): the calls made are messages and then, last, the
detachment `map->remove(e)`; every character `p` around `e` other than `e` whose position
is within the proximity radius of `e`'s position receives exactly one message, the Leave
message carrying `e`'s public id; `e` itself receives nothing; a character out of range
receives nothing; and afterwards `e` is not in its region. -/
theorem remove_notifies_neighbours (maps : Maps) (around : List Thing) (e : Thing)
    (src : MapComposite) (hsrc : maps e.map = some src) (hmove : e.canMove = true)
    (hnodup : (around.map Thing.ptr).Nodup) :
    ∃ out notes,
      remove false maps around e = some out ∧
      out.effects = notes ++ [Effect.mapRemove e.map e.ptr] ∧
      (∀ f ∈ notes, (∃ o, f = Effect.cancelTransaction o) ∨ ∃ p msg, f = Effect.sendTo p msg) ∧
      (∀ p ∈ around, p.ptr ≠ e.ptr → e.position.inRangeOf p.position AROUND_AREA = true →
        notes.countP (Effect.isSendTo p.ptr) = 1 ∧
        Effect.sendTo p.ptr
          { id := MsgId.GPMSG_BEING_LEAVE,
            fields := [MsgField.short (e.publicID % 65536)] } ∈ notes) ∧
      notes.countP (Effect.isSendTo e.ptr) = 0 ∧
      (∀ p ∈ around, e.position.inRangeOf p.position AROUND_AREA = false →
        notes.countP (Effect.isSendTo p.ptr) = 0) ∧
      (∀ m, out.maps e.map = some m → e.ptr ∉ m.things) := by
  refine ⟨_, removeMessages around e.removed, remove_eq maps around e src hsrc, rfl,
    ?_, ?_, ?_, ?_, ?_⟩
  · intro f hf
    rcases removeMessages_kinds around e.removed f hf with h | ⟨p, msg, h, _⟩
    · exact Or.inl h
    · exact Or.inr ⟨p, msg, h⟩
  · intro p hp hne hin
    have hcount := removeMessages_moving_count around e.removed p.ptr hmove
    have hle := countP_ptr_le_one around p.ptr hnodup
      (fun a => a.ptr != e.removed.ptr && e.removed.position.inRangeOf a.position AROUND_AREA)
    have hpos : 0 < around.countP (fun a => a.ptr == p.ptr &&
        (a.ptr != e.removed.ptr && e.removed.position.inRangeOf a.position AROUND_AREA)) := by
      rw [List.countP_pos_iff]
      refine ⟨p, hp, ?_⟩
      have h1 : e.removed.ptr = e.ptr := rfl
      have h2 : e.removed.position = e.position := rfl
      simp [h1, h2, hne, hin]
    constructor
    · rw [hcount]; omega
    · have hmove1 : e.removed.canMove = true := hmove
      unfold removeMessages
      rw [if_pos hmove1]
      apply List.mem_append_right
      rw [List.mem_map]
      refine ⟨p, ?_, rfl⟩
      rw [List.mem_filter]
      refine ⟨hp, ?_⟩
      have h1 : e.removed.ptr = e.ptr := rfl
      have h2 : e.removed.position = e.position := rfl
      simp [h1, h2, hne, hin]
  · rw [removeMessages_moving_count around e.removed e.ptr hmove, List.countP_eq_zero]
    intro a _
    have h1 : e.removed.ptr = e.ptr := rfl
    by_cases h : a.ptr = e.ptr <;> simp [h1, h]
  · intro p hp hout
    rw [removeMessages_moving_count around e.removed p.ptr hmove, List.countP_eq_zero]
    intro a ha
    have h2 : e.removed.position = e.position := rfl
    by_cases h : a.ptr = p.ptr
    · have hap : a = p := List.inj_on_of_nodup_map hnodup ha hp h
      rw [hap]
      simp [h2, hout]
    · simp [h]
  · intro m hm
    simp only [setRegion_same] at hm
    cases hm
    exact MapComposite.not_mem_remove src e.ptr

theorem removeMessages_no_flush (around : List Thing) (t : Thing) :
    (removeMessages around t).countP Effect.isFlush = 0 :=
  removeMessages_countP around t _ (fun _ => rfl) (fun _ _ _ => rfl)

theorem removeMessages_no_insert (around : List Thing) (t : Thing) :
    (removeMessages around t).countP Effect.isInsert = 0 :=
  removeMessages_countP around t _ (fun _ => rfl) (fun _ _ _ => rfl)

theorem removeMessages_no_accountSend (around : List Thing) (t : Thing) :
    (removeMessages around t).countP Effect.isAccountSend = 0 :=
  removeMessages_countP around t _ (fun _ => rfl) (fun _ _ _ => rfl)

theorem removeMessages_no_mapChange (around : List Thing) (t : Thing) :
    (removeMessages around t).countP (Effect.isSendOf MsgId.GPMSG_PLAYER_MAP_CHANGE) = 0 := by
  apply removeMessages_countP around t _ (fun _ => rfl)
  intro p msg hid
  rcases hid with h | h <;> simp [Effect.isSendOf, h]

theorem removeMessages_not_mem (around : List Thing) (t : Thing) (f : Effect)
    (hc : ∀ o, f ≠ Effect.cancelTransaction o) (hs : ∀ p msg, f ≠ Effect.sendTo p msg) :
    f ∉ removeMessages around t := by
  intro hf
  rcases removeMessages_kinds around t f hf with ⟨o, h⟩ | ⟨p, msg, h, _⟩
  · exact hc o h
  · exact hs p msg h

theorem sends_countP (sent : List (ObjectPtr × MessageOut)) (f : Effect → Bool)
    (hf : ∀ s ∈ sent, f (Effect.sendTo s.1 s.2) = false) :
    (sent.map (fun s => Effect.sendTo s.1 s.2)).countP f = 0 := by
  rw [List.countP_eq_zero]
  intro a ha
  rw [List.mem_map] at ha
  obtain ⟨s, hs, rfl⟩ := ha
  simp [hf s hs]

/-- C23: for every character `e` warped by `GameState::warp` to a target region that is
not active (`e` being in no other region than its own before): exactly one message is sent
to the account server, the Redirect message carrying `e`'s database id; the transport
layer is told to prepare a server change; `insert` is not called; and afterwards `e` is in
no region of this server. -/
theorem warp_to_inactive_region (maps : Maps) (around : List Thing) (e : Thing)
    (target : MapPtr) (x y : Nat) (src tgt : MapComposite)
    (hsrc : maps e.map = some src) (htgt : maps target = some tgt)
    (hinactive : tgt.active = false)
    (hone : ∀ k m, k ≠ e.map → maps k = some m → e.ptr ∉ m.things) :
    ∃ out, warp false maps around e target x y = some out ∧
      out.effects.countP Effect.isAccountSend = 1 ∧
      Effect.accountSend
        { id := MsgId.GAMSG_REDIRECT,
          fields := [MsgField.long (e.databaseID % 4294967296)] } ∈ out.effects ∧
      Effect.prepareServerChange e.ptr ∈ out.effects ∧
      out.effects.countP Effect.isInsert = 0 ∧
      ∀ k m, out.maps k = some m → e.ptr ∉ m.things := by
  obtain ⟨tgt1, htgt1, hact, _, _⟩ := target_after_remove maps e src tgt target hsrc htgt
  rw [hinactive] at hact
  refine ⟨_, warp_inactive_eq maps around e target x y src tgt1 hsrc htgt1 hact,
    ?_, ?_, ?_, ?_, ?_⟩
  · simp only [List.countP_append, removeMessages_no_accountSend]
    simp [Effect.isAccountSend, List.countP_cons]
  · simp
  · simp
  · simp only [List.countP_append, removeMessages_no_insert]
    simp [Effect.isInsert, List.countP_cons]
  · exact not_mem_after_remove maps e src hone

/-- Witness for C23: `sampleWarped` is warped from region `1` to the inactive region `3`. -/
theorem warp_to_inactive_region_witness :
    ∃ out, warp false sampleMaps [sampleWarped, sampleNeighbour, sampleDistant] sampleWarped
        3 10 20 = some out ∧
      out.effects.countP Effect.isAccountSend = 1 ∧
      Effect.accountSend
        { id := MsgId.GAMSG_REDIRECT,
          fields := [MsgField.long (sampleWarped.databaseID % 4294967296)] } ∈ out.effects ∧
      Effect.prepareServerChange sampleWarped.ptr ∈ out.effects ∧
      out.effects.countP Effect.isInsert = 0 ∧
      ∀ k m, out.maps k = some m → sampleWarped.ptr ∉ m.things :=
  warp_to_inactive_region sampleMaps [sampleWarped, sampleNeighbour, sampleDistant]
    sampleWarped 3 10 20 { sampleMap with things := [20, 21, 22] }
    { sampleMap with id := 3, name := "Elsewhere", active := false } rfl rfl rfl
    (by
      intro k m hk hm
      unfold sampleMaps at hm
      split_ifs at hm with h1 h2 h3
      · exact absurd h1 hk
      · cases hm; decide
      · cases hm; decide)

/-- C24: reinsert failure. For every character `e` warped by `GameState::warp` (`e` being
in no other region than its own before), whenever the local `insert` is called and returns
`false`: the last calls made are `insert`, `disconnected()`, `kill` and `delete` on `e`; no
PlayerMapChange message and no message to the account server was sent; and afterwards `e`
is in no region, so neither in the source nor in the target. This is what happens when the
target is another, active region that is at capacity and `e` is visible. -/
theorem warp_reinsert_failure (maps : Maps) (around : List Thing) (e : Thing)
    (target : MapPtr) (x y : Nat) (src : MapComposite)
    (hsrc : maps e.map = some src)
    (hone : ∀ k m, k ≠ e.map → maps k = some m → e.ptr ∉ m.things) :
    (∀ out, warp false maps around e target x y = some out →
      Effect.insert e.ptr false ∈ out.effects →
      (∃ before, out.effects = before ++
        [Effect.insert e.ptr false, Effect.disconnected e.ptr, Effect.kill e.ptr,
         Effect.delete e.ptr]) ∧
      out.effects.countP (Effect.isSendOf MsgId.GPMSG_PLAYER_MAP_CHANGE) = 0 ∧
      out.effects.countP Effect.isAccountSend = 0 ∧
      ∀ k m, out.maps k = some m → e.ptr ∉ m.things) ∧
    (∀ tgt, maps target = some tgt → tgt.active = true → target ≠ e.map →
      e.visible = true → tgt.capacity ≤ tgt.things.length →
      ∃ out, warp false maps around e target x y = some out ∧
        Effect.insert e.ptr false ∈ out.effects) := by
  constructor
  · intro out hout hmark
    cases htgt1 : setRegion maps e.map (src.remove e.ptr) target with
    | none =>
      unfold warp at hout
      rw [remove_eq maps around e src hsrc] at hout
      simp [htgt1] at hout
    | some tgt1 =>
      cases hact : tgt1.active
      · rw [warp_inactive_eq maps around e target x y src tgt1 hsrc htgt1 hact] at hout
        cases hout
        exfalso
        simp only [List.mem_append, List.mem_cons, List.mem_singleton, reduceCtorEq,
          List.not_mem_nil, or_false, or_self] at hmark
        exact removeMessages_not_mem around e.removed _ (fun _ h => by cases h)
          (fun _ _ h => by cases h) hmark
      · obtain ⟨placed, hins, hfail, _, _, _, hsent⟩ :=
          insert_active_spec tgt1
            (((e.removed.setMap target).setPosition { x := x, y := y }).clearDestination) hact
        rw [warp_active_eq maps around e target x y src tgt1 placed hsrc htgt1 hact hins] at hout
        cases hout
        cases hres : placed.result
        · obtain ⟨hmap, hnone⟩ := hfail hres
          simp only [hres, if_true, hnone, List.map_nil, List.nil_append]
          refine ⟨⟨_, rfl⟩, ?_, ?_, ?_⟩
          · simp only [List.countP_append, removeMessages_no_mapChange]
            simp [Effect.isSendOf, List.countP_cons]
          · simp only [List.countP_append, removeMessages_no_accountSend]
            simp [Effect.isAccountSend, List.countP_cons]
          · intro k m hk
            by_cases h : k = target
            · rw [h, setRegion_same] at hk
              cases hk
              rw [hmap]
              exact not_mem_after_remove maps e src hone target tgt1 htgt1
            · rw [setRegion_other _ _ _ _ h] at hk
              exact not_mem_after_remove maps e src hone k m hk
        · exfalso
          simp only [hres, Bool.true_eq_false, if_false, List.mem_append, List.mem_cons,
            List.mem_singleton, reduceCtorEq, List.not_mem_nil, or_false, List.mem_map,
            Effect.insert.injEq, and_false, false_or, or_self] at hmark
          rcases hmark with hmark | hmark
          · exact removeMessages_not_mem around e.removed _ (fun _ h => by cases h)
              (fun _ _ h => by cases h) hmark
          · obtain ⟨s, _, hs⟩ := hmark
  · intro tgt htgt hactive hne hvis hfull
    obtain ⟨tgt1, htgt1, hact, _, hsame⟩ := target_after_remove maps e src tgt target hsrc htgt
    rw [hsame hne] at htgt1
    obtain ⟨placed, hins, _, _, _, hfails, _⟩ :=
      insert_active_spec tgt
        (((e.removed.setMap target).setPosition { x := x, y := y }).clearDestination) hactive
    have hres : placed.result = false := hfails hvis hfull
    refine ⟨_, warp_active_eq maps around e target x y src tgt placed hsrc htgt1 hactive hins,
      ?_⟩
    simp [hres]

/-- Witness for C24: `sampleWarped` is warped from region `1` to region `2`, which is
active and at capacity. -/
theorem warp_reinsert_failure_witness :
    (∀ out, warp false sampleMaps [sampleWarped, sampleNeighbour, sampleDistant] sampleWarped
        2 10 20 = some out →
      Effect.insert sampleWarped.ptr false ∈ out.effects →
      (∃ before, out.effects = before ++
        [Effect.insert sampleWarped.ptr false, Effect.disconnected sampleWarped.ptr,
         Effect.kill sampleWarped.ptr, Effect.delete sampleWarped.ptr]) ∧
      out.effects.countP (Effect.isSendOf MsgId.GPMSG_PLAYER_MAP_CHANGE) = 0 ∧
      out.effects.countP Effect.isAccountSend = 0 ∧
      ∀ k m, out.maps k = some m → sampleWarped.ptr ∉ m.things) ∧
    (∀ tgt, sampleMaps 2 = some tgt → tgt.active = true → 2 ≠ sampleWarped.map →
      sampleWarped.visible = true → tgt.capacity ≤ tgt.things.length →
      ∃ out, warp false sampleMaps [sampleWarped, sampleNeighbour, sampleDistant] sampleWarped
          2 10 20 = some out ∧
        Effect.insert sampleWarped.ptr false ∈ out.effects) :=
  warp_reinsert_failure sampleMaps [sampleWarped, sampleNeighbour, sampleDistant]
    sampleWarped 2 10 20 { sampleMap with things := [20, 21, 22] } rfl
    (by
      intro k m hk hm
      unfold sampleMaps at hm
      split_ifs at hm with h1 h2 h3
      · exact absurd h1 hk
      · cases hm; decide
      · cases hm; decide)

/-- Witness for C22: `sampleWarped` is removed; `sampleNeighbour` is next to it and
`sampleDistant` far away. -/
theorem remove_notifies_neighbours_witness :
    ∃ out notes,
      remove false sampleMaps [sampleWarped, sampleNeighbour, sampleDistant] sampleWarped
        = some out ∧
      out.effects = notes ++ [Effect.mapRemove sampleWarped.map sampleWarped.ptr] ∧
      (∀ f ∈ notes, (∃ o, f = Effect.cancelTransaction o) ∨ ∃ p msg, f = Effect.sendTo p msg) ∧
      (∀ p ∈ [sampleWarped, sampleNeighbour, sampleDistant], p.ptr ≠ sampleWarped.ptr →
        sampleWarped.position.inRangeOf p.position AROUND_AREA = true →
        notes.countP (Effect.isSendTo p.ptr) = 1 ∧
        Effect.sendTo p.ptr
          { id := MsgId.GPMSG_BEING_LEAVE,
            fields := [MsgField.short (sampleWarped.publicID % 65536)] } ∈ notes) ∧
      notes.countP (Effect.isSendTo sampleWarped.ptr) = 0 ∧
      (∀ p ∈ [sampleWarped, sampleNeighbour, sampleDistant],
        sampleWarped.position.inRangeOf p.position AROUND_AREA = false →
        notes.countP (Effect.isSendTo p.ptr) = 0) ∧
      (∀ m, out.maps sampleWarped.map = some m → sampleWarped.ptr ∉ m.things) :=
  remove_notifies_neighbours sampleMaps [sampleWarped, sampleNeighbour, sampleDistant]
    sampleWarped { sampleMap with things := [20, 21, 22] } rfl rfl (by decide)

/-- C28: for every call of `GameState::warp` on a thing `e` that has a region, towards a
target pointer that designates a region, the call returns and, in every outcome, the calls
made are: first those of the removal, which end with the detachment `map->remove(e)` from
the source region; then exactly one persistence flush, of `e` attached to the target, at
position `(x, y)` and with its destination cleared; then the rest. No flush, no `insert`
and no hand-off to the account server or the transport layer comes before that flush, and
no flush comes after it. -/
theorem warp_flushes_once (maps : Maps) (around : List Thing) (e : Thing)
    (target : MapPtr) (x y : Nat) (src tgt : MapComposite)
    (hsrc : maps e.map = some src) (htgt : maps target = some tgt) :
    ∃ out before after,
      warp false maps around e target x y = some out ∧
      out.effects = before ++
        [Effect.mapRemove e.map e.ptr,
         Effect.sendCharacterData
           { e with removedCalls := e.removedCalls + 1, map := target,
                    position := { x := x, y := y }, destination := { x := x, y := y } }]
        ++ after ∧
      before.countP Effect.isFlush = 0 ∧ after.countP Effect.isFlush = 0 ∧
      before.countP Effect.isInsert = 0 ∧ before.countP Effect.isAccountSend = 0 ∧
      Effect.prepareServerChange e.ptr ∉ before := by
  obtain ⟨tgt1, htgt1, _, _, _⟩ := target_after_remove maps e src tgt target hsrc htgt
  have hnp : Effect.prepareServerChange e.ptr ∉ removeMessages around e.removed :=
    removeMessages_not_mem around e.removed _ (fun _ h => by cases h) (fun _ _ h => by cases h)
  cases hact : tgt1.active
  · refine ⟨_, removeMessages around e.removed,
      [Effect.accountSend
         { id := MsgId.GAMSG_REDIRECT, fields := [MsgField.long (e.databaseID % 4294967296)] },
       Effect.prepareServerChange e.ptr],
      warp_inactive_eq maps around e target x y src tgt1 hsrc htgt1 hact, ?_,
      removeMessages_no_flush _ _, ?_, removeMessages_no_insert _ _,
      removeMessages_no_accountSend _ _, hnp⟩
    · rw [warp_moved_eq]
      simp only [List.append_assoc, List.singleton_append]
    · simp [Effect.isFlush, List.countP_cons]
  · obtain ⟨placed, hins, _, _, _, _, _⟩ :=
      insert_active_spec tgt1
        (((e.removed.setMap target).setPosition { x := x, y := y }).clearDestination) hact
    refine ⟨_, removeMessages around e.removed,
      placed.sent.map (fun s => Effect.sendTo s.1 s.2)
        ++ (if placed.result = false then
              [Effect.insert e.ptr false, Effect.disconnected e.ptr,
               Effect.kill e.ptr, Effect.delete e.ptr]
            else [Effect.insert e.ptr true]),
      warp_active_eq maps around e target x y src tgt1 placed hsrc htgt1 hact hins, ?_,
      removeMessages_no_flush _ _, ?_, removeMessages_no_insert _ _,
      removeMessages_no_accountSend _ _, hnp⟩
    · rw [warp_moved_eq]
      simp only [List.append_assoc, List.singleton_append]
    · rw [List.countP_append, sends_countP _ _ (fun _ _ => rfl)]
      split_ifs <;> simp [Effect.isFlush, List.countP_cons]

/-- Witness for C28: `sampleWarped` is warped from region `1` to region `2`. -/
theorem warp_flushes_once_witness :
    ∃ out before after,
      warp false sampleMaps [sampleWarped, sampleNeighbour, sampleDistant] sampleWarped
        2 10 20 = some out ∧
      out.effects = before ++
        [Effect.mapRemove sampleWarped.map sampleWarped.ptr,
         Effect.sendCharacterData
           { sampleWarped with
             removedCalls := sampleWarped.removedCalls + 1, map := 2,
             position := { x := 10, y := 20 }, destination := { x := 10, y := 20 } }]
        ++ after ∧
      before.countP Effect.isFlush = 0 ∧ after.countP Effect.isFlush = 0 ∧
      before.countP Effect.isInsert = 0 ∧ before.countP Effect.isAccountSend = 0 ∧
      Effect.prepareServerChange sampleWarped.ptr ∉ before :=
  warp_flushes_once sampleMaps [sampleWarped, sampleNeighbour, sampleDistant] sampleWarped
    2 10 20 { sampleMap with things := [20, 21, 22] } { sampleSmallMap with things := [30] }
    rfl rfl

/-! ## Lemmas on `GameState::update` -/

theorem updateRegions_steps (hooks : Region → RegionUpdate) (regions : List Region)
    (q : DelayedEvents) :
    (updateRegions hooks regions q).1 = regions.flatMap (regionSteps hooks) := by
  induction regions generalizing q with
  | nil => rfl
  | cons r rest ih =>
    unfold updateRegions
    cases hr : r.active
    · simp only [Bool.not_false, if_true, List.flatMap_cons, regionSteps, hr,
        Bool.false_eq_true, if_false, List.nil_append]
      exact ih q
    · simp only [Bool.not_true, Bool.false_eq_true, if_false, List.flatMap_cons, regionSteps,
        hr, if_true, List.cons_append, List.append_assoc, List.singleton_append]
      rw [ih]
      simp

theorem updateRegions_regions (hooks : Region → RegionUpdate) (regions : List Region)
    (q : DelayedEvents) :
    (updateRegions hooks regions q).2.1 = regions.map (regionAfter hooks) := by
  induction regions generalizing q with
  | nil => rfl
  | cons r rest ih =>
    unfold updateRegions
    cases hr : r.active
    · simp only [Bool.not_false, if_true, List.map_cons, regionAfter, hr,
        Bool.false_eq_true, if_false]
      rw [ih]
    · simp only [Bool.not_true, Bool.false_eq_true, if_false, List.map_cons, regionAfter,
        hr, if_true]
      rw [ih]

theorem regionSteps_isRegionStep (hooks : Region → RegionUpdate) (r : Region) :
    ∀ s ∈ regionSteps hooks r, s.isRegionStep = true := by
  intro s hs
  unfold regionSteps at hs
  split_ifs at hs
  · simp only [List.mem_cons, List.mem_append, List.mem_singleton, informPlayers,
      List.mem_map] at hs
    rcases hs with rfl | ⟨p, _, rfl⟩ | rfl | hs
    · rfl
    · rfl
    · rfl
    · cases hs
  · simp at hs

theorem update_eq (getType : ObjectPtr → ObjectType) (hooks : Region → RegionUpdate)
    (regions : List Region) (q : DelayedEvents) (out : UpdateOutcome)
    (hout : update getType hooks regions q = some out) :
    ∃ calls,
      applyEvents getType (updateRegions hooks regions q).2.2 = some calls ∧
      out.steps = Step.lock true :: (regions.flatMap (regionSteps hooks) ++
        Step.lock false :: calls.map (fun c => Step.lifecycle c false)) ∧
      out.regions = regions.map (regionAfter hooks) ∧ out.queue = [] := by
  unfold update drain at hout
  cases ha : applyEvents getType (updateRegions hooks regions q).2.2 with
  | none => simp [ha] at hout
  | some calls =>
    simp only [ha, Option.map_some'] at hout
    cases hout
    exact ⟨calls, rfl, by simp only [updateRegions_steps], updateRegions_regions _ _ _, rfl⟩

theorem clearFlags_beings (r : Region) :
    ∀ o ∈ r.clearFlags.beings, o.updateFlags = 0 ∧ (o.canFight = true → o.hitsTaken = []) := by
  intro o ho
  simp only [Region.clearFlags, List.mem_map] at ho
  obtain ⟨b, _, rfl⟩ := ho
  refine ⟨rfl, ?_⟩
  intro hc
  have hc2 : b.canFight = true := hc
  simp [MovingObject.clearFlags, hc2]

theorem clearFlags_items (r : Region) : ∀ o ∈ r.clearFlags.items, o.updateFlags = 0 := by
  intro o ho
  simp only [Region.clearFlags, List.mem_map] at ho
  obtain ⟨b, _, rfl⟩ := ho
  rfl

/-- The walk over the delayed events runs to its end when every stored Warp event is for a
character, which is what the parameter type `Character *` of `enqueueWarp` ensures. -/
theorem applyEvents_returns (getType : ObjectPtr → ObjectType) (q : DelayedEvents)
    (ht : ∀ p ∈ q, p.2.type = EventType.EVENT_WARP →
      getType p.1 = ObjectType.OBJECT_CHARACTER) :
    ∃ calls, applyEvents getType q = some calls := by
  induction q with
  | nil => exact ⟨[], rfl⟩
  | cons p rest ih =>
    obtain ⟨k, e⟩ := p
    obtain ⟨ds, hds⟩ := ih (fun p hp => ht p (List.mem_cons_of_mem _ hp))
    have hsome : ∃ cs, applyEvent getType k e = some cs := by
      unfold applyEvent
      cases hty : e.type
      · exact ⟨_, rfl⟩
      · exact ⟨_, rfl⟩
      · have := ht (k, e) (List.mem_cons_self _ _) hty
        simp only [this, if_true]
        exact ⟨_, rfl⟩
    obtain ⟨cs, hcs⟩ := hsome
    exact ⟨cs ++ ds, by simp only [applyEvents, hcs, hds]⟩

/-- The function `GameState::update` runs to its end when every Warp event stored at the
start of the walk over the delayed events is for a character. -/
theorem update_returns (getType : ObjectPtr → ObjectType) (hooks : Region → RegionUpdate)
    (regions : List Region) (q : DelayedEvents)
    (ht : ∀ p ∈ (updateRegions hooks regions q).2.2, p.2.type = EventType.EVENT_WARP →
      getType p.1 = ObjectType.OBJECT_CHARACTER) :
    ∃ out, update getType hooks regions q = some out := by
  obtain ⟨calls, hcalls⟩ := applyEvents_returns getType _ ht
  unfold update drain
  simp only [hcalls, Option.map_some']
  exact ⟨_, rfl⟩

/-! ## Theorems on `GameState::update` -/

/-- C25: phase ordering. An execution of `GameState::update` runs to its end when every
Warp event stored at the start of the walk over the delayed events is for a character (the
only assertion of the walk itself), and in every execution that runs to its end the steps
are: the debug lock is set; then the pass over the regions, made of `updateMap`,
`informPlayer` and flag-clearing steps only, with the `updateMap` and the flag-clearing
step of every active region; then the debug lock is cleared; then the calls made for the
delayed events (`remove`, `insertSafe`, `warp`, ...), each with the debug lock clear; and
the queue is empty afterwards. With the debug lock clear the assertion on the lock fails
neither in `insert` (which returns for every active region) nor in `remove` (which returns
for every thing that has a region), whereas with the lock set both fail. -/
theorem update_phase_order (getType : ObjectPtr → ObjectType) (hooks : Region → RegionUpdate)
    (regions : List Region) (q : DelayedEvents) :
    ((∀ p ∈ (updateRegions hooks regions q).2.2, p.2.type = EventType.EVENT_WARP →
        getType p.1 = ObjectType.OBJECT_CHARACTER) →
      ∃ out, update getType hooks regions q = some out) ∧
    (∀ out, update getType hooks regions q = some out →
      ∃ (pass : List Step) (calls : List Call),
        out.steps = Step.lock true ::
          (pass ++ Step.lock false :: calls.map (fun c => Step.lifecycle c false)) ∧
        (∀ s ∈ pass, s.isRegionStep = true) ∧
        (∀ r ∈ regions, r.active = true →
          Step.updateMap r.id ∈ pass ∧ Step.clearFlags r.id ∈ pass) ∧
        out.queue = []) ∧
    (∀ (map : MapComposite) (t : Thing), map.active = true →
      ∃ o, insert false (some map) t = some o) ∧
    (∀ (maps : Maps) (around : List Thing) (t : Thing) (m : MapComposite),
      maps t.map = some m → ∃ o, remove false maps around t = some o) ∧
    (∀ (region : Option MapComposite) (t : Thing), insert true region t = none) ∧
    (∀ (maps : Maps) (around : List Thing) (t : Thing), remove true maps around t = none) := by
  refine ⟨update_returns getType hooks regions q, ?_, ?_, ?_, ?_, ?_⟩
  · intro out hout
    obtain ⟨calls, _, hsteps, _, hq⟩ := update_eq getType hooks regions q out hout
    refine ⟨regions.flatMap (regionSteps hooks), calls, hsteps, ?_, ?_, hq⟩
    · intro s hs
      rw [List.mem_flatMap] at hs
      obtain ⟨r, _, hr⟩ := hs
      exact regionSteps_isRegionStep hooks r s hr
    · intro r hr hact
      constructor
      · rw [List.mem_flatMap]
        exact ⟨r, hr, by simp [regionSteps, hact]⟩
      · rw [List.mem_flatMap]
        exact ⟨r, hr, by simp [regionSteps, hact]⟩
  · intro map t hactive
    obtain ⟨o, ho, _⟩ := insert_active_spec map t hactive
    exact ⟨o, ho⟩
  · intro maps around t m hm
    exact ⟨_, remove_eq maps around t m hm⟩
  · intro region t
    simp [insert]
  · intro maps around t
    simp [remove]

/-- Witness for C25: one active and one inactive region, a Warp stored for the character
`7` at the start and a Remove requested for the monster `8` during the pass; the execution
runs to its end and its steps are in the order stated. -/
theorem update_phase_order_witness :
    (∃ out, update
      (fun o => if o = 8 then ObjectType.OBJECT_MONSTER else ObjectType.OBJECT_CHARACTER)
      sampleHooks [sampleRegion, sampleIdleRegion]
      (enqueueAll [Request.warp 7 1 10 20] []) = some out) ∧
    (∃ (pass : List Step) (calls : List Call),
      [Step.lock true, Step.updateMap 1, Step.informPlayer 1 sampleCharacter sampleRegion,
        Step.clearFlags 1, Step.lock false,
        Step.lifecycle (Call.warp 7 1 10 20) false, Step.lifecycle (Call.remove 8) false,
        Step.lifecycle (Call.delete 8) false] = Step.lock true ::
        (pass ++ Step.lock false :: calls.map (fun c => Step.lifecycle c false)) ∧
      (∀ s ∈ pass, s.isRegionStep = true) ∧
      (∀ r ∈ [sampleRegion, sampleIdleRegion], r.active = true →
        Step.updateMap r.id ∈ pass ∧ Step.clearFlags r.id ∈ pass) ∧
      ([] : DelayedEvents) = []) :=
  ⟨(update_phase_order
      (fun o => if o = 8 then ObjectType.OBJECT_MONSTER else ObjectType.OBJECT_CHARACTER)
      sampleHooks [sampleRegion, sampleIdleRegion]
      (enqueueAll [Request.warp 7 1 10 20] [])).1 (by decide),
   (update_phase_order
      (fun o => if o = 8 then ObjectType.OBJECT_MONSTER else ObjectType.OBJECT_CHARACTER)
      sampleHooks [sampleRegion, sampleIdleRegion]
      (enqueueAll [Request.warp 7 1 10 20] [])).2.1
    { steps :=
        [Step.lock true, Step.updateMap 1, Step.informPlayer 1 sampleCharacter sampleRegion,
         Step.clearFlags 1, Step.lock false,
         Step.lifecycle (Call.warp 7 1 10 20) false, Step.lifecycle (Call.remove 8) false,
         Step.lifecycle (Call.delete 8) false],
      regions := [sampleRegion.clearFlags, sampleIdleRegion],
      queue := [] }
    rfl⟩

/-- C26: flag reset. When the pass of `GameState::update` over the regions is finished,
which is the moment the walk over the delayed events begins, every moving object of every
active region has an empty update-flag bitmask and, if it can fight, an empty hit list, and
every item of every active region has an empty update-flag bitmask; and for every active
region the steps of the pass are, in this order, `updateMap`, one `informPlayer` per
character of the region, each reading the region as `updateMap` left it (flags not yet
cleared), and only then the clearing of the flags. An execution that runs to its end
reports these regions and these steps, between the setting and the clearing of the debug
lock and before the calls made for the delayed events. -/
theorem flags_cleared_before_drain (hooks : Region → RegionUpdate) (regions : List Region)
    (q : DelayedEvents) :
    (∀ r ∈ (updateRegions hooks regions q).2.1, r.active = true →
      (∀ o ∈ r.beings, o.updateFlags = 0 ∧ (o.canFight = true → o.hitsTaken = [])) ∧
      (∀ o ∈ r.items, o.updateFlags = 0)) ∧
    (∀ r ∈ regions, r.active = true →
      ∃ before after,
        (updateRegions hooks regions q).1 = before ++ Step.updateMap r.id ::
          ((((hooks r).beings.filter (fun p => p.type == ObjectType.OBJECT_CHARACTER)).map
              (fun p => Step.informPlayer r.id p
                { r with beings := (hooks r).beings, items := (hooks r).items }))
            ++ Step.clearFlags r.id :: after)) ∧
    (∀ (getType : ObjectPtr → ObjectType) (out : UpdateOutcome),
      update getType hooks regions q = some out →
      out.regions = (updateRegions hooks regions q).2.1 ∧
      ∃ calls : List Call, out.steps = Step.lock true :: ((updateRegions hooks regions q).1 ++
        Step.lock false :: calls.map (fun c => Step.lifecycle c false))) := by
  refine ⟨?_, ?_, ?_⟩
  · intro r hr hact
    rw [updateRegions_regions, List.mem_map] at hr
    obtain ⟨r0, _, rfl⟩ := hr
    unfold regionAfter at hact ⊢
    by_cases h0 : r0.active = true
    · rw [if_pos h0]
      exact ⟨clearFlags_beings _, clearFlags_items _⟩
    · rw [if_neg h0] at hact
      exact absurd hact h0
  · intro r hr hact
    obtain ⟨l1, l2, hl⟩ := List.append_of_mem hr
    refine ⟨l1.flatMap (regionSteps hooks), l2.flatMap (regionSteps hooks), ?_⟩
    rw [updateRegions_steps, hl]
    simp [regionSteps, hact, informPlayers]
  · intro getType out hout
    obtain ⟨calls, _, hsteps, hregions, _⟩ := update_eq getType hooks regions q out hout
    exact ⟨by rw [hregions, updateRegions_regions],
      calls, by rw [hsteps, updateRegions_steps]⟩

/-- Witness for C26: the same execution as for C25; the regions when the walk over the
delayed events begins, and the steps made for the active region. -/
theorem flags_cleared_before_drain_witness :
    (∀ r ∈ [sampleRegion.clearFlags, sampleIdleRegion], r.active = true →
      (∀ o ∈ r.beings, o.updateFlags = 0 ∧ (o.canFight = true → o.hitsTaken = [])) ∧
      (∀ o ∈ r.items, o.updateFlags = 0)) ∧
    (∀ r ∈ [sampleRegion, sampleIdleRegion], r.active = true →
      ∃ before after,
        [Step.updateMap 1, Step.informPlayer 1 sampleCharacter sampleRegion,
          Step.clearFlags 1] = before ++ Step.updateMap r.id ::
          ((((sampleHooks r).beings.filter
                (fun p => p.type == ObjectType.OBJECT_CHARACTER)).map
              (fun p => Step.informPlayer r.id p
                { r with beings := (sampleHooks r).beings, items := (sampleHooks r).items }))
            ++ Step.clearFlags r.id :: after)) :=
  ⟨(flags_cleared_before_drain sampleHooks [sampleRegion, sampleIdleRegion]
      (enqueueAll [Request.warp 7 1 10 20] [])).1,
   (flags_cleared_before_drain sampleHooks [sampleRegion, sampleIdleRegion]
      (enqueueAll [Request.warp 7 1 10 20] [])).2.1⟩

/-! ## Lemmas on `Monster::update` -/

theorem hasFlag_or_self (a b : Nat) (hb : b ≠ 0) : hasFlag (a ||| b) b = true := by
  have h : (a ||| b) &&& b = b := by
    apply Nat.eq_of_testBit_eq
    intro i
    simp only [Nat.testBit_and, Nat.testBit_or]
    cases a.testBit i <;> cases b.testBit i <;> rfl
  simp [hasFlag, h, hb]

theorem Monster.update_counting (ops : BeingOps) (m : Monster) (r1 r2 r3 : Nat)
    (h : m.mCountDown ≠ 0) :
    Monster.update ops m r1 r2 r3 = ({ base := m.base, mCountDown := m.mCountDown - 1 }, []) := by
  unfold Monster.update
  rw [if_neg h]

theorem Monster.update_dead (ops : BeingOps) (m : Monster) (r1 r2 r3 : Nat)
    (h : m.mCountDown = 0) (hdead : m.base.action = ops.DEAD) :
    Monster.update ops m r1 r2 r3 =
      ({ base := m.base.raiseUpdateFlags UPDATEFLAG_REMOVE, mCountDown := m.mCountDown },
        [MonsterCall.raiseUpdateFlags UPDATEFLAG_REMOVE]) := by
  unfold Monster.update
  rw [if_pos h, if_neg (not_not.mpr hdead)]

/-- While the action stays `DEAD`, the monster that the call number `n` finds is dead and
its countdown is `50 - n`. -/
theorem Monster.before_dead (ops : BeingOps) (env : Nat → Monster → Monster)
    (rand : Nat → Nat × Nat × Nat) (m : Monster)
    (hdie : (ops.die m.base).action = ops.DEAD)
    (hcd : ∀ k x, (env k x).mCountDown = x.mCountDown)
    (hdead : ∀ k x, x.base.action = ops.DEAD → (env k x).base.action = ops.DEAD) (n : Nat) :
    (Monster.before ops env rand (Monster.die ops m) n).base.action = ops.DEAD ∧
    (Monster.before ops env rand (Monster.die ops m) n).mCountDown = 50 - n := by
  induction n with
  | zero =>
    exact ⟨hdead 0 _ hdie, by rw [Monster.before, hcd]; rfl⟩
  | succ n ih =>
    obtain ⟨ha, hc⟩ := ih
    rw [Monster.before]
    by_cases hz : (Monster.before ops env rand (Monster.die ops m) n).mCountDown = 0
    · rw [Monster.update_dead ops _ _ _ _ hz ha]
      refine ⟨hdead _ _ ha, ?_⟩
      rw [hcd]
      show (Monster.before ops env rand (Monster.die ops m) n).mCountDown = 50 - (n + 1)
      omega
    · rw [Monster.update_counting ops _ _ _ _ hz]
      refine ⟨hdead _ _ ha, ?_⟩
      rw [hcd]
      show (Monster.before ops env rand (Monster.die ops m) n).mCountDown - 1 = 50 - (n + 1)
      omega

/-! ## Theorems on `Monster::update` -/

/-- C31: monster removal countdown. `Monster::die` sets the countdown to `50`. If
`Being::die` leaves the action `DEAD` and, between the calls of `Monster::update`, the rest
of the server leaves the countdown alone and a dead monster dead, then: each of the first
`50` calls makes no call on the monster, leaves its base-class part (flags included) as it
found it and decrements the countdown, to `49 - n` for the call number `n` counted from
`0`; the call number `50`, the 51st, and every later call raise `UPDATEFLAG_REMOVE` and
make no other call; and no call of `Monster::update` calls `setDestination` or changes the
destination. -/
theorem monster_removal_countdown (ops : BeingOps) (env : Nat → Monster → Monster)
    (rand : Nat → Nat × Nat × Nat) (m : Monster)
    (hdie : (ops.die m.base).action = ops.DEAD)
    (hcd : ∀ k x, (env k x).mCountDown = x.mCountDown)
    (hdead : ∀ k x, x.base.action = ops.DEAD → (env k x).base.action = ops.DEAD) :
    (Monster.die ops m).mCountDown = 50 ∧
    (∀ n, n < 50 →
      (Monster.nthUpdate ops env rand (Monster.die ops m) n).2 = [] ∧
      (Monster.nthUpdate ops env rand (Monster.die ops m) n).1.mCountDown = 49 - n ∧
      (Monster.nthUpdate ops env rand (Monster.die ops m) n).1.base =
        (Monster.before ops env rand (Monster.die ops m) n).base) ∧
    (∀ n, 50 ≤ n →
      (Monster.nthUpdate ops env rand (Monster.die ops m) n).2 =
        [MonsterCall.raiseUpdateFlags UPDATEFLAG_REMOVE] ∧
      hasFlag (Monster.nthUpdate ops env rand (Monster.die ops m) n).1.base.updateFlags
        UPDATEFLAG_REMOVE = true ∧
      (Monster.nthUpdate ops env rand (Monster.die ops m) n).1.mCountDown = 0) ∧
    (∀ n,
      (∀ p, MonsterCall.setDestination p ∉
        (Monster.nthUpdate ops env rand (Monster.die ops m) n).2) ∧
      (Monster.nthUpdate ops env rand (Monster.die ops m) n).1.base.destination =
        (Monster.before ops env rand (Monster.die ops m) n).base.destination) := by
  refine ⟨rfl, ?_, ?_, ?_⟩
  · intro n hn
    obtain ⟨_, hc⟩ := Monster.before_dead ops env rand m hdie hcd hdead n
    have hz : (Monster.before ops env rand (Monster.die ops m) n).mCountDown ≠ 0 := by omega
    unfold Monster.nthUpdate
    rw [Monster.update_counting ops _ _ _ _ hz]
    refine ⟨rfl, ?_, rfl⟩
    show (Monster.before ops env rand (Monster.die ops m) n).mCountDown - 1 = 49 - n
    omega
  · intro n hn
    obtain ⟨ha, hc⟩ := Monster.before_dead ops env rand m hdie hcd hdead n
    have hz : (Monster.before ops env rand (Monster.die ops m) n).mCountDown = 0 := by omega
    unfold Monster.nthUpdate
    rw [Monster.update_dead ops _ _ _ _ hz ha]
    exact ⟨rfl, hasFlag_or_self _ _ (by decide), hz⟩
  · intro n
    obtain ⟨ha, _⟩ := Monster.before_dead ops env rand m hdie hcd hdead n
    unfold Monster.nthUpdate
    by_cases hz : (Monster.before ops env rand (Monster.die ops m) n).mCountDown = 0
    · rw [Monster.update_dead ops _ _ _ _ hz ha]
      exact ⟨fun p hp => by simp at hp, rfl⟩
    · rw [Monster.update_counting ops _ _ _ _ hz]
      exact ⟨fun p hp => by simp at hp, rfl⟩

/-- Witness for C31: `sampleMonster` dies; between the calls the update flags are cleared. -/
theorem monster_removal_countdown_witness :
    (Monster.die sampleBeingOps sampleMonster).mCountDown = 50 ∧
    (∀ n, n < 50 →
      (Monster.nthUpdate sampleBeingOps sampleEnv (fun _ => (0, 0, 0))
        (Monster.die sampleBeingOps sampleMonster) n).2 = [] ∧
      (Monster.nthUpdate sampleBeingOps sampleEnv (fun _ => (0, 0, 0))
        (Monster.die sampleBeingOps sampleMonster) n).1.mCountDown = 49 - n ∧
      (Monster.nthUpdate sampleBeingOps sampleEnv (fun _ => (0, 0, 0))
        (Monster.die sampleBeingOps sampleMonster) n).1.base =
        (Monster.before sampleBeingOps sampleEnv (fun _ => (0, 0, 0))
          (Monster.die sampleBeingOps sampleMonster) n).base) ∧
    (∀ n, 50 ≤ n →
      (Monster.nthUpdate sampleBeingOps sampleEnv (fun _ => (0, 0, 0))
        (Monster.die sampleBeingOps sampleMonster) n).2 =
        [MonsterCall.raiseUpdateFlags UPDATEFLAG_REMOVE] ∧
      hasFlag (Monster.nthUpdate sampleBeingOps sampleEnv (fun _ => (0, 0, 0))
        (Monster.die sampleBeingOps sampleMonster) n).1.base.updateFlags
        UPDATEFLAG_REMOVE = true ∧
      (Monster.nthUpdate sampleBeingOps sampleEnv (fun _ => (0, 0, 0))
        (Monster.die sampleBeingOps sampleMonster) n).1.mCountDown = 0) ∧
    (∀ n,
      (∀ p, MonsterCall.setDestination p ∉
        (Monster.nthUpdate sampleBeingOps sampleEnv (fun _ => (0, 0, 0))
          (Monster.die sampleBeingOps sampleMonster) n).2) ∧
      (Monster.nthUpdate sampleBeingOps sampleEnv (fun _ => (0, 0, 0))
        (Monster.die sampleBeingOps sampleMonster) n).1.base.destination =
        (Monster.before sampleBeingOps sampleEnv (fun _ => (0, 0, 0))
          (Monster.die sampleBeingOps sampleMonster) n).base.destination) :=
  monster_removal_countdown sampleBeingOps sampleEnv (fun _ => (0, 0, 0)) sampleMonster
    rfl (fun _ _ => rfl) (fun _ _ h => h)

/-! ## Lemmas on `AccountHandler::receiveMessage` -/

theorem AccountHandler.charCreate_nologin (d : Defines) (ops : AccountOps) (store : Storage)
    (c : NetComputer) (message : MessageIn) (h : c.account = none) :
    AccountHandler.charCreate d ops store c message =
      { computer := c,
        result :=
          { written := [Written.short (Value.enumerator .SMSG_CHAR_CREATE_RESPONSE),
                        Written.byte (Value.enumerator .CREATE_NOLOGIN)] },
        storeCalls := [] } := by
  unfold AccountHandler.charCreate
  simp only [h]
  rfl

theorem AccountHandler.charCreate_full (d : Defines) (ops : AccountOps) (store : Storage)
    (c : NetComputer) (message : MessageIn) (a : tmwserv.Account) (h : c.account = some a)
    (hfull : d.MAX_OF_CHARACTERS ≤ a.characters.length) :
    AccountHandler.charCreate d ops store c message =
      { computer := c,
        result :=
          { written := [Written.short (Value.enumerator .SMSG_CHAR_CREATE_RESPONSE),
                        Written.byte (Value.enumerator .CREATE_TOO_MUCH_CHARACTERS)] },
        storeCalls := [] } := by
  unfold AccountHandler.charCreate
  simp only [h]
  rw [if_pos hfull]
  rfl

/-- One `CMSG_CHAR_CREATE` request keeps the account of the connection within the limit
when `addCharacter` adds at most one character. -/
theorem AccountHandler.charCreate_bound (d : Defines) (ops : AccountOps) (store : Storage)
    (c : NetComputer) (message : MessageIn)
    (hadd : ∀ a b, (ops.addCharacter a b).characters.length ≤ a.characters.length + 1)
    (hc : ∀ a, c.account = some a → a.characters.length ≤ d.MAX_OF_CHARACTERS) :
    ∀ a, (AccountHandler.charCreate d ops store c message).computer.account = some a →
      a.characters.length ≤ d.MAX_OF_CHARACTERS := by
  intro a ha
  cases hacc : c.account with
  | none =>
    rw [AccountHandler.charCreate_nologin d ops store c message hacc] at ha
    exact hc a ha
  | some acc =>
    by_cases hfull : d.MAX_OF_CHARACTERS ≤ acc.characters.length
    · rw [AccountHandler.charCreate_full d ops store c message acc hacc hfull] at ha
      exact hc a ha
    · unfold AccountHandler.charCreate at ha
      simp only [hacc] at ha
      rw [if_neg hfull] at ha
      by_cases hex : store.doesCharacterNameExists message.string1 = true
      · rw [if_pos hex] at ha
        exact hc a ha
      · rw [if_neg hex] at ha
        by_cases hlen : stdStringLength message.string1 < d.MIN_CHARACTER_LENGTH
            ∨ stdStringLength message.string1 > d.MAX_CHARACTER_LENGTH
        · rw [if_pos hlen] at ha
          exact hc a ha
        · rw [if_neg hlen] at ha
          simp only [Option.some.injEq] at ha
          subst ha
          have h1 := hadd acc (tmwserv.Being.new message.string1 message.byte 1 0
            { strength := 10, agility := 10, vitality := 10, intelligence := 10,
              dexterity := 10, luck := 10 })
          omega

theorem AccountHandler.receiveMessage_charCreate (d : Defines) (ops : AccountOps)
    (store : Storage) (c : NetComputer) (message : MessageIn)
    (hid : message.id = some Enumerator.CMSG_CHAR_CREATE) :
    AccountHandler.receiveMessage d ops store c message =
      AccountHandler.charCreate d ops store c message := by
  unfold AccountHandler.receiveMessage
  rw [hid]

theorem AccountHandler.receiveAll_bound (d : Defines) (ops : AccountOps)
    (hadd : ∀ a b, (ops.addCharacter a b).characters.length ≤ a.characters.length + 1)
    (reqs : List (Storage × MessageIn))
    (hreq : ∀ r ∈ reqs, r.2.id = some Enumerator.CMSG_CHAR_CREATE) (c : NetComputer)
    (hc : ∀ a, c.account = some a → a.characters.length ≤ d.MAX_OF_CHARACTERS) :
    ∀ a, (AccountHandler.receiveAll d ops c reqs).account = some a →
      a.characters.length ≤ d.MAX_OF_CHARACTERS := by
  induction reqs generalizing c with
  | nil => exact hc
  | cons r rest ih =>
    obtain ⟨store, message⟩ := r
    rw [AccountHandler.receiveAll]
    apply ih (fun r hr => hreq r (List.mem_cons_of_mem _ hr))
    rw [AccountHandler.receiveMessage_charCreate d ops store c message
      (hreq (store, message) (List.mem_cons_self _ _))]
    exact AccountHandler.charCreate_bound d ops store c message hadd hc

/-! ## Theorems on `AccountHandler::receiveMessage` -/

/-- C32: character limit. Let `addCharacter` add at most one character, and let the
account of the connection, if any, hold at most `MAX_OF_CHARACTERS` characters at the
start. Then for every sequence of `CMSG_CHAR_CREATE` requests handled by
`AccountHandler::receiveMessage`, after every number of them the account of the connection
holds at most `MAX_OF_CHARACTERS` characters. A create request on a connection whose
account already holds `MAX_OF_CHARACTERS` characters or more is answered with
`CREATE_TOO_MUCH_CHARACTERS` and changes neither the connection (so not the character
list) nor the store; a create request on a connection that is not logged in is answered
with `CREATE_NOLOGIN` and changes neither. -/
theorem character_limit (d : Defines) (ops : AccountOps) (computer : NetComputer)
    (reqs : List (Storage × MessageIn))
    (hadd : ∀ a b, (ops.addCharacter a b).characters.length ≤ a.characters.length + 1)
    (hreq : ∀ r ∈ reqs, r.2.id = some Enumerator.CMSG_CHAR_CREATE)
    (hinit : ∀ a, computer.account = some a → a.characters.length ≤ d.MAX_OF_CHARACTERS) :
    (∀ n a, (AccountHandler.receiveAll d ops computer (reqs.take n)).account = some a →
      a.characters.length ≤ d.MAX_OF_CHARACTERS) ∧
    (∀ (store : Storage) (c : NetComputer) (message : MessageIn) (a : tmwserv.Account),
      message.id = some Enumerator.CMSG_CHAR_CREATE → c.account = some a →
      d.MAX_OF_CHARACTERS ≤ a.characters.length →
      AccountHandler.receiveMessage d ops store c message =
        { computer := c,
          result :=
            { written := [Written.short (Value.enumerator .SMSG_CHAR_CREATE_RESPONSE),
                          Written.byte (Value.enumerator .CREATE_TOO_MUCH_CHARACTERS)] },
          storeCalls := [] }) ∧
    (∀ (store : Storage) (c : NetComputer) (message : MessageIn),
      message.id = some Enumerator.CMSG_CHAR_CREATE → c.account = none →
      AccountHandler.receiveMessage d ops store c message =
        { computer := c,
          result :=
            { written := [Written.short (Value.enumerator .SMSG_CHAR_CREATE_RESPONSE),
                          Written.byte (Value.enumerator .CREATE_NOLOGIN)] },
          storeCalls := [] }) := by
  refine ⟨?_, ?_, ?_⟩
  · intro n
    exact AccountHandler.receiveAll_bound d ops hadd (reqs.take n)
      (fun r hr => hreq r (List.mem_of_mem_take hr)) computer hinit
  · intro store c message a hid hacc hfull
    rw [AccountHandler.receiveMessage_charCreate d ops store c message hid]
    exact AccountHandler.charCreate_full d ops store c message a hacc hfull
  · intro store c message hid hacc
    rw [AccountHandler.receiveMessage_charCreate d ops store c message hid]
    exact AccountHandler.charCreate_nologin d ops store c message hacc

/-- Witness for C32: `sampleAccount` holds one character and four characters are asked
for; the third and the fourth request are refused, and the account holds three. -/
theorem character_limit_witness :
    (AccountHandler.receiveAll sampleDefines sampleAccountOps sampleLoggedIn
      [(sampleStore, sampleMessage .CMSG_CHAR_CREATE "Mage" "" ""),
       (sampleStore, sampleMessage .CMSG_CHAR_CREATE "Thief" "" ""),
       (sampleStore, sampleMessage .CMSG_CHAR_CREATE "Monk" "" ""),
       (sampleStore, sampleMessage .CMSG_CHAR_CREATE "Bard" "" "")]).account.map
        (fun a => a.characters.map (fun b => b.name)) = some ["Hero", "Mage", "Thief"] ∧
    ∀ n a, (AccountHandler.receiveAll sampleDefines sampleAccountOps sampleLoggedIn
      ([(sampleStore, sampleMessage .CMSG_CHAR_CREATE "Mage" "" ""),
        (sampleStore, sampleMessage .CMSG_CHAR_CREATE "Thief" "" ""),
        (sampleStore, sampleMessage .CMSG_CHAR_CREATE "Monk" "" ""),
        (sampleStore, sampleMessage .CMSG_CHAR_CREATE "Bard" "" "")].take n)).account =
          some a →
      a.characters.length ≤ 3 :=
  ⟨by decide,
   (character_limit sampleDefines sampleAccountOps sampleLoggedIn
      [(sampleStore, sampleMessage .CMSG_CHAR_CREATE "Mage" "" ""),
       (sampleStore, sampleMessage .CMSG_CHAR_CREATE "Thief" "" ""),
       (sampleStore, sampleMessage .CMSG_CHAR_CREATE "Monk" "" ""),
       (sampleStore, sampleMessage .CMSG_CHAR_CREATE "Bard" "" "")]
      (fun a b => by simp [sampleAccountOps])
      (by decide)
      (fun a h => by
        simp only [sampleLoggedIn, Option.some.injEq] at h
        subst h
        decide)).1⟩

/-- The case `CMSG_REGISTER` answers `REGISTER_OK` exactly when the length of the email is
within the limits, the store knows neither the email nor the username, the lengths of the
username and of the password are within the limits and `emailValid` is set; the account is
added to the store exactly then, and the connection is never changed. -/
theorem AccountHandler.register_ok_iff (d : Defines) (store : Storage) (c : NetComputer)
    (message : MessageIn) :
    ((AccountHandler.register d store c message).result.written =
        [Written.short (Value.enumerator .SMSG_REGISTER_RESPONSE),
         Written.byte (Value.enumerator .REGISTER_OK)] ↔
      (d.MIN_EMAIL_LENGTH ≤ stdStringLength message.string3 ∧
       stdStringLength message.string3 ≤ d.MAX_EMAIL_LENGTH ∧
       store.doesEmailAlreadyExists message.string3 = false ∧
       store.getAccount message.string1 = none ∧
       d.MIN_LOGIN_LENGTH ≤ stdStringLength message.string1 ∧
       stdStringLength message.string1 ≤ d.MAX_LOGIN_LENGTH ∧
       d.MIN_PASSWORD_LENGTH ≤ stdStringLength message.string2 ∧
       stdStringLength message.string2 ≤ d.MAX_PASSWORD_LENGTH ∧
       emailValid message.string3 = true)) ∧
    ((AccountHandler.register d store c message).storeCalls =
        (if (AccountHandler.register d store c message).result.written =
            [Written.short (Value.enumerator .SMSG_REGISTER_RESPONSE),
             Written.byte (Value.enumerator .REGISTER_OK)]
         then [StoreCall.addAccount
                 (tmwserv.Account.new message.string1 message.string2 message.string3),
               StoreCall.flush]
         else [])) ∧
    (AccountHandler.register d store c message).computer = c := by
  unfold AccountHandler.register
  by_cases h1 : stdStringLength message.string3 < d.MIN_EMAIL_LENGTH
      ∨ stdStringLength message.string3 > d.MAX_EMAIL_LENGTH
  · simp only [if_pos h1]
    refine ⟨⟨fun h => ?_, fun h => ?_⟩, ?_, trivial⟩
    · simp [Packet.empty, Packet.writeShort, Packet.writeByte] at h
    · omega
    · simp [Packet.empty, Packet.writeShort, Packet.writeByte]
  · simp only [if_neg h1]
    by_cases h2 : store.doesEmailAlreadyExists message.string3 = true
    · simp only [if_pos h2]
      refine ⟨⟨fun h => ?_, fun h => ?_⟩, ?_, trivial⟩
      · simp [Packet.empty, Packet.writeShort, Packet.writeByte] at h
      · rw [h.2.2.1] at h2; cases h2
      · simp [Packet.empty, Packet.writeShort, Packet.writeByte]
    · simp only [if_neg h2]
      by_cases h3 : (store.getAccount message.string1).isSome = true
      · simp only [if_pos h3]
        refine ⟨⟨fun h => ?_, fun h => ?_⟩, ?_, trivial⟩
        · simp [Packet.empty, Packet.writeShort, Packet.writeByte] at h
        · rw [h.2.2.2.1] at h3; cases h3
        · simp [Packet.empty, Packet.writeShort, Packet.writeByte]
      · simp only [if_neg h3]
        by_cases h4 : stdStringLength message.string1 < d.MIN_LOGIN_LENGTH
            ∨ stdStringLength message.string1 > d.MAX_LOGIN_LENGTH
        · simp only [if_pos h4]
          refine ⟨⟨fun h => ?_, fun h => ?_⟩, ?_, trivial⟩
          · simp [Packet.empty, Packet.writeShort, Packet.writeByte] at h
          · omega
          · simp [Packet.empty, Packet.writeShort, Packet.writeByte]
        · simp only [if_neg h4]
          by_cases h5 : stdStringLength message.string2 < d.MIN_PASSWORD_LENGTH
              ∨ stdStringLength message.string2 > d.MAX_PASSWORD_LENGTH
          · simp only [if_pos h5]
            refine ⟨⟨fun h => ?_, fun h => ?_⟩, ?_, trivial⟩
            · simp [Packet.empty, Packet.writeShort, Packet.writeByte] at h
            · omega
            · simp [Packet.empty, Packet.writeShort, Packet.writeByte]
          · simp only [if_neg h5]
            by_cases h6 : emailValid message.string3 = true
            · have h6n : ¬ ((!emailValid message.string3) = true) := by simp [h6]
              simp only [if_neg h6n]
              refine ⟨⟨fun _ => ?_, fun _ => ?_⟩, ?_, trivial⟩
              · refine ⟨by omega, by omega, by simpa using h2, by simpa using h3,
                  by omega, by omega, by omega, by omega, h6⟩
              · simp [Packet.empty, Packet.writeShort, Packet.writeByte]
              · simp [Packet.empty, Packet.writeShort, Packet.writeByte]
            · have h6p : (!emailValid message.string3) = true := by simpa using h6
              simp only [if_pos h6p]
              refine ⟨⟨fun h => ?_, fun h => ?_⟩, ?_, trivial⟩
              · simp [Packet.empty, Packet.writeShort, Packet.writeByte] at h
              · exact absurd h.2.2.2.2.2.2.2.2 h6
              · simp [Packet.empty, Packet.writeShort, Packet.writeByte]

theorem findFrom_replicate (c x : Char) (hne : x ≠ c) (n i : Nat) :
    findFrom c (List.replicate n x) i = none := by
  induction n generalizing i with
  | zero => rfl
  | succ n ih =>
    rw [List.replicate_succ, findFrom, if_neg hne]
    exact ih (i + 1)

theorem utf8ByteSize_go_replicate (n : Nat) :
    String.utf8ByteSize.go (List.replicate n 'a') = n := by
  induction n with
  | zero => rfl
  | succ n ih =>
    show String.utf8ByteSize.go (List.replicate n 'a') + Char.utf8Size 'a' = n + 1
    rw [ih]
    rfl

/-- An email made of `@.` and any number of letters `a` after it sets `emailValid`, and
its length is that number plus two: whatever the limits on the length, an email with
nothing before the `@` and nothing between the `@` and the `.` passes the test. -/
theorem emailValid_padded (n : Nat) :
    emailValid (String.mk ('@' :: '.' :: List.replicate n 'a')) = true ∧
    stdStringLength (String.mk ('@' :: '.' :: List.replicate n 'a')) = n + 2 := by
  constructor
  · have h : find_first_of (String.mk ('@' :: '.' :: List.replicate n 'a')) (Char.ofNat 32) 0
        = none := by
      unfold find_first_of
      simp only [String.toList, List.drop_zero]
      rw [findFrom, if_neg (by decide), findFrom, if_neg (by decide)]
      exact findFrom_replicate _ _ (by decide) n _
    unfold emailValid
    have h1 : find_first_of (String.mk ('@' :: '.' :: List.replicate n 'a')) '@' 0 = some 0 := by
      unfold find_first_of
      simp only [String.toList, List.drop_zero]
      rw [findFrom, if_pos rfl]
    have h2 : find_first_of (String.mk ('@' :: '.' :: List.replicate n 'a')) '.' 0 = some 1 := by
      unfold find_first_of
      simp only [String.toList, List.drop_zero]
      rw [findFrom, if_neg (by decide), findFrom, if_pos rfl]
    rw [h1]
    simp only [h2]
    rw [h]
  · unfold stdStringLength String.utf8ByteSize
    show String.utf8ByteSize.go (List.replicate n 'a') + Char.utf8Size '.' + Char.utf8Size '@'
      = n + 2
    rw [utf8ByteSize_go_replicate]
    rfl

/-- C33: the registration accepts an email that is not of the `a@b.c` form. The email
`@.aaaaa` has nothing before its `@` (found at index `0`) and nothing between the `@` and
the `.` that follows it (found at index `1`); it holds no space, and its length `7` is
within the limits. The flag `emailValid` is set for it, and the request is answered with
`REGISTER_OK` and the account is added to the store. It is the same for `aaaa@a.`, which
has nothing after its only `.`. -/
theorem register_accepts_malformed_email :
    find_first_of "@.aaaaa" '@' 0 = some 0 ∧
    find_first_of "@.aaaaa" '.' 0 = some 1 ∧
    stdStringLength "@.aaaaa" = 7 ∧
    emailValid "@.aaaaa" = true ∧
    AccountHandler.receiveMessage sampleDefines sampleAccountOps sampleStore sampleComputer
        (sampleMessage .CMSG_REGISTER "bobby" "secret" "@.aaaaa") =
      { computer := sampleComputer,
        result :=
          { written := [Written.short (Value.enumerator .SMSG_REGISTER_RESPONSE),
                        Written.byte (Value.enumerator .REGISTER_OK)] },
        storeCalls :=
          [StoreCall.addAccount (tmwserv.Account.new "bobby" "secret" "@.aaaaa"),
           StoreCall.flush] } ∧
    find_first_of "aaaa@a." '.' 4 = some 6 ∧
    stdStringLength "aaaa@a." = 7 ∧
    (AccountHandler.receiveMessage sampleDefines sampleAccountOps sampleStore sampleComputer
        (sampleMessage .CMSG_REGISTER "bobby" "secret" "aaaa@a.")).storeCalls =
      [StoreCall.addAccount (tmwserv.Account.new "bobby" "secret" "aaaa@a."),
       StoreCall.flush] := by
  decide

theorem Packet.foldl_written (f : Packet → tmwserv.Being → Packet)
    (hf : ∀ r x, ∃ l, (f r x).written = r.written ++ l) (chars : List tmwserv.Being)
    (r : Packet) : ∃ l, (chars.foldl f r).written = r.written ++ l := by
  induction chars generalizing r with
  | nil => exact ⟨[], by simp⟩
  | cons x rest ih =>
    obtain ⟨l1, h1⟩ := hf r x
    obtain ⟨l2, h2⟩ := ih (f r x)
    exact ⟨l1 ++ l2, by rw [List.foldl_cons, h2, h1, List.append_assoc]⟩

/-- The case `CMSG_LOGIN`, branch by branch: the connection and the packet afterwards. -/
theorem AccountHandler.login_cases (store : Storage) (c : NetComputer) (message : MessageIn) :
    (c.account ≠ none ∧
      AccountHandler.login store c message =
        { computer := c,
          result :=
            { written := [Written.short (Value.enumerator .SMSG_LOGIN_ERROR),
                          Written.short (Value.enumerator .LOGIN_ALREADY_LOGGED)] },
          storeCalls := [] }) ∨
    (c.account = none ∧ store.getAccount message.string1 = none ∧
      AccountHandler.login store c message =
        { computer := c,
          result :=
            { written := [Written.short (Value.enumerator .SMSG_LOGIN_ERROR),
                          Written.byte (Value.enumerator .LOGIN_INVALID_USERNAME)] },
          storeCalls := [] }) ∨
    (c.account = none ∧
      (∃ acc, store.getAccount message.string1 = some acc ∧ acc.password ≠ message.string2) ∧
      AccountHandler.login store c message =
        { computer := c,
          result :=
            { written := [Written.short (Value.enumerator .SMSG_LOGIN_ERROR),
                          Written.byte (Value.enumerator .LOGIN_INVALID_PASSWORD)] },
          storeCalls := [] }) ∨
    (c.account = none ∧
      ∃ acc rest, store.getAccount message.string1 = some acc ∧
        acc.password = message.string2 ∧
        (AccountHandler.login store c message).computer = c.setAccount acc ∧
        (AccountHandler.login store c message).result.written =
          Written.short (Value.enumerator .SMSG_LOGIN_CONFIRM) :: rest ∧
        (AccountHandler.login store c message).storeCalls = []) := by
  unfold AccountHandler.login
  by_cases h1 : c.account ≠ none
  · left
    exact ⟨h1, by simp only [if_pos h1]; rfl⟩
  · right
    have h1e : c.account = none := not_not.mp h1
    simp only [if_neg h1]
    cases hacc : store.getAccount message.string1 with
    | none =>
      left
      exact ⟨h1e, rfl, rfl⟩
    | some acc =>
      right
      by_cases h2 : acc.password ≠ message.string2
      · left
        exact ⟨h1e, ⟨acc, rfl, h2⟩, by simp only [if_pos h2]; rfl⟩
      · right
        dsimp only
        rw [if_neg h2]
        obtain ⟨l, hl⟩ := Packet.foldl_written (fun r ch => r.writeString ch.name)
          (fun r x => ⟨_, rfl⟩) acc.characters
          ((Packet.empty.writeShort .SMSG_LOGIN_CONFIRM).writeByteValue acc.characters.length)
        exact ⟨h1e, acc, Written.byte (Value.number (acc.characters.length % 256)) :: l, rfl,
          not_not.mp h2, rfl, hl.trans rfl, rfl⟩

/-- The packets of `AccountHandler::receiveMessage` that begin with `SMSG_LOGIN_ERROR`: the
connection and the store are left as they were, and the packet is the tag followed either
by `LOGIN_ALREADY_LOGGED`, written as a short, for a `CMSG_LOGIN` on a connection that has
an account, or by one of `LOGIN_INVALID_USERNAME`, `LOGIN_INVALID_PASSWORD` and
`LOGIN_UNKNOWN`, written as a byte. -/
theorem AccountHandler.login_error_layout (d : Defines) (ops : AccountOps) (store : Storage)
    (c : NetComputer) (message : MessageIn)
    (h : (AccountHandler.receiveMessage d ops store c message).result.written.head? =
      some (Written.short (Value.enumerator .SMSG_LOGIN_ERROR))) :
    (AccountHandler.receiveMessage d ops store c message).computer = c ∧
    (AccountHandler.receiveMessage d ops store c message).storeCalls = [] ∧
    (((AccountHandler.receiveMessage d ops store c message).result.written =
        [Written.short (Value.enumerator .SMSG_LOGIN_ERROR),
         Written.short (Value.enumerator .LOGIN_ALREADY_LOGGED)] ∧
      message.id = some Enumerator.CMSG_LOGIN ∧ c.account ≠ none) ∨
     ∃ code ∈ [Enumerator.LOGIN_INVALID_USERNAME, Enumerator.LOGIN_INVALID_PASSWORD,
        Enumerator.LOGIN_UNKNOWN],
      (AccountHandler.receiveMessage d ops store c message).result.written =
        [Written.short (Value.enumerator .SMSG_LOGIN_ERROR),
         Written.byte (Value.enumerator code)]) := by
  have hdefault : ∀ r : Received,
      r = { computer := c,
            result := (Packet.empty.writeShort .SMSG_LOGIN_ERROR).writeByte .LOGIN_UNKNOWN,
            storeCalls := [] } →
      r.computer = c ∧ r.storeCalls = [] ∧
      ∃ code ∈ [Enumerator.LOGIN_INVALID_USERNAME, Enumerator.LOGIN_INVALID_PASSWORD,
          Enumerator.LOGIN_UNKNOWN],
        r.result.written =
          [Written.short (Value.enumerator .SMSG_LOGIN_ERROR),
           Written.byte (Value.enumerator code)] := by
    intro r hr
    subst hr
    exact ⟨rfl, rfl, Enumerator.LOGIN_UNKNOWN, by simp, rfl⟩
  cases hid : message.id with
  | none =>
    obtain ⟨h1, h2, h3⟩ := hdefault (AccountHandler.receiveMessage d ops store c message)
      (by unfold AccountHandler.receiveMessage; rw [hid])
    exact ⟨h1, h2, Or.inr h3⟩
  | some e =>
    unfold AccountHandler.receiveMessage at h ⊢
    rw [hid] at h ⊢
    cases e
    case CMSG_LOGIN =>
      change (AccountHandler.login store c message).result.written.head? = _ at h
      change (AccountHandler.login store c message).computer = c ∧
        (AccountHandler.login store c message).storeCalls = [] ∧
        (((AccountHandler.login store c message).result.written = _ ∧ _ ∧ _) ∨
          ∃ code ∈ _, (AccountHandler.login store c message).result.written = _)
      rcases AccountHandler.login_cases store c message with
        ⟨hc, heq⟩ | ⟨_, _, heq⟩ | ⟨_, _, heq⟩ | ⟨_, acc, rest, _, _, _, hw, _⟩
      · rw [heq]
        exact ⟨rfl, rfl, Or.inl ⟨rfl, rfl, hc⟩⟩
      · rw [heq]
        exact ⟨rfl, rfl, Or.inr ⟨Enumerator.LOGIN_INVALID_USERNAME, by simp, rfl⟩⟩
      · rw [heq]
        exact ⟨rfl, rfl, Or.inr ⟨Enumerator.LOGIN_INVALID_PASSWORD, by simp, rfl⟩⟩
      · rw [hw] at h
        simp at h
    case CMSG_LOGOUT =>
      exfalso
      simp only [AccountHandler.logout] at h
      cases hacc : c.account with
      | none => simp [hacc, Packet.empty, Packet.writeShort, Packet.writeByte] at h
      | some acc =>
        by_cases hn : acc.name = ""
        · simp [hacc, hn, Packet.empty, Packet.writeShort, Packet.writeByte] at h
        · simp [hacc, hn, Packet.empty, Packet.writeShort, Packet.writeByte] at h
    case CMSG_REGISTER =>
      exfalso
      simp only [AccountHandler.register] at h
      split_ifs at h <;>
        simp [Packet.empty, Packet.writeShort, Packet.writeByte] at h
    case CMSG_UNREGISTER =>
      exfalso
      simp only [AccountHandler.unregister] at h
      cases hacc : store.getAccount message.string1 with
      | none => simp [hacc, Packet.empty, Packet.writeShort, Packet.writeByte] at h
      | some acc =>
        simp only [hacc] at h
        split_ifs at h <;>
          simp [Packet.empty, Packet.writeShort, Packet.writeByte] at h
    case CMSG_CHAR_CREATE =>
      exfalso
      simp only [AccountHandler.charCreate] at h
      cases hacc : c.account with
      | none => simp [hacc, Packet.empty, Packet.writeShort, Packet.writeByte] at h
      | some acc =>
        simp only [hacc] at h
        split_ifs at h <;>
          simp [Packet.empty, Packet.writeShort, Packet.writeByte] at h
    case CMSG_CHAR_SELECT =>
      exfalso
      simp only [AccountHandler.charSelect] at h
      cases hacc : c.account with
      | none => simp [hacc, Packet.empty, Packet.writeShort, Packet.writeByte] at h
      | some acc =>
        simp only [hacc] at h
        split_ifs at h
        · simp [Packet.empty, Packet.writeShort, Packet.writeByte] at h
        · split at h <;> simp [Packet.empty, Packet.writeShort, Packet.writeByte] at h
    case CMSG_CHAR_DELETE =>
      exfalso
      simp only [AccountHandler.charDelete] at h
      cases hacc : c.account with
      | none => simp [hacc, Packet.empty, Packet.writeShort, Packet.writeByte] at h
      | some acc =>
        simp only [hacc] at h
        split_ifs at h
        · simp [Packet.empty, Packet.writeShort, Packet.writeByte] at h
        · split at h <;> simp [Packet.empty, Packet.writeShort, Packet.writeByte] at h
    case CMSG_CHAR_LIST =>
      exfalso
      simp only [AccountHandler.charList] at h
      cases hacc : c.account with
      | none => simp [hacc, Packet.empty, Packet.writeShort, Packet.writeByte] at h
      | some acc =>
        simp only [hacc] at h
        obtain ⟨l, hl⟩ := Packet.foldl_written AccountHandler.writeCharacter
          (fun r x => ⟨_, by
            simp only [AccountHandler.writeCharacter, Packet.writeString,
              Packet.writeByteValue, List.append_assoc]
            rfl⟩) acc.characters
          (((Packet.empty.writeShort .SMSG_CHAR_LIST_RESPONSE).writeByte
            .CHAR_LIST_OK).writeByteValue acc.characters.length)
        rw [hl] at h
        simp [Packet.empty, Packet.writeShort, Packet.writeByte, Packet.writeByteValue] at h
    all_goals
      obtain ⟨h1, h2, h3⟩ := hdefault _ rfl
      exact ⟨h1, h2, Or.inr h3⟩

/-- C34: the login errors have not all the same layout. A `CMSG_LOGIN` on a connection that
already has an account is answered with the tag `SMSG_LOGIN_ERROR` followed by
`LOGIN_ALREADY_LOGGED` written as a short, four bytes in all, whereas an unknown account,
a wrong password and an unknown message type are answered with the tag followed by the
code written as a byte, three bytes in all. In each of the four the connection keeps the
account it had. -/
theorem login_already_logged_is_written_as_short :
    AccountHandler.receiveMessage sampleDefines sampleAccountOps sampleStore sampleLoggedIn
        (sampleMessage .CMSG_LOGIN "alice" "secret" "") =
      { computer := sampleLoggedIn,
        result :=
          { written := [Written.short (Value.enumerator .SMSG_LOGIN_ERROR),
                        Written.short (Value.enumerator .LOGIN_ALREADY_LOGGED)] },
        storeCalls := [] } ∧
    (AccountHandler.receiveMessage sampleDefines sampleAccountOps sampleStore sampleLoggedIn
        (sampleMessage .CMSG_LOGIN "alice" "secret" "")).result.length = 4 ∧
    AccountHandler.receiveMessage sampleDefines sampleAccountOps sampleStore sampleComputer
        (sampleMessage .CMSG_LOGIN "nobody" "secret" "") =
      { computer := sampleComputer,
        result :=
          { written := [Written.short (Value.enumerator .SMSG_LOGIN_ERROR),
                        Written.byte (Value.enumerator .LOGIN_INVALID_USERNAME)] },
        storeCalls := [] } ∧
    AccountHandler.receiveMessage sampleDefines sampleAccountOps sampleStore sampleComputer
        (sampleMessage .CMSG_LOGIN "alice" "wrong" "") =
      { computer := sampleComputer,
        result :=
          { written := [Written.short (Value.enumerator .SMSG_LOGIN_ERROR),
                        Written.byte (Value.enumerator .LOGIN_INVALID_PASSWORD)] },
        storeCalls := [] } ∧
    AccountHandler.receiveMessage sampleDefines sampleAccountOps sampleStore sampleLoggedIn
        { id := none, string1 := "", string2 := "", string3 := "", byte := 0 } =
      { computer := sampleLoggedIn,
        result :=
          { written := [Written.short (Value.enumerator .SMSG_LOGIN_ERROR),
                        Written.byte (Value.enumerator .LOGIN_UNKNOWN)] },
        storeCalls := [] } ∧
    (AccountHandler.receiveMessage sampleDefines sampleAccountOps sampleStore sampleComputer
        (sampleMessage .CMSG_LOGIN "nobody" "secret" "")).result.length = 3 := by
  decide

end GameState
